import Mathlib

/-!
# ShadowCasting: edge extraction, ray casting and the visibility polygon

A shallow embedding of `src/main.cpp` (class template `SFMLGrid<GridWidth, GridHeight>`
and the polygon construction of `main`).

Modelling conventions

* `float` / `double` values are exact rationals (`ℚ`) and, unless said otherwise, the
  operations on them are exact.  Where what the source decides depends on rounding, the
  operations are rounded as IEEE 754 does (`f32`, `f64`): in `screenToCell`, and in
  `getIntersectionPointRounded`, a second embedding of `getIntersectionPoint`.
* `size_t` and `int` edge ids are unbounded integers; `(size_t)-1` stored into an `int`
  reads back as `-1`, and an `int` below zero passed as `size_t` is at least the size of
  any vector.
* `mGrid` is declared `std::array<std::array<Cell, GridWidth>, GridHeight>` and is
  indexed `mGrid[x][y]`.  The storage is a list of rows; an access outside the storage
  has no defined behaviour and makes the embedded operation return `none`.
* `std::cos`, `std::sin`, `std::sqrt`, `atan2`, `std::lerp` on `float` and `std::sort` are
  library code and are taken as parameters; `sortHits` is a model of the one call of
  `std::sort` in `main`, with the comparator of that call.
-/

namespace ShadowCasting

/-! ## Data model -/

/-- Plane vector `sf::Vector2f`: the pair `(x, y)`. -/
abbrev Vector2f := ℚ × ℚ

/-- Element of `mEdges`: `std::tuple<sf::Vector2f, sf::Vector2f>`, `(pointA, pointB)`. -/
abbrev Edge := Vector2f × Vector2f

/-- Grid cell `SFMLGrid::Cell`; `edgeIds` has the four slots 0 west, 1 north, 2 east,
3 south, with `-1` for "no edge". -/
structure Cell where
  isSet : Bool
  edgeIds : Fin 4 → Int

/-- The value `{-1, -1, -1, -1}` of `edgeIds`. -/
def noEdgeIds : Fin 4 → Int := fun _ => -1

/-- Data members of `SFMLGrid`: the cell storage `mGrid` and the edge vector `mEdges`. -/
structure SFMLGrid where
  mGrid : List (List Cell)
  mEdges : List Edge

/-- Read access `mGrid[x][y]`: the outer index selects a row of the storage, the inner
index a cell of that row; `none` when either index is outside the storage. -/
def getCell (m : List (List Cell)) (x y : Nat) : Option Cell :=
  match m[x]? with
  | none => none
  | some row => row[y]?

/-- Write access `mGrid[x][y] = c`; `none` when either index is outside the storage. -/
def setCell (m : List (List Cell)) (x y : Nat) (c : Cell) : Option (List (List Cell)) :=
  match m[x]? with
  | none => none
  | some row => if y < row.length then some (m.set x (row.set y c)) else none

/-- The declared type of `mGrid`, `std::array<std::array<Cell, GridWidth>, GridHeight>`:
`GridHeight` rows of `GridWidth` cells each. -/
def Shaped (W H : Nat) (m : List (List Cell)) : Prop :=
  m.length = H ∧ ∀ row ∈ m, row.length = W

/-- Every cell addressed by the loops of `recalculateEdges`, `mGrid[x][y]` with
`x < GridWidth` and `y < GridHeight`, lies inside the storage. -/
def Stored (W H : Nat) (m : List (List Cell)) : Prop :=
  ∀ x, x < W → ∀ y, y < H → (getCell m x y).isSome = true

/-! ## Edge list primitives -/

/-- The four outer-rectangle edges pushed first by `recalculateEdges`:
top, right, bottom, left. -/
def outerEdges : List Edge :=
  [((0, 0), (1, 0)), ((1, 0), (1, 1)), ((1, 1), (0, 1)), ((0, 1), (0, 0))]

/-- Member `addNewEdge`: append the edge and return its index (with the new edge list). -/
def addNewEdge (mEdges : List Edge) (a b : Vector2f) : Int × List Edge :=
  (((mEdges ++ [(a, b)]).length : Int) - 1, mEdges ++ [(a, b)])

/-- Member `extendEdge`: an id outside the vector gives `-1` and no change; otherwise the
extension vector is added to `pointB` of that edge and the id is returned. -/
def extendEdge (mEdges : List Edge) (edgeId : Int) (extensionVector : Vector2f) :
    Int × List Edge :=
  if edgeId < 0 ∨ (mEdges.length : Int) ≤ edgeId then (-1, mEdges)
  else
    match mEdges[edgeId.toNat]? with
    | none => (-1, mEdges)
    | some e => (edgeId, mEdges.set edgeId.toNat (e.1, e.2 + extensionVector))

/-! ## `recalculateEdges` -/

/-- Assignment `mGrid[x][y].edgeIds[slot] = r.1` together with the edge list `r.2` left
by the call that produced the id. -/
def recordEdge (g : SFMLGrid) (x y : Nat) (slot : Fin 4) (r : Int × List Edge) :
    Option SFMLGrid :=
  match getCell g.mGrid x y with
  | none => none
  | some c =>
    match setCell g.mGrid x y { c with edgeIds := Function.update c.edgeIds slot r.1 } with
    | none => none
    | some m => some { mGrid := m, mEdges := r.2 }

/-- One of the four side blocks in the body of `recalculateEdges`.

`guard` is the first conjunct of the outer condition (`xIter != 0`, `yIter != 0`,
`xIter+1 < GridWidth`, `yIter+1 < GridHeight`) and `(nx, ny)` the neighbour whose `isSet`
is tested when the guard holds.  `pguard` is the first conjunct of the inner condition
and `(px, py)` the already visited cell whose id in `slot` is extended by `ext`; when
the inner condition fails a new edge `a`-`b` is added. -/
def sideStep (g : SFMLGrid) (x y : Nat) (slot : Fin 4) (guard : Bool) (nx ny : Nat)
    (pguard : Bool) (px py : Nat) (ext a b : Vector2f) : Option SFMLGrid :=
  if guard then
    match getCell g.mGrid nx ny with
    | none => none
    | some n =>
      if n.isSet then some g
      else if pguard then
        match getCell g.mGrid px py with
        | none => none
        | some p =>
          if p.edgeIds slot ≠ -1 then
            recordEdge g x y slot (extendEdge g.mEdges (p.edgeIds slot) ext)
          else recordEdge g x y slot (addNewEdge g.mEdges a b)
      else recordEdge g x y slot (addNewEdge g.mEdges a b)
  else some g

/-- Body of the inner loop of `recalculateEdges` for the cell `(xIter, yIter)`. -/
def cellStep (GridWidth GridHeight : Nat) (xIter yIter : Nat) (g : SFMLGrid) :
    Option SFMLGrid :=
  let cellWidth : ℚ := 1 / GridWidth
  let cellHeight : ℚ := 1 / GridHeight
  match getCell g.mGrid xIter yIter with
  | none => none
  | some c =>
    match setCell g.mGrid xIter yIter { c with edgeIds := noEdgeIds } with
    | none => none
    | some m =>
      if c.isSet then
        let cellTopLeft : Vector2f := (xIter * cellWidth, yIter * cellHeight)
        let cellTopRight : Vector2f := (xIter * cellWidth + cellWidth, yIter * cellHeight)
        let cellBottomRight : Vector2f :=
          (xIter * cellWidth + cellWidth, yIter * cellHeight + cellHeight)
        let cellBottomLeft : Vector2f := (xIter * cellWidth, yIter * cellHeight + cellHeight)
        (sideStep { g with mGrid := m } xIter yIter 0
            (decide (xIter ≠ 0)) (xIter - 1) yIter
            (decide (yIter ≠ 0)) xIter (yIter - 1)
            (0, cellHeight) cellTopLeft cellBottomLeft).bind fun g1 =>
        (sideStep g1 xIter yIter 1
            (decide (yIter ≠ 0)) xIter (yIter - 1)
            (decide (xIter ≠ 0)) (xIter - 1) yIter
            (cellWidth, 0) cellTopLeft cellTopRight).bind fun g2 =>
        (sideStep g2 xIter yIter 2
            (decide (xIter + 1 < GridWidth)) (xIter + 1) yIter
            (decide (yIter ≠ 0)) xIter (yIter - 1)
            (0, cellHeight) cellTopRight cellBottomRight).bind fun g3 =>
        sideStep g3 xIter yIter 3
            (decide (yIter + 1 < GridHeight)) xIter (yIter + 1)
            (decide (xIter ≠ 0)) (xIter - 1) yIter
            (cellWidth, 0) cellBottomLeft cellBottomRight
      else some { g with mGrid := m }

/-- Inner loop `for (yIter = 0; yIter < GridHeight; yIter++)` for the column `xIter`. -/
def columnLoop (GridWidth GridHeight : Nat) (xIter : Nat) (g : SFMLGrid) : Option SFMLGrid :=
  (List.range GridHeight).foldlM (fun g yIter => cellStep GridWidth GridHeight xIter yIter g) g

/-- Member `recalculateEdges`: clear `mEdges`, push the outer rectangle, then visit the
cells column by column. -/
def recalculateEdges (GridWidth GridHeight : Nat) (g : SFMLGrid) : Option SFMLGrid :=
  (List.range GridWidth).foldlM (fun g xIter => columnLoop GridWidth GridHeight xIter g)
    { g with mEdges := outerEdges }

/-- Member `reset`: every cell of the storage becomes unset with no edge ids. -/
def reset (g : SFMLGrid) : SFMLGrid :=
  { g with mGrid := g.mGrid.map fun row => row.map fun _ => { isSet := false, edgeIds := noEdgeIds } }

/-- Constructor `SFMLGrid()`: `reset()` then `recalculateEdges()`, on storage of the declared
shape whose initial contents `c0` are arbitrary and on an empty edge vector. -/
def construct (GridWidth GridHeight : Nat) (c0 : Cell) : Option SFMLGrid :=
  recalculateEdges GridWidth GridHeight
    (reset { mGrid := List.replicate GridHeight (List.replicate GridWidth c0), mEdges := [] })

/-- The left-click handler of `main`: flip `isSet` of the cell `mGrid[x][y]`, then
`recalculateEdges()`. -/
def toggle (GridWidth GridHeight : Nat) (x y : Nat) (g : SFMLGrid) : Option SFMLGrid :=
  match getCell g.mGrid x y with
  | none => none
  | some c =>
    match setCell g.mGrid x y { c with isSet := !c.isSet } with
    | none => none
    | some m => recalculateEdges GridWidth GridHeight { g with mGrid := m }

/-! ## Geometry kernel -/

/-- Library function `std::lerp(a, b, t)` in exact arithmetic: `a + t (b - a)`. -/
def lerp (a b t : ℚ) : ℚ := a + t * (b - a)

/-- Member `getIntersectionPoint` in exact arithmetic: `some iPoint` when the function
returns `true`, `none` when it returns `false` (the out-parameter is then left untouched).
The computation with the rounding of the source is `getIntersectionPointRounded`. -/
def getIntersectionPoint (a1 a2 b1 b2 : Vector2f) : Option Vector2f :=
  let d : ℚ := ((a1.1 - a2.1) * (b1.2 - b2.2)) - ((a1.2 - a2.2) * (b1.1 - b2.1))
  if |d| < 1 / 1000000 then none
  else
    let t : ℚ := (((a1.1 - b1.1) * (b1.2 - b2.2)) - ((a1.2 - b1.2) * (b1.1 - b2.1))) / d
    let u : ℚ := -(((a1.1 - a2.1) * (a1.2 - b1.2)) - ((a1.2 - a2.2) * (a1.1 - b1.1))) / d
    if (0 ≤ u ∧ u ≤ 1) ∧ (0 ≤ t ∧ t ≤ 1) then
      some (lerp a1.1 a2.1 t, lerp a1.2 a2.2 t)
    else none

/-! ## Single and double precision

The functions above compute in exact arithmetic.  Where a claim depends on what the
rounded computation decides, the source is embedded a second time with every `float` and
`double` operation rounded to nearest, ties to even, to 24 resp. 53 significant bits
(IEEE 754 binary32 and binary64, each operation rounded in its own format, no fused
operations).  The exponent range is not modelled: there is no overflow and no subnormal
number. -/

/-- The binary exponent of a positive rational, `⌊log₂ q⌋`, found by at most `fuel`
halvings or doublings. -/
def binaryExponent : Nat → ℚ → Int
  | 0, _ => 0
  | fuel + 1, q =>
    if 2 ≤ q then binaryExponent fuel (q / 2) + 1
    else if q < 1 then binaryExponent fuel (q * 2) - 1
    else 0

/-- The integer nearest to `t`, the even one of the two when `t` lies half way. -/
def roundEven (t : ℚ) : Int :=
  if t - ⌊t⌋ < 1 / 2 then ⌊t⌋
  else if 1 / 2 < t - ⌊t⌋ then ⌊t⌋ + 1
  else if ⌊t⌋ % 2 = 0 then ⌊t⌋ else ⌊t⌋ + 1

/-- The value `q` rounded to `p` significant bits, to nearest, ties to even.  With `e` the
binary exponent of `|q|` the result is a multiple of `2 ^ (e - (p - 1))`.  A value whose
exponent is not found within 2000 steps is left as it is; no `float` or `double` is that
large or that small. -/
def roundNE (p : Nat) (q : ℚ) : ℚ :=
  if (2 : ℚ) ^ binaryExponent 2000 |q| ≤ |q| ∧ |q| < (2 : ℚ) ^ (binaryExponent 2000 |q| + 1) then
    (roundEven (q / (2 : ℚ) ^ (binaryExponent 2000 |q| - ((p : Int) - 1))) : ℚ) *
      (2 : ℚ) ^ (binaryExponent 2000 |q| - ((p : Int) - 1))
  else q

/-- A value stored in or computed as a `float`. -/
def f32 (q : ℚ) : ℚ := roundNE 24 q

/-- The value `std::numeric_limits<double>::max()`, the largest finite `double`:
`(2 - 2^(-52)) * 2^1023`. -/
def doubleMax : ℚ := 2 ^ 1024 - 2 ^ 971

/-- An edge converted to screen coordinates, as at the start of the loop body of
`findClosestEdgeRaycast`: `std::lerp(0, windowSize, coordinate)` on each coordinate. -/
def edgeToScreen (windowSize : Vector2f) (e : Edge) : Edge :=
  ((lerp 0 windowSize.1 e.1.1, lerp 0 windowSize.2 e.1.2),
    (lerp 0 windowSize.1 e.2.1, lerp 0 windowSize.2 e.2.2))

/-- The far end of the ray: `point + 10000 (cos direction, sin direction)`. -/
def rayVector (cos sin : ℚ → ℚ) (point : Vector2f) (direction : ℚ) : Vector2f :=
  (point.1 + 10000 * cos direction, point.2 + 10000 * sin direction)

/-- The distance computed for an intersection: `std::sqrt` of the squared differences. -/
def hitDistance (sqrt : ℚ → ℚ) (point newIntersection : Vector2f) : ℚ :=
  sqrt (((newIntersection.1 - point.1) * (newIntersection.1 - point.1)) +
    ((newIntersection.2 - point.2) * (newIntersection.2 - point.2)))

/-- Loop body of `findClosestEdgeRaycast` for one edge; the state is
`(intersection, distance)`. -/
def raycastStep (sqrt : ℚ → ℚ) (windowSize point ray : Vector2f)
    (acc : Vector2f × ℚ) (e : Edge) : Vector2f × ℚ :=
  match getIntersectionPoint point ray (edgeToScreen windowSize e).1
      (edgeToScreen windowSize e).2 with
  | some newIntersection =>
    if hitDistance sqrt point newIntersection < acc.2 then
      (newIntersection, hitDistance sqrt point newIntersection)
    else acc
  | none => acc

/-- Member `findClosestEdgeRaycast`: the returned point paired with the value left in the
out-parameter `distance`.  The local `intersection` starts as the default `sf::Vector2f`,
which is `(0, 0)`, and `distance` as `numeric_limits<double>::max()`.  `cos`, `sin` and
`sqrt` stand for the C library functions. -/
def findClosestEdgeRaycast (cos sin sqrt : ℚ → ℚ) (mEdges : List Edge)
    (windowSize point : Vector2f) (direction : ℚ) : Vector2f × ℚ :=
  mEdges.foldl (raycastStep sqrt windowSize point (rayVector cos sin point direction))
    ((0, 0), doubleMax)

/-- The intersection of the ray `point`-`ray` with the edge `e` in screen coordinates, as
tested in the loop body of `findClosestEdgeRaycast`. -/
def edgeHit (windowSize point ray : Vector2f) (e : Edge) : Option Vector2f :=
  getIntersectionPoint point ray (edgeToScreen windowSize e).1 (edgeToScreen windowSize e).2

/-! ## Visibility polygon -/

/-- Element of `shadowCastResults`:
`std::tuple<sf::Vector2f, sf::Vector2f, double, double>`. -/
structure RayHit where
  origin : Vector2f
  hitPoint : Vector2f
  angle : ℚ
  distance : ℚ

/-- A vertex of `losPolygon`: position and the alpha channel of its white colour. -/
structure Vertex where
  position : Vector2f
  alpha : Nat

/-- The alpha of a hit vertex: `static_cast<uint8_t>(std::lerp(40, 150, light))` with
`light = 1 / (1 + distance * distance)`. -/
def hitAlpha (distance : ℚ) : Nat :=
  (Int.toNat ⌊lerp 40 150 (1 / (1 + distance * distance))⌋) % 256

/-- Body of the polygon loop of `main`: three vertices for `resultIter`, then
`resultIterNext = resultIter`.  The state is `(resultIterNext, losPolygon)`; both indices
are inside `s` whenever the loop runs, the default hit is never read. -/
def polygonStep (mousePositionF : Vector2f) (s : List RayHit) (st : Nat × List Vertex)
    (resultIter : Nat) : Nat × List Vertex :=
  let cur := s.getD resultIter ⟨(0, 0), (0, 0), 0, 0⟩
  let nxt := s.getD st.1 ⟨(0, 0), (0, 0), 0, 0⟩
  (resultIter,
    st.2 ++ [⟨mousePositionF, 150⟩, ⟨cur.hitPoint, hitAlpha cur.distance⟩,
      ⟨nxt.hitPoint, hitAlpha nxt.distance⟩])

/-- The polygon construction of `main`: sort the hits by angle (`sort` stands for
`std::sort` with the comparator `angle(a) < angle(b)`), then run the loop
`for (resultIter = 0, resultIterNext = size-1; resultIter < size; resultIterNext = resultIter++)`
on the cleared vertex array. -/
def buildPolygon (sort : List RayHit → List RayHit) (mousePositionF : Vector2f)
    (shadowCastResults : List RayHit) : List Vertex :=
  ((List.range (sort shadowCastResults).length).foldl
    (polygonStep mousePositionF (sort shadowCastResults))
    ((sort shadowCastResults).length - 1, [])).2

/-- A sort the standard allows for `std::sort` with the comparator of `main`: insertion
sort by angle. -/
def sortByAngle (l : List RayHit) : List RayHit :=
  l.insertionSort (fun a b => a.angle ≤ b.angle)

/-- The comparator passed to `std::sort` in `main`:
`std::get<2>(a) < std::get<2>(b)`, the recorded angles. -/
def angleLess (a b : RayHit) : Prop := a.angle < b.angle

instance instDecidableAngleLess (a b : RayHit) : Decidable (angleLess a b) := by
  unfold angleLess
  infer_instance

/-- The call `std::sort(shadowCastResults.begin(), shadowCastResults.end(), angleLess)` of
`main`.  `std::sort` rearranges the hits so that none is `angleLess` than an earlier one;
the order of hits with equal angles is not fixed by the standard.  This model inserts the
hits one by one, which keeps hits with equal angles in their order of arrival. -/
def sortHits (l : List RayHit) : List RayHit :=
  l.insertionSort (fun a b => ¬angleLess b a)

/-! ## Screen coordinates and the event handlers of `main` -/

/-- The cell indices computed by `getCellByScreenCoords`, in `float` as in the source:
`cellWidth = viewSize.x / GridWidth` with `GridWidth` converted to `float`,
`cellX = std::floor(x / cellWidth)` with the `size_t` coordinate `x` converted to `float`,
the result converted to `size_t`; likewise for `y`. -/
def screenToCell (GridWidth GridHeight : Nat) (viewSize : Vector2f) (x y : Nat) : Nat × Nat :=
  (Int.toNat ⌊f32 (f32 (x : ℚ) / f32 (viewSize.1 / f32 (GridWidth : ℚ)))⌋,
    Int.toNat ⌊f32 (f32 (y : ℚ) / f32 (viewSize.2 / f32 (GridHeight : ℚ)))⌋)

/-- Member `getCellByScreenCoords`: the `isSet` flag of `mGrid[cellX][cellY]`; `none` when the
access is outside the storage. -/
def getCellByScreenCoords (GridWidth GridHeight : Nat) (g : SFMLGrid) (viewSize : Vector2f)
    (x y : Nat) : Option Bool :=
  (getCell g.mGrid (screenToCell GridWidth GridHeight viewSize x y).1
    (screenToCell GridWidth GridHeight viewSize x y).2).map Cell.isSet

/-- The `MouseButtonPressed` handler of `main` for the left button: flip the cell under the
pointer and rebuild the edges. -/
def mouseButtonPressed (GridWidth GridHeight : Nat) (g : SFMLGrid) (viewSize : Vector2f)
    (x y : Nat) : Option SFMLGrid :=
  toggle GridWidth GridHeight (screenToCell GridWidth GridHeight viewSize x y).1
    (screenToCell GridWidth GridHeight viewSize x y).2 g

/-- Member `gridCoordsToScreen`. -/
def gridCoordsToScreen (windowSize gridPoint : Vector2f) : Vector2f :=
  (gridPoint.1 * windowSize.1, gridPoint.2 * windowSize.2)

/-- The endpoint nudge of the `MouseMoved` handler, in source order:
`a += 0.0001 * b` on both coordinates, then `b += 0.0001 * a` with the `a` just updated. -/
def nudgeEdge (e : Edge) : Edge :=
  let a : Vector2f := (e.1.1 + 1 / 10000 * e.2.1, e.1.2 + 1 / 10000 * e.2.2)
  let b : Vector2f := (e.2.1 + 1 / 10000 * a.1, e.2.2 + 1 / 10000 * a.2)
  (a, b)

/-- One element pushed by `doRayCast`: origin, the point returned by
`findClosestEdgeRaycast` at `angle`, the angle, and the distance the call left in its
out-parameter. -/
def castHit (cos sin sqrt : ℚ → ℚ) (mEdges : List Edge) (windowSize pointFrom : Vector2f)
    (angle : ℚ) : RayHit :=
  { origin := pointFrom,
    hitPoint := (findClosestEdgeRaycast cos sin sqrt mEdges windowSize pointFrom angle).1,
    angle := angle,
    distance := (findClosestEdgeRaycast cos sin sqrt mEdges windowSize pointFrom angle).2 }

/-- The lambda `doRayCast` of `main`: three hits are pushed, at the angle from `pointFrom`
to `pointTo` and at that angle plus and minus `0.001`.  `atan2` stands for the C library
function. -/
def doRayCast (cos sin sqrt : ℚ → ℚ) (atan2 : ℚ → ℚ → ℚ) (mEdges : List Edge)
    (windowSize : Vector2f) (shadowCastResults : List RayHit) (pointFrom pointTo : Vector2f) :
    List RayHit :=
  let angle : ℚ := atan2 (pointTo.2 - pointFrom.2) (pointTo.1 - pointFrom.1)
  shadowCastResults ++
    [castHit cos sin sqrt mEdges windowSize pointFrom angle,
      castHit cos sin sqrt mEdges windowSize pointFrom (angle + 1 / 1000),
      castHit cos sin sqrt mEdges windowSize pointFrom (angle - 1 / 1000)]

/-- Body of the edge loop of the `MouseMoved` handler: nudge the endpoints, then
`doRayCast` towards each of them in screen coordinates. -/
def castEdge (cos sin sqrt : ℚ → ℚ) (atan2 : ℚ → ℚ → ℚ) (mEdges : List Edge)
    (windowSize mousePositionF : Vector2f) (shadowCastResults : List RayHit) (e : Edge) :
    List RayHit :=
  doRayCast cos sin sqrt atan2 mEdges windowSize
    (doRayCast cos sin sqrt atan2 mEdges windowSize shadowCastResults mousePositionF
      (gridCoordsToScreen windowSize (nudgeEdge e).1))
    mousePositionF (gridCoordsToScreen windowSize (nudgeEdge e).2)

/-- The ray casting of the `MouseMoved` handler: `shadowCastResults` is cleared and the loop
runs over `myGrid.getEdges()`. -/
def castRays (cos sin sqrt : ℚ → ℚ) (atan2 : ℚ → ℚ → ℚ) (mEdges : List Edge)
    (windowSize mousePositionF : Vector2f) : List RayHit :=
  mEdges.foldl (castEdge cos sin sqrt atan2 mEdges windowSize mousePositionF) []

/-! ## Total counterpart of `recalculateEdges`

When every addressed cell is stored, the grid is determined by the function
`(x, y) ↦ mGrid[x][y]`.  On that view the rebuild is a total function; `recalculateEdges`
agrees with it (`recalculateEdges_rep`), and the loop invariants are proved on the view. -/

/-- A grid seen as a function from cell coordinates to cells, with its edge list. -/
structure View where
  cells : Nat → Nat → Cell
  edges : List Edge

/-- The cell function with the cell at `(x, y)` replaced by `c`. -/
def putCell (cells : Nat → Nat → Cell) (x y : Nat) (c : Cell) : Nat → Nat → Cell :=
  fun x' y' => if x' = x ∧ y' = y then c else cells x' y'

/-- View counterpart of `recordEdge`. -/
def recordEdgeV (v : View) (x y : Nat) (slot : Fin 4) (r : Int × List Edge) : View :=
  { cells := putCell v.cells x y
      { v.cells x y with edgeIds := Function.update (v.cells x y).edgeIds slot r.1 },
    edges := r.2 }

/-- View counterpart of `sideStep`. -/
def sideStepV (v : View) (x y : Nat) (slot : Fin 4) (guard : Bool) (nx ny : Nat)
    (pguard : Bool) (px py : Nat) (ext a b : Vector2f) : View :=
  if guard then
    if (v.cells nx ny).isSet then v
    else if pguard then
      if (v.cells px py).edgeIds slot ≠ -1 then
        recordEdgeV v x y slot (extendEdge v.edges ((v.cells px py).edgeIds slot) ext)
      else recordEdgeV v x y slot (addNewEdge v.edges a b)
    else recordEdgeV v x y slot (addNewEdge v.edges a b)
  else v

/-- West block of the loop body (slot 0) on the view. -/
def westStepV (GridWidth GridHeight : Nat) (xIter yIter : Nat) (v : View) : View :=
  sideStepV v xIter yIter 0
    (decide (xIter ≠ 0)) (xIter - 1) yIter
    (decide (yIter ≠ 0)) xIter (yIter - 1)
    (0, 1 / (GridHeight : ℚ))
    (xIter * (1 / (GridWidth : ℚ)), yIter * (1 / (GridHeight : ℚ)))
    (xIter * (1 / (GridWidth : ℚ)), yIter * (1 / (GridHeight : ℚ)) + 1 / (GridHeight : ℚ))

/-- North block of the loop body (slot 1) on the view. -/
def northStepV (GridWidth GridHeight : Nat) (xIter yIter : Nat) (v : View) : View :=
  sideStepV v xIter yIter 1
    (decide (yIter ≠ 0)) xIter (yIter - 1)
    (decide (xIter ≠ 0)) (xIter - 1) yIter
    (1 / (GridWidth : ℚ), 0)
    (xIter * (1 / (GridWidth : ℚ)), yIter * (1 / (GridHeight : ℚ)))
    (xIter * (1 / (GridWidth : ℚ)) + 1 / (GridWidth : ℚ), yIter * (1 / (GridHeight : ℚ)))

/-- East block of the loop body (slot 2) on the view. -/
def eastStepV (GridWidth GridHeight : Nat) (xIter yIter : Nat) (v : View) : View :=
  sideStepV v xIter yIter 2
    (decide (xIter + 1 < GridWidth)) (xIter + 1) yIter
    (decide (yIter ≠ 0)) xIter (yIter - 1)
    (0, 1 / (GridHeight : ℚ))
    (xIter * (1 / (GridWidth : ℚ)) + 1 / (GridWidth : ℚ), yIter * (1 / (GridHeight : ℚ)))
    (xIter * (1 / (GridWidth : ℚ)) + 1 / (GridWidth : ℚ),
      yIter * (1 / (GridHeight : ℚ)) + 1 / (GridHeight : ℚ))

/-- South block of the loop body (slot 3) on the view. -/
def southStepV (GridWidth GridHeight : Nat) (xIter yIter : Nat) (v : View) : View :=
  sideStepV v xIter yIter 3
    (decide (yIter + 1 < GridHeight)) xIter (yIter + 1)
    (decide (xIter ≠ 0)) (xIter - 1) yIter
    (1 / (GridWidth : ℚ), 0)
    (xIter * (1 / (GridWidth : ℚ)), yIter * (1 / (GridHeight : ℚ)) + 1 / (GridHeight : ℚ))
    (xIter * (1 / (GridWidth : ℚ)) + 1 / (GridWidth : ℚ),
      yIter * (1 / (GridHeight : ℚ)) + 1 / (GridHeight : ℚ))

/-- The view with the ids of the cell `(x, y)` cleared, as at the start of the loop body. -/
def clearIdsV (x y : Nat) (v : View) : View :=
  { v with cells := putCell v.cells x y { v.cells x y with edgeIds := noEdgeIds } }

/-- View counterpart of `cellStep`. -/
def cellStepV (GridWidth GridHeight : Nat) (xIter yIter : Nat) (v : View) : View :=
  if (v.cells xIter yIter).isSet then
    southStepV GridWidth GridHeight xIter yIter
      (eastStepV GridWidth GridHeight xIter yIter
        (northStepV GridWidth GridHeight xIter yIter
          (westStepV GridWidth GridHeight xIter yIter (clearIdsV xIter yIter v))))
  else clearIdsV xIter yIter v

/-- View counterpart of `columnLoop`. -/
def columnLoopV (GridWidth GridHeight : Nat) (xIter : Nat) (v : View) : View :=
  (List.range GridHeight).foldl (fun v yIter => cellStepV GridWidth GridHeight xIter yIter v) v

/-- View counterpart of `recalculateEdges`. -/
def recalcV (GridWidth GridHeight : Nat) (v : View) : View :=
  (List.range GridWidth).foldl (fun v xIter => columnLoopV GridWidth GridHeight xIter v)
    { v with edges := outerEdges }

/-- The view of a grid; cells outside the storage read as unset cells without ids. -/
def viewOf (g : SFMLGrid) : View :=
  { cells := fun x y => (getCell g.mGrid x y).getD { isSet := false, edgeIds := noEdgeIds },
    edges := g.mEdges }

/-- Grid `g` is represented by view `v`: same edges, every addressed cell is stored, and
every stored cell is the cell of the view. -/
def Rep (W H : Nat) (g : SFMLGrid) (v : View) : Prop :=
  g.mEdges = v.edges ∧ Stored W H g.mGrid ∧
    ∀ x y c, getCell g.mGrid x y = some c → v.cells x y = c

/-- Cells visited before the loops of the rebuild reach `(x, y)`, among the rows `y' < H`. -/
def Visited (H x y x' y' : Nat) : Prop :=
  y' < H ∧ (x' < x ∨ (x' = x ∧ y' < y))

/-- An id recorded in a cell is `-1` or the index of an edge after the outer rectangle. -/
def ValidId (es : List Edge) (id : Int) : Prop :=
  id = -1 ∨ (4 ≤ id ∧ id < (es.length : Int))

/-- The edge list starts with the outer rectangle and the cells selected by `S` record
valid ids only. -/
def GoodOn (S : Nat → Nat → Prop) (v : View) : Prop :=
  v.edges.take 4 = outerEdges ∧ ∀ x y, S x y → ∀ slot, ValidId v.edges ((v.cells x y).edgeIds slot)

/-- What the cell `(x, y)` of a rebuilt view records: an id in a slot exactly when the cell
is set, the side is not on the grid border and the neighbour on that side is unset. -/
def SidesRecorded (W H : Nat) (u : View) (x y : Nat) : Prop :=
  ((u.cells x y).edgeIds 0 ≠ -1 ↔
    (u.cells x y).isSet = true ∧ x ≠ 0 ∧ (u.cells (x - 1) y).isSet = false) ∧
  ((u.cells x y).edgeIds 1 ≠ -1 ↔
    (u.cells x y).isSet = true ∧ y ≠ 0 ∧ (u.cells x (y - 1)).isSet = false) ∧
  ((u.cells x y).edgeIds 2 ≠ -1 ↔
    (u.cells x y).isSet = true ∧ x + 1 < W ∧ (u.cells (x + 1) y).isSet = false) ∧
  ((u.cells x y).edgeIds 3 ≠ -1 ↔
    (u.cells x y).isSet = true ∧ y + 1 < H ∧ (u.cells x (y + 1)).isSet = false)

/-- Two views have the same edges and the same cells on the cells selected by `S`. -/
def SameOn (S : Nat → Nat → Prop) (u1 u2 : View) : Prop :=
  u1.edges = u2.edges ∧ ∀ x y, S x y → u1.cells x y = u2.cells x y

/-- Two views have the same `isSet` value in every cell of the grid. -/
def SameSet (W H : Nat) (u1 u2 : View) : Prop :=
  ∀ x y, x < W → y < H → (u1.cells x y).isSet = (u2.cells x y).isSet

/-- Effect of one side block on the edge list and on the ids of the current cell:
`fire` says that the outer condition holds, `prev` is the id offered for extension
(`-1` when the inner condition's first conjunct fails). -/
def sideAct (s : List Edge × (Fin 4 → Int)) (slot : Fin 4) (fire : Bool) (prev : Int)
    (ext a b : Vector2f) : List Edge × (Fin 4 → Int) :=
  if fire then
    if prev ≠ -1 then
      ((extendEdge s.1 prev ext).2, Function.update s.2 slot (extendEdge s.1 prev ext).1)
    else ((addNewEdge s.1 a b).2, Function.update s.2 slot (addNewEdge s.1 a b).1)
  else s

/-- Edge list and ids of the cell `(x, y)` left by the loop body for a set cell, computed
from the view before the body. -/
def cellAct (W H x y : Nat) (v : View) : List Edge × (Fin 4 → Int) :=
  let cw : ℚ := 1 / (W : ℚ)
  let ch : ℚ := 1 / (H : ℚ)
  let up : Fin 4 → Int := fun slot => if y ≠ 0 then (v.cells x (y - 1)).edgeIds slot else -1
  let left : Fin 4 → Int := fun slot => if x ≠ 0 then (v.cells (x - 1) y).edgeIds slot else -1
  sideAct
    (sideAct
      (sideAct
        (sideAct (v.edges, noEdgeIds) 0
          (decide (x ≠ 0) && !(v.cells (x - 1) y).isSet) (up 0)
          (0, ch) (x * cw, y * ch) (x * cw, y * ch + ch))
        1 (decide (y ≠ 0) && !(v.cells x (y - 1)).isSet) (left 1)
        (cw, 0) (x * cw, y * ch) (x * cw + cw, y * ch))
      2 (decide (x + 1 < W) && !(v.cells (x + 1) y).isSet) (up 2)
      (0, ch) (x * cw + cw, y * ch) (x * cw + cw, y * ch + ch))
    3 (decide (y + 1 < H) && !(v.cells x (y + 1)).isSet) (left 3)
    (cw, 0) (x * cw, y * ch + ch) (x * cw + cw, y * ch + ch)

/-- Edge list while a horizontal run starting at `(x0, y0)` is rebuilt, after `n ≥ 1` of its
cells: the outer rectangle, the west side of the first cell, one north and one south edge
over `n` cells and, once the run is complete (`closed`), the east side of the last cell. -/
def runEdges (W H x0 y0 n : Nat) (closed : Bool) : List Edge :=
  outerEdges ++
    [((x0 * (1 / (W : ℚ)), y0 * (1 / (H : ℚ))), (x0 * (1 / (W : ℚ)), (y0 + 1) * (1 / (H : ℚ)))),
      ((x0 * (1 / (W : ℚ)), y0 * (1 / (H : ℚ))),
        ((x0 + n) * (1 / (W : ℚ)), y0 * (1 / (H : ℚ)))),
      ((x0 * (1 / (W : ℚ)), (y0 + 1) * (1 / (H : ℚ))),
        ((x0 + n) * (1 / (W : ℚ)), (y0 + 1) * (1 / (H : ℚ))))] ++
    (if closed then
      [(((x0 + n) * (1 / (W : ℚ)), y0 * (1 / (H : ℚ))),
        ((x0 + n) * (1 / (W : ℚ)), (y0 + 1) * (1 / (H : ℚ))))]
    else [])

/-! ## The rebuild with every `extendEdge` call checked

A copy of `recalculateEdges` in which each call of `extendEdge` first checks the id it is
given; it is used to state that the check never fails. -/

/-- The call `extendEdge(edgeId, extensionVector)` preceded by the check that `edgeId` is at
least 4 and below the number of edges; `none` when the check fails. -/
def extendEdgeChecked (mEdges : List Edge) (edgeId : Int) (extensionVector : Vector2f) :
    Option (Int × List Edge) :=
  if 4 ≤ edgeId ∧ edgeId < (mEdges.length : Int) then
    some (extendEdge mEdges edgeId extensionVector)
  else none

/-- Side block `sideStep` with its `extendEdge` call checked. -/
def sideStepChecked (g : SFMLGrid) (x y : Nat) (slot : Fin 4) (guard : Bool) (nx ny : Nat)
    (pguard : Bool) (px py : Nat) (ext a b : Vector2f) : Option SFMLGrid :=
  if guard then
    match getCell g.mGrid nx ny with
    | none => none
    | some n =>
      if n.isSet then some g
      else if pguard then
        match getCell g.mGrid px py with
        | none => none
        | some p =>
          if p.edgeIds slot ≠ -1 then
            (extendEdgeChecked g.mEdges (p.edgeIds slot) ext).bind (recordEdge g x y slot)
          else recordEdge g x y slot (addNewEdge g.mEdges a b)
      else recordEdge g x y slot (addNewEdge g.mEdges a b)
  else some g

/-- Loop body `cellStep` with its `extendEdge` calls checked. -/
def cellStepChecked (GridWidth GridHeight : Nat) (xIter yIter : Nat) (g : SFMLGrid) :
    Option SFMLGrid :=
  let cellWidth : ℚ := 1 / GridWidth
  let cellHeight : ℚ := 1 / GridHeight
  match getCell g.mGrid xIter yIter with
  | none => none
  | some c =>
    match setCell g.mGrid xIter yIter { c with edgeIds := noEdgeIds } with
    | none => none
    | some m =>
      if c.isSet then
        let cellTopLeft : Vector2f := (xIter * cellWidth, yIter * cellHeight)
        let cellTopRight : Vector2f := (xIter * cellWidth + cellWidth, yIter * cellHeight)
        let cellBottomRight : Vector2f :=
          (xIter * cellWidth + cellWidth, yIter * cellHeight + cellHeight)
        let cellBottomLeft : Vector2f := (xIter * cellWidth, yIter * cellHeight + cellHeight)
        (sideStepChecked { g with mGrid := m } xIter yIter 0
            (decide (xIter ≠ 0)) (xIter - 1) yIter
            (decide (yIter ≠ 0)) xIter (yIter - 1)
            (0, cellHeight) cellTopLeft cellBottomLeft).bind fun g1 =>
        (sideStepChecked g1 xIter yIter 1
            (decide (yIter ≠ 0)) xIter (yIter - 1)
            (decide (xIter ≠ 0)) (xIter - 1) yIter
            (cellWidth, 0) cellTopLeft cellTopRight).bind fun g2 =>
        (sideStepChecked g2 xIter yIter 2
            (decide (xIter + 1 < GridWidth)) (xIter + 1) yIter
            (decide (yIter ≠ 0)) xIter (yIter - 1)
            (0, cellHeight) cellTopRight cellBottomRight).bind fun g3 =>
        sideStepChecked g3 xIter yIter 3
            (decide (yIter + 1 < GridHeight)) xIter (yIter + 1)
            (decide (xIter ≠ 0)) (xIter - 1) yIter
            (cellWidth, 0) cellBottomLeft cellBottomRight
      else some { g with mGrid := m }

/-- Inner loop `columnLoop` over the checked body. -/
def columnLoopChecked (GridWidth GridHeight : Nat) (xIter : Nat) (g : SFMLGrid) :
    Option SFMLGrid :=
  (List.range GridHeight).foldlM
    (fun g yIter => cellStepChecked GridWidth GridHeight xIter yIter g) g

/-- Member `recalculateEdges` with every `extendEdge` call checked. -/
def recalculateEdgesChecked (GridWidth GridHeight : Nat) (g : SFMLGrid) : Option SFMLGrid :=
  (List.range GridWidth).foldlM
    (fun g xIter => columnLoopChecked GridWidth GridHeight xIter g)
    { g with mEdges := outerEdges }

/-! ## Boundary runs

The sides that `recalculateEdges` gives an edge to, and the runs they form: west and east
sides (slots 0 and 2) are merged down a column, north and south sides (slots 1 and 3)
along a row.  A cell is addressed within its run by `line` (the column, resp. the row)
and `pos` (the row, resp. the column). -/

/-- Column of the cell at position `pos` of the line `line` for `slot`. -/
def runX (slot : Fin 4) (line pos : Nat) : Nat := if slot.val % 2 = 0 then line else pos

/-- Row of the cell at position `pos` of the line `line` for `slot`. -/
def runY (slot : Fin 4) (line pos : Nat) : Nat := if slot.val % 2 = 0 then pos else line

/-- The outer condition of the block of `slot` in `recalculateEdges` at the cell `(x, y)` of
the grid: the cell is set, the neighbour on that side exists and is unset. -/
def Side (W H : Nat) (cells : Nat → Nat → Cell) (slot : Fin 4) (x y : Nat) : Prop :=
  x < W ∧ y < H ∧ (cells x y).isSet = true ∧
    ((slot = 0 ∧ x ≠ 0 ∧ (cells (x - 1) y).isSet = false) ∨
      (slot = 1 ∧ y ≠ 0 ∧ (cells x (y - 1)).isSet = false) ∨
      (slot = 2 ∧ x + 1 < W ∧ (cells (x + 1) y).isSet = false) ∨
      (slot = 3 ∧ y + 1 < H ∧ (cells x (y + 1)).isSet = false))

instance instDecidableSide (W H : Nat) (cells : Nat → Nat → Cell) (slot : Fin 4) (x y : Nat) :
    Decidable (Side W H cells slot x y) := by
  unfold Side
  infer_instance

/-- The side condition at position `pos` of `line`. -/
def SideAt (W H : Nat) (cells : Nat → Nat → Cell) (slot : Fin 4) (line pos : Nat) : Prop :=
  Side W H cells slot (runX slot line pos) (runY slot line pos)

instance instDecidableSideAt (W H : Nat) (cells : Nat → Nat → Cell) (slot : Fin 4)
    (line pos : Nat) : Decidable (SideAt W H cells slot line pos) := by
  unfold SideAt
  infer_instance

/-- Position `pos` starts a run: it is a side and the position before it is not. -/
def StartAt (W H : Nat) (cells : Nat → Nat → Cell) (slot : Fin 4) (line pos : Nat) : Prop :=
  SideAt W H cells slot line pos ∧ (pos = 0 ∨ ¬SideAt W H cells slot line (pos - 1))

instance instDecidableStartAt (W H : Nat) (cells : Nat → Nat → Cell) (slot : Fin 4)
    (line pos : Nat) : Decidable (StartAt W H cells slot line pos) := by
  unfold StartAt
  infer_instance

/-- Positions `p0 .. p1` of `line` form a maximal run of sides of `slot`. -/
def MaxRun (W H : Nat) (cells : Nat → Nat → Cell) (slot : Fin 4) (line p0 p1 : Nat) : Prop :=
  p0 ≤ p1 ∧ (∀ t, p0 ≤ t → t ≤ p1 → SideAt W H cells slot line t) ∧
    (p0 = 0 ∨ ¬SideAt W H cells slot line (p0 - 1)) ∧ ¬SideAt W H cells slot line (p1 + 1)

/-- First endpoint of the edge created for side `slot` of the cell `(x, y)`: `cellTopRight`
for east, `cellBottomLeft` for south, `cellTopLeft` for west and north. -/
def cornerA (W H : Nat) (slot : Fin 4) (x y : Nat) : Vector2f :=
  if slot = 2 then (x * (1 / (W : ℚ)) + 1 / (W : ℚ), y * (1 / (H : ℚ)))
  else if slot = 3 then (x * (1 / (W : ℚ)), y * (1 / (H : ℚ)) + 1 / (H : ℚ))
  else (x * (1 / (W : ℚ)), y * (1 / (H : ℚ)))

/-- Second endpoint of the edge created for side `slot` of the cell `(x, y)`:
`cellBottomLeft` for west, `cellTopRight` for north, `cellBottomRight` for east and south. -/
def cornerB (W H : Nat) (slot : Fin 4) (x y : Nat) : Vector2f :=
  if slot = 0 then (x * (1 / (W : ℚ)), y * (1 / (H : ℚ)) + 1 / (H : ℚ))
  else if slot = 1 then (x * (1 / (W : ℚ)) + 1 / (W : ℚ), y * (1 / (H : ℚ)))
  else (x * (1 / (W : ℚ)) + 1 / (W : ℚ), y * (1 / (H : ℚ)) + 1 / (H : ℚ))

/-- Number of runs that start at the cell `(x, y)`, over the four sides. -/
def cellStarts (W H : Nat) (cells : Nat → Nat → Cell) (x y : Nat) : Nat :=
  (if StartAt W H cells 0 x y then 1 else 0) + (if StartAt W H cells 1 y x then 1 else 0) +
    (if StartAt W H cells 2 x y then 1 else 0) + (if StartAt W H cells 3 y x then 1 else 0)

/-- Number of runs that start in the first `n` cells of column `x`. -/
def startsInColumn (W H : Nat) (cells : Nat → Nat → Cell) (x n : Nat) : Nat :=
  ((List.range n).map fun y => cellStarts W H cells x y).sum

/-- Number of runs that start in the first `n` columns. -/
def startsInColumns (W H : Nat) (cells : Nat → Nat → Cell) (n : Nat) : Nat :=
  ((List.range n).map fun x => startsInColumn W H cells x H).sum

/-- Number of maximal runs of the grid, each counted at its first cell. -/
def countRuns (W H : Nat) (cells : Nat → Nat → Cell) : Nat := startsInColumns W H cells W

/-- The id in `slot` of the cell at position `pos` of `line`. -/
def idAt (u : View) (slot : Fin 4) (line pos : Nat) : Int :=
  (u.cells (runX slot line pos) (runY slot line pos)).edgeIds slot

/-- Invariant of the rebuild for the sides selected by `D` (those already handled), with
`N` runs started so far; `c0` holds the `isSet` flags.  Handled sides that are no boundary
sides hold `-1`; boundary sides hold the index of an edge after the outer rectangle,
the same one as their predecessor in the run, and a different one from every side of
another run; the edge of a run starts at the first corner of the run's first cell and, as
long as the run is not continued, ends at the second corner of its last handled cell. -/
structure RunInv (W H : Nat) (c0 : Nat → Nat → Cell) (D : Fin 4 → Nat → Nat → Prop) (N : Nat)
    (u : View) : Prop where
  flags : ∀ x y, (u.cells x y).isSet = (c0 x y).isSet
  len : u.edges.length = 4 + N
  noId : ∀ s l p, D s (runX s l p) (runY s l p) → ¬SideAt W H c0 s l p → idAt u s l p = -1
  valid : ∀ s l p, D s (runX s l p) (runY s l p) → SideAt W H c0 s l p →
    4 ≤ idAt u s l p ∧ idAt u s l p < (u.edges.length : Int)
  same : ∀ s l p, D s (runX s l (p + 1)) (runY s l (p + 1)) → D s (runX s l p) (runY s l p) →
    SideAt W H c0 s l (p + 1) → SideAt W H c0 s l p → idAt u s l (p + 1) = idAt u s l p
  dist : ∀ s l p s' l' p', D s (runX s l p) (runY s l p) →
    D s' (runX s' l' p') (runY s' l' p') → SideAt W H c0 s l p → SideAt W H c0 s' l' p' →
    idAt u s l p = idAt u s' l' p' →
    s = s' ∧ l = l' ∧ ∀ t, (p ≤ t ∧ t ≤ p') ∨ (p' ≤ t ∧ t ≤ p) → SideAt W H c0 s l t
  ptA : ∀ s l p e, D s (runX s l p) (runY s l p) → StartAt W H c0 s l p →
    u.edges[(idAt u s l p).toNat]? = some e → e.1 = cornerA W H s (runX s l p) (runY s l p)
  ptB : ∀ s l p e, D s (runX s l p) (runY s l p) → SideAt W H c0 s l p →
    ¬(D s (runX s l (p + 1)) (runY s l (p + 1)) ∧ SideAt W H c0 s l (p + 1)) →
    u.edges[(idAt u s l p).toNat]? = some e → e.2 = cornerB W H s (runX s l p) (runY s l p)

/-! ## Storage access -/

theorem getCell_setCell {m m' : List (List Cell)} {x y : Nat} {c : Cell}
    (h : setCell m x y c = some m') (x' y' : Nat) :
    getCell m' x' y' = if x' = x ∧ y' = y then some c else getCell m x' y' := by
  unfold setCell at h
  cases hm : m[x]? with
  | none => simp [hm] at h
  | some row =>
    simp only [hm] at h
    split at h
    · rename_i hy
      injection h with h
      subst h
      have hx : x < m.length := (List.getElem?_eq_some.1 hm).1
      unfold getCell
      by_cases hxx : x' = x
      · subst hxx
        simp only [List.getElem?_set_self hx, true_and]
        by_cases hyy : y' = y
        · subst hyy
          simp [List.getElem?_set_self hy]
        · simp [hyy, hm, List.getElem?_set_ne (Ne.symm hyy)]
      · simp [hxx, List.getElem?_set_ne (Ne.symm hxx)]
    · simp at h

theorem setCell_isSome {m : List (List Cell)} {x y : Nat} (c : Cell)
    (h : (getCell m x y).isSome = true) : ∃ m', setCell m x y c = some m' := by
  unfold getCell at h
  unfold setCell
  cases hm : m[x]? with
  | none => simp [hm] at h
  | some row =>
    simp only [hm] at h
    have hy : y < row.length := by
      rcases Option.isSome_iff_exists.1 h with ⟨a, ha⟩
      exact (List.getElem?_eq_some.1 ha).1
    exact ⟨m.set x (row.set y c), by simp [hy]⟩

theorem getCell_isSome_of_setCell {m m' : List (List Cell)} {x y : Nat} {c : Cell}
    (h : setCell m x y c = some m') : (getCell m x y).isSome = true := by
  unfold setCell at h
  unfold getCell
  cases hm : m[x]? with
  | none => simp [hm] at h
  | some row =>
    simp only [hm] at h
    split at h
    · rename_i hy
      simp [List.getElem?_eq_getElem hy]
    · simp at h

/-- Writing a cell does not change which cells are stored. -/
theorem setCell_shape {m m' : List (List Cell)} {x y : Nat} {c : Cell}
    (h : setCell m x y c = some m') (x' y' : Nat) :
    (getCell m' x' y').isSome = (getCell m x' y').isSome := by
  rw [getCell_setCell h]
  split
  · rename_i hc
    rcases hc with ⟨rfl, rfl⟩
    rw [getCell_isSome_of_setCell h]
    rfl
  · rfl

theorem Rep.stored {W H : Nat} {g : SFMLGrid} {v : View} (h : Rep W H g v) :
    Stored W H g.mGrid := h.2.1

theorem Rep.get {W H : Nat} {g : SFMLGrid} {v : View} (h : Rep W H g v)
    {x y : Nat} (hx : x < W) (hy : y < H) : getCell g.mGrid x y = some (v.cells x y) := by
  rcases Option.isSome_iff_exists.1 (h.2.1 x hx y hy) with ⟨c, hc⟩
  rw [hc, h.2.2 x y c hc]

theorem rep_viewOf {W H : Nat} {g : SFMLGrid} (h : Stored W H g.mGrid) :
    Rep W H g (viewOf g) := by
  refine ⟨rfl, h, ?_⟩
  intro x y c hc
  simp [viewOf, hc]

theorem rep_put {W H : Nat} {g : SFMLGrid} {v : View} (h : Rep W H g v)
    {x y : Nat} (hx : x < W) (hy : y < H) (c : Cell) (es : List Edge) :
    ∃ m, setCell g.mGrid x y c = some m ∧
      Rep W H { mGrid := m, mEdges := es } { cells := putCell v.cells x y c, edges := es } := by
  rcases setCell_isSome c (h.stored x hx y hy) with ⟨m, hm⟩
  refine ⟨m, hm, rfl, ?_, ?_⟩
  · intro x' hx' y' hy'
    show (getCell m x' y').isSome = true
    rw [setCell_shape hm]
    exact h.stored x' hx' y' hy'
  · intro x' y' c' hc'
    rw [getCell_setCell hm] at hc'
    by_cases hc : x' = x ∧ y' = y
    · rw [if_pos hc] at hc'
      injection hc' with hc'
      simp [putCell, hc, hc']
    · rw [if_neg hc] at hc'
      simp only [putCell, hc, if_false]
      exact h.2.2 x' y' c' hc'

theorem recordEdge_rep {W H : Nat} {g : SFMLGrid} {v : View} (h : Rep W H g v)
    {x y : Nat} (hx : x < W) (hy : y < H) (slot : Fin 4) (r : Int × List Edge) :
    ∃ g', recordEdge g x y slot r = some g' ∧ Rep W H g' (recordEdgeV v x y slot r) := by
  rcases rep_put h hx hy
    { v.cells x y with edgeIds := Function.update (v.cells x y).edgeIds slot r.1 } r.2
    with ⟨m, hm, hrep⟩
  refine ⟨{ mGrid := m, mEdges := r.2 }, ?_, hrep⟩
  simp only [recordEdge, h.get hx hy, hm]

theorem sideStep_rep {W H : Nat} {g : SFMLGrid} {v : View} (h : Rep W H g v)
    {x y : Nat} (hx : x < W) (hy : y < H) (slot : Fin 4) (guard : Bool) (nx ny : Nat)
    (pguard : Bool) (px py : Nat) (ext a b : Vector2f)
    (hn : guard = true → nx < W ∧ ny < H) (hp : pguard = true → px < W ∧ py < H) :
    ∃ g', sideStep g x y slot guard nx ny pguard px py ext a b = some g' ∧
      Rep W H g' (sideStepV v x y slot guard nx ny pguard px py ext a b) := by
  unfold sideStep sideStepV
  cases guard with
  | false => exact ⟨g, by simp, by simpa using h⟩
  | true =>
    simp only [if_true]
    rw [h.get (hn rfl).1 (hn rfl).2]
    simp only []
    cases hs : (v.cells nx ny).isSet with
    | true => exact ⟨g, by simp, by simpa using h⟩
    | false =>
      simp only [Bool.false_eq_true, if_false]
      cases pguard with
      | false =>
        simp only [Bool.false_eq_true, if_false]
        rw [h.1]
        exact recordEdge_rep h hx hy slot _
      | true =>
        simp only [if_true]
        rw [h.get (hp rfl).1 (hp rfl).2]
        simp only []
        rw [h.1]
        split
        · exact recordEdge_rep h hx hy slot _
        · exact recordEdge_rep h hx hy slot _

theorem cellStep_rep {W H : Nat} {g : SFMLGrid} {v : View} (h : Rep W H g v)
    {x y : Nat} (hx : x < W) (hy : y < H) :
    ∃ g', cellStep W H x y g = some g' ∧ Rep W H g' (cellStepV W H x y v) := by
  rcases rep_put h hx hy { v.cells x y with edgeIds := noEdgeIds } v.edges with ⟨m, hm, hrep⟩
  unfold cellStep cellStepV southStepV eastStepV northStepV westStepV clearIdsV
  simp only [h.get hx hy, hm, h.1]
  by_cases hs : (v.cells x y).isSet = true
  · rw [if_pos hs, if_pos hs]
    rcases sideStep_rep hrep hx hy 0 (decide (x ≠ 0)) (x - 1) y (decide (y ≠ 0)) x (y - 1)
      (0, 1 / (H : ℚ)) (x * (1 / (W : ℚ)), y * (1 / (H : ℚ)))
      (x * (1 / (W : ℚ)), y * (1 / (H : ℚ)) + 1 / (H : ℚ))
      (by intro hg; simp at hg; omega) (by intro hg; simp at hg; omega) with ⟨g1, e1, r1⟩
    rcases sideStep_rep r1 hx hy 1 (decide (y ≠ 0)) x (y - 1) (decide (x ≠ 0)) (x - 1) y
      (1 / (W : ℚ), 0) (x * (1 / (W : ℚ)), y * (1 / (H : ℚ)))
      (x * (1 / (W : ℚ)) + 1 / (W : ℚ), y * (1 / (H : ℚ)))
      (by intro hg; simp at hg; omega) (by intro hg; simp at hg; omega) with ⟨g2, e2, r2⟩
    rcases sideStep_rep r2 hx hy 2 (decide (x + 1 < W)) (x + 1) y (decide (y ≠ 0)) x (y - 1)
      (0, 1 / (H : ℚ)) (x * (1 / (W : ℚ)) + 1 / (W : ℚ), y * (1 / (H : ℚ)))
      (x * (1 / (W : ℚ)) + 1 / (W : ℚ), y * (1 / (H : ℚ)) + 1 / (H : ℚ))
      (by intro hg; simp at hg; omega) (by intro hg; simp at hg; omega) with ⟨g3, e3, r3⟩
    rcases sideStep_rep r3 hx hy 3 (decide (y + 1 < H)) x (y + 1) (decide (x ≠ 0)) (x - 1) y
      (1 / (W : ℚ), 0) (x * (1 / (W : ℚ)), y * (1 / (H : ℚ)) + 1 / (H : ℚ))
      (x * (1 / (W : ℚ)) + 1 / (W : ℚ), y * (1 / (H : ℚ)) + 1 / (H : ℚ))
      (by intro hg; simp at hg; omega) (by intro hg; simp at hg; omega) with ⟨g4, e4, r4⟩
    refine ⟨g4, ?_, r4⟩
    simp only [e1, e2, e3, e4, Option.some_bind]
  · rw [if_neg hs, if_neg hs]
    exact ⟨_, rfl, hrep⟩

theorem columnLoop_rep {W H : Nat} {x : Nat} (hx : x < W) (n : Nat) (hn : n ≤ H)
    {g : SFMLGrid} {v : View} (h : Rep W H g v) :
    ∃ g', (List.range n).foldlM (fun g y => cellStep W H x y g) g = some g' ∧
      Rep W H g' ((List.range n).foldl (fun v y => cellStepV W H x y v) v) := by
  induction n with
  | zero => exact ⟨g, rfl, h⟩
  | succ n ih =>
    rcases ih (by omega) with ⟨g1, e1, r1⟩
    rcases cellStep_rep r1 hx (show n < H by omega) with ⟨g2, e2, r2⟩
    refine ⟨g2, ?_, ?_⟩
    · rw [List.range_succ, List.foldlM_append, e1]
      simp [e2]
    · rw [List.range_succ, List.foldl_append]
      exact r2

theorem rowsLoop_rep {W H : Nat} (n : Nat) (hn : n ≤ W) {g : SFMLGrid} {v : View}
    (h : Rep W H g v) :
    ∃ g', (List.range n).foldlM (fun g x => columnLoop W H x g) g = some g' ∧
      Rep W H g' ((List.range n).foldl (fun v x => columnLoopV W H x v) v) := by
  induction n with
  | zero => exact ⟨g, rfl, h⟩
  | succ n ih =>
    rcases ih (by omega) with ⟨g1, e1, r1⟩
    rcases columnLoop_rep (show n < W by omega) H le_rfl r1 with ⟨g2, e2, r2⟩
    refine ⟨g2, ?_, ?_⟩
    · rw [List.range_succ, List.foldlM_append, e1]
      simp [columnLoop, e2]
    · rw [List.range_succ, List.foldl_append]
      exact r2

/-- Whenever every addressed cell is stored, `recalculateEdges` returns a grid, and that
grid is represented by the total rebuild of the view. -/
theorem recalculateEdges_rep {W H : Nat} {g : SFMLGrid} {v : View} (h : Rep W H g v) :
    ∃ g', recalculateEdges W H g = some g' ∧ Rep W H g' (recalcV W H v) := by
  have h0 : Rep W H { g with mEdges := outerEdges } { v with edges := outerEdges } :=
    ⟨rfl, h.2.1, h.2.2⟩
  exact rowsLoop_rep W le_rfl h0

/-! ## Frame properties of the view rebuild -/

theorem putCell_self (cells : Nat → Nat → Cell) (x y : Nat) (c : Cell) :
    putCell cells x y c x y = c := by
  simp [putCell]

theorem putCell_ne (cells : Nat → Nat → Cell) {x y x' y' : Nat} (c : Cell)
    (h : ¬(x' = x ∧ y' = y)) : putCell cells x y c x' y' = cells x' y' := by
  simp [putCell, h]

theorem recordEdgeV_cells_ne (v : View) {x y x' y' : Nat} (slot : Fin 4) (r : Int × List Edge)
    (h : ¬(x' = x ∧ y' = y)) : (recordEdgeV v x y slot r).cells x' y' = v.cells x' y' := by
  simp [recordEdgeV, putCell, h]

theorem recordEdgeV_isSet (v : View) (x y x' y' : Nat) (slot : Fin 4) (r : Int × List Edge) :
    ((recordEdgeV v x y slot r).cells x' y').isSet = (v.cells x' y').isSet := by
  by_cases h : x' = x ∧ y' = y
  · rcases h with ⟨rfl, rfl⟩
    simp [recordEdgeV, putCell]
  · rw [recordEdgeV_cells_ne v slot r h]

theorem recordEdgeV_ids (v : View) (x y : Nat) (slot : Fin 4) (r : Int × List Edge) :
    ((recordEdgeV v x y slot r).cells x y).edgeIds = Function.update (v.cells x y).edgeIds slot r.1 := by
  simp [recordEdgeV, putCell]

/-- What a side block does to the view: nothing, or one `recordEdgeV`. -/
theorem sideStepV_cases (v : View) (x y : Nat) (slot : Fin 4) (guard : Bool) (nx ny : Nat)
    (pguard : Bool) (px py : Nat) (ext a b : Vector2f) :
    (¬(guard = true ∧ (v.cells nx ny).isSet = false) ∧
      sideStepV v x y slot guard nx ny pguard px py ext a b = v) ∨
    ((guard = true ∧ (v.cells nx ny).isSet = false) ∧
      (pguard = true ∧ (v.cells px py).edgeIds slot ≠ -1) ∧
      sideStepV v x y slot guard nx ny pguard px py ext a b =
        recordEdgeV v x y slot (extendEdge v.edges ((v.cells px py).edgeIds slot) ext)) ∨
    ((guard = true ∧ (v.cells nx ny).isSet = false) ∧
      ¬(pguard = true ∧ (v.cells px py).edgeIds slot ≠ -1) ∧
      sideStepV v x y slot guard nx ny pguard px py ext a b =
        recordEdgeV v x y slot (addNewEdge v.edges a b)) := by
  unfold sideStepV
  by_cases hg : guard = true
  · by_cases hn : (v.cells nx ny).isSet = true
    · left
      simp [hg, hn]
    · have hn' : (v.cells nx ny).isSet = false := by simpa using hn
      right
      by_cases hp : pguard = true
      · by_cases hid : (v.cells px py).edgeIds slot = -1
        · right
          simp [hg, hn', hp, hid]
        · left
          simp [hg, hn', hp, hid]
      · right
        simp [hg, hn', hp]
  · left
    simp [hg]

theorem sideStepV_cells_ne (v : View) {x y x' y' : Nat} (slot : Fin 4) (guard : Bool)
    (nx ny : Nat) (pguard : Bool) (px py : Nat) (ext a b : Vector2f)
    (h : ¬(x' = x ∧ y' = y)) :
    (sideStepV v x y slot guard nx ny pguard px py ext a b).cells x' y' = v.cells x' y' := by
  rcases sideStepV_cases v x y slot guard nx ny pguard px py ext a b with
    ⟨_, e⟩ | ⟨_, _, e⟩ | ⟨_, _, e⟩
  · rw [e]
  · rw [e, recordEdgeV_cells_ne v slot _ h]
  · rw [e, recordEdgeV_cells_ne v slot _ h]

theorem sideStepV_isSet (v : View) (x y x' y' : Nat) (slot : Fin 4) (guard : Bool)
    (nx ny : Nat) (pguard : Bool) (px py : Nat) (ext a b : Vector2f) :
    ((sideStepV v x y slot guard nx ny pguard px py ext a b).cells x' y').isSet =
      (v.cells x' y').isSet := by
  rcases sideStepV_cases v x y slot guard nx ny pguard px py ext a b with
    ⟨_, e⟩ | ⟨_, _, e⟩ | ⟨_, _, e⟩
  · rw [e]
  · rw [e, recordEdgeV_isSet]
  · rw [e, recordEdgeV_isSet]

theorem sideStepV_slot_ne (v : View) (x y : Nat) {slot slot' : Fin 4} (guard : Bool)
    (nx ny : Nat) (pguard : Bool) (px py : Nat) (ext a b : Vector2f) (h : slot' ≠ slot) :
    ((sideStepV v x y slot guard nx ny pguard px py ext a b).cells x y).edgeIds slot' =
      (v.cells x y).edgeIds slot' := by
  rcases sideStepV_cases v x y slot guard nx ny pguard px py ext a b with
    ⟨_, e⟩ | ⟨_, _, e⟩ | ⟨_, _, e⟩
  · rw [e]
  · rw [e, recordEdgeV_ids, Function.update_noteq h]
  · rw [e, recordEdgeV_ids, Function.update_noteq h]

theorem clearIdsV_cells_ne (v : View) {x y x' y' : Nat} (h : ¬(x' = x ∧ y' = y)) :
    (clearIdsV x y v).cells x' y' = v.cells x' y' :=
  putCell_ne _ _ h

theorem clearIdsV_self (v : View) (x y : Nat) :
    (clearIdsV x y v).cells x y = { v.cells x y with edgeIds := noEdgeIds } :=
  putCell_self _ _ _ _

theorem clearIdsV_isSet (v : View) (x y x' y' : Nat) :
    ((clearIdsV x y v).cells x' y').isSet = (v.cells x' y').isSet := by
  by_cases h : x' = x ∧ y' = y
  · rcases h with ⟨rfl, rfl⟩
    rw [clearIdsV_self]
  · rw [clearIdsV_cells_ne v h]

theorem clearIdsV_edges (v : View) (x y : Nat) : (clearIdsV x y v).edges = v.edges := rfl

theorem cellStepV_unset {W H x y : Nat} {v : View} (h : (v.cells x y).isSet = false) :
    cellStepV W H x y v = clearIdsV x y v := by
  simp [cellStepV, h]

theorem cellStepV_cells_ne (W H : Nat) (v : View) {x y x' y' : Nat} (h : ¬(x' = x ∧ y' = y)) :
    (cellStepV W H x y v).cells x' y' = v.cells x' y' := by
  unfold cellStepV
  split
  · unfold southStepV eastStepV northStepV westStepV
    rw [sideStepV_cells_ne _ _ _ _ _ _ _ _ _ _ _ h, sideStepV_cells_ne _ _ _ _ _ _ _ _ _ _ _ h,
      sideStepV_cells_ne _ _ _ _ _ _ _ _ _ _ _ h, sideStepV_cells_ne _ _ _ _ _ _ _ _ _ _ _ h]
    exact clearIdsV_cells_ne v h
  · exact clearIdsV_cells_ne v h

theorem cellStepV_isSet (W H : Nat) (v : View) (x y x' y' : Nat) :
    ((cellStepV W H x y v).cells x' y').isSet = (v.cells x' y').isSet := by
  unfold cellStepV
  split
  · unfold southStepV eastStepV northStepV westStepV
    rw [sideStepV_isSet, sideStepV_isSet, sideStepV_isSet, sideStepV_isSet, clearIdsV_isSet]
  · rw [clearIdsV_isSet]

/-- Induction principle for the two nested loops of the rebuild. -/
theorem recalcV_induct (W H : Nat) (P : Nat → Nat → View → Prop) (v : View)
    (h0 : P 0 0 { v with edges := outerEdges })
    (hstep : ∀ x y u, x < W → y < H → P x y u → P x (y + 1) (cellStepV W H x y u))
    (hcol : ∀ x u, x < W → P x H u → P (x + 1) 0 u) :
    P W 0 (recalcV W H v) := by
  have hcolumn : ∀ x u, x < W → P x 0 u → ∀ n, n ≤ H →
      P x n ((List.range n).foldl (fun v y => cellStepV W H x y v) u) := by
    intro x u hx hu n
    induction n with
    | zero => intro _; exact hu
    | succ n ih =>
      intro hn
      rw [List.range_succ, List.foldl_append]
      exact hstep x n _ hx (by omega) (ih (by omega))
  have hrows : ∀ n, n ≤ W →
      P n 0 ((List.range n).foldl (fun v x => columnLoopV W H x v) { v with edges := outerEdges }) := by
    intro n
    induction n with
    | zero => intro _; exact h0
    | succ n ih =>
      intro hn
      rw [List.range_succ, List.foldl_append]
      exact hcol n _ (by omega) (hcolumn n _ (by omega) (ih (by omega)) H le_rfl)
  exact hrows W le_rfl

theorem recalcV_isSet (W H : Nat) (v : View) (x' y' : Nat) :
    ((recalcV W H v).cells x' y').isSet = (v.cells x' y').isSet := by
  refine recalcV_induct W H (fun _ _ u => (u.cells x' y').isSet = (v.cells x' y').isSet) v
    rfl ?_ ?_
  · intro x y u _ _ hu
    rw [cellStepV_isSet, hu]
  · intro x u _ hu
    exact hu

/-! ## Recorded ids are valid and the outer rectangle is never touched -/

theorem length_of_take_four {es : List Edge} (h : es.take 4 = outerEdges) : 4 ≤ es.length := by
  have := congrArg List.length h
  simp [outerEdges] at this
  omega

theorem addNewEdge_fst (es : List Edge) (a b : Vector2f) :
    (addNewEdge es a b).1 = (es.length : Int) := by
  simp [addNewEdge]

theorem addNewEdge_snd (es : List Edge) (a b : Vector2f) :
    (addNewEdge es a b).2 = es ++ [(a, b)] := rfl

theorem extendEdge_of_valid {es : List Edge} {id : Int} (h0 : 0 ≤ id)
    (h1 : id < (es.length : Int)) (ext : Vector2f) :
    ∃ e, es[id.toNat]? = some e ∧
      extendEdge es id ext = (id, es.set id.toNat (e.1, e.2 + ext)) := by
  have hlt : id.toNat < es.length := by omega
  refine ⟨es[id.toNat], List.getElem?_eq_getElem hlt, ?_⟩
  unfold extendEdge
  rw [if_neg (by omega), List.getElem?_eq_getElem hlt]

theorem take_four_set {es : List Edge} {i : Nat} (hi : 4 ≤ i) (e : Edge) :
    (es.set i e).take 4 = es.take 4 := by
  apply List.ext_getElem?
  intro n
  by_cases hn : n < 4
  · rw [List.getElem?_take_of_lt hn, List.getElem?_take_of_lt hn,
      List.getElem?_set_ne (by omega)]
  · rw [List.getElem?_take_eq_none (by omega), List.getElem?_take_eq_none (by omega)]

theorem take_four_append {es : List Edge} (h : 4 ≤ es.length) (l : List Edge) :
    (es ++ l).take 4 = es.take 4 := by
  rw [List.take_append_of_le_length h]

theorem ValidId.mono {es es' : List Edge} {id : Int} (h : ValidId es id)
    (hl : es.length ≤ es'.length) : ValidId es' id := by
  rcases h with h | ⟨h1, h2⟩
  · exact Or.inl h
  · exact Or.inr ⟨h1, by omega⟩

theorem GoodOn.record {S : Nat → Nat → Prop} {v : View} (h : GoodOn S v) (x y : Nat)
    (slot : Fin 4) (r : Int × List Edge) (htake : r.2.take 4 = outerEdges)
    (hlen : v.edges.length ≤ r.2.length) (hid : ValidId r.2 r.1) :
    GoodOn S (recordEdgeV v x y slot r) := by
  refine ⟨htake, ?_⟩
  intro x' y' hS slot'
  by_cases hc : x' = x ∧ y' = y
  · rcases hc with ⟨rfl, rfl⟩
    rw [recordEdgeV_ids]
    by_cases hs : slot' = slot
    · subst hs
      rw [Function.update_same]
      exact hid
    · rw [Function.update_noteq hs]
      exact (h.2 x' y' hS slot').mono hlen
  · rw [recordEdgeV_cells_ne v slot r hc]
    exact (h.2 x' y' hS slot').mono hlen

theorem GoodOn.addNew {S : Nat → Nat → Prop} {v : View} (h : GoodOn S v) (x y : Nat)
    (slot : Fin 4) (a b : Vector2f) :
    GoodOn S (recordEdgeV v x y slot (addNewEdge v.edges a b)) := by
  have h4 := length_of_take_four h.1
  refine h.record x y slot _ ?_ ?_ ?_
  · rw [addNewEdge_snd, take_four_append h4, h.1]
  · simp [addNewEdge_snd]
  · right
    rw [addNewEdge_fst, addNewEdge_snd]
    simp only [List.length_append, List.length_singleton]
    omega

theorem GoodOn.extend {S : Nat → Nat → Prop} {v : View} (h : GoodOn S v) (x y : Nat)
    (slot : Fin 4) {id : Int} (hid : ValidId v.edges id) (hne : id ≠ -1) (ext : Vector2f) :
    GoodOn S (recordEdgeV v x y slot (extendEdge v.edges id ext)) := by
  rcases hid with hid | ⟨h1, h2⟩
  · exact absurd hid hne
  · rcases extendEdge_of_valid (by omega) h2 ext with ⟨e, _, he⟩
    rw [he]
    refine h.record x y slot _ ?_ ?_ ?_
    · show (v.edges.set id.toNat _).take 4 = outerEdges
      rw [take_four_set (by omega), h.1]
    · simp
    · right
      simp only [List.length_set]
      exact ⟨h1, h2⟩

theorem sideStepV_good {S : Nat → Nat → Prop} {v : View} (h : GoodOn S v) (x y : Nat)
    (slot : Fin 4) (guard : Bool) (nx ny : Nat) (pguard : Bool) (px py : Nat)
    (ext a b : Vector2f) (hp : pguard = true → S px py) :
    GoodOn S (sideStepV v x y slot guard nx ny pguard px py ext a b) := by
  rcases sideStepV_cases v x y slot guard nx ny pguard px py ext a b with
    ⟨_, e⟩ | ⟨_, hq, e⟩ | ⟨_, _, e⟩
  · rw [e]; exact h
  · rw [e]; exact h.extend x y slot (h.2 px py (hp hq.1) slot) hq.2 ext
  · rw [e]; exact h.addNew x y slot a b

theorem visited_succ_iff {H x y x' y' : Nat} (hy : y < H) :
    Visited H x (y + 1) x' y' ↔ Visited H x y x' y' ∨ (x' = x ∧ y' = y) := by
  unfold Visited
  constructor
  · rintro ⟨h1, h2 | ⟨h2, h3⟩⟩
    · exact Or.inl ⟨h1, Or.inl h2⟩
    · by_cases h : y' = y
      · exact Or.inr ⟨h2, h⟩
      · exact Or.inl ⟨h1, Or.inr ⟨h2, by omega⟩⟩
  · rintro (⟨h1, h2 | ⟨h2, h3⟩⟩ | ⟨h1, h2⟩)
    · exact ⟨h1, Or.inl h2⟩
    · exact ⟨h1, Or.inr ⟨h2, by omega⟩⟩
    · exact ⟨by omega, Or.inr ⟨h1, by omega⟩⟩

theorem visited_col_iff {H x x' y' : Nat} :
    Visited H (x + 1) 0 x' y' ↔ Visited H x H x' y' := by
  unfold Visited
  constructor
  · rintro ⟨h1, h2 | ⟨_, h3⟩⟩
    · by_cases h : x' = x
      · exact ⟨h1, Or.inr ⟨h, h1⟩⟩
      · exact ⟨h1, Or.inl (by omega)⟩
    · omega
  · rintro ⟨h1, h2 | ⟨h2, _⟩⟩
    · exact ⟨h1, Or.inl (by omega)⟩
    · exact ⟨h1, Or.inl (by omega)⟩

theorem visited_not_self {H x y : Nat} : ¬Visited H x y x y := by
  unfold Visited
  omega

theorem visited_up {H x y : Nat} (hy : y < H) (h0 : decide (y ≠ 0) = true) :
    Visited H x (y + 1) x (y - 1) := by
  have h0' : y ≠ 0 := of_decide_eq_true h0
  unfold Visited
  omega

theorem visited_left {H x y : Nat} (hy : y < H) (h0 : decide (x ≠ 0) = true) :
    Visited H x (y + 1) (x - 1) y := by
  have h0' : x ≠ 0 := of_decide_eq_true h0
  unfold Visited
  omega

theorem visited_self {H x y : Nat} (hy : y < H) : Visited H x (y + 1) x y := by
  unfold Visited
  omega

/-- Clearing the ids of `(x, y)` makes it a cell with valid ids. -/
theorem GoodOn.clear {H x y : Nat} {v : View} (h : GoodOn (Visited H x y) v) (hy : y < H) :
    GoodOn (Visited H x (y + 1)) (clearIdsV x y v) := by
  refine ⟨h.1, ?_⟩
  intro x' y' hS slot
  rcases (visited_succ_iff hy).1 hS with hv | ⟨rfl, rfl⟩
  · have hne : ¬(x' = x ∧ y' = y) := by
      rintro ⟨rfl, rfl⟩
      exact visited_not_self hv
    rw [clearIdsV_cells_ne v hne]
    exact h.2 x' y' hv slot
  · rw [clearIdsV_self]
    exact Or.inl rfl

theorem westStepV_good {W H x y : Nat} {v : View} (h : GoodOn (Visited H x (y + 1)) v)
    (hy : y < H) : GoodOn (Visited H x (y + 1)) (westStepV W H x y v) :=
  sideStepV_good h _ _ _ _ _ _ _ _ _ _ _ _ (visited_up hy)

theorem northStepV_good {W H x y : Nat} {v : View} (h : GoodOn (Visited H x (y + 1)) v)
    (hy : y < H) : GoodOn (Visited H x (y + 1)) (northStepV W H x y v) :=
  sideStepV_good h _ _ _ _ _ _ _ _ _ _ _ _ (visited_left hy)

theorem eastStepV_good {W H x y : Nat} {v : View} (h : GoodOn (Visited H x (y + 1)) v)
    (hy : y < H) : GoodOn (Visited H x (y + 1)) (eastStepV W H x y v) :=
  sideStepV_good h _ _ _ _ _ _ _ _ _ _ _ _ (visited_up hy)

theorem southStepV_good {W H x y : Nat} {v : View} (h : GoodOn (Visited H x (y + 1)) v)
    (hy : y < H) : GoodOn (Visited H x (y + 1)) (southStepV W H x y v) :=
  sideStepV_good h _ _ _ _ _ _ _ _ _ _ _ _ (visited_left hy)

theorem cellStepV_good {W H x y : Nat} {v : View} (h : GoodOn (Visited H x y) v) (hy : y < H) :
    GoodOn (Visited H x (y + 1)) (cellStepV W H x y v) := by
  have h0 := h.clear hy
  unfold cellStepV
  split
  · exact southStepV_good (eastStepV_good (northStepV_good (westStepV_good h0 hy) hy) hy) hy
  · exact h0

theorem recalcV_good (W H : Nat) (v : View) : GoodOn (Visited H W 0) (recalcV W H v) := by
  refine recalcV_induct W H (fun x y u => GoodOn (Visited H x y) u) v ?_ ?_ ?_
  · refine ⟨rfl, ?_⟩
    intro x y hS
    unfold Visited at hS
    omega
  · intro x y u _ hy hu
    exact cellStepV_good hu hy
  · intro x u _ hu
    exact ⟨hu.1, fun x' y' hS => hu.2 x' y' (visited_col_iff.1 hS)⟩

/-! ## A completed rebuild means every addressed cell is stored -/

theorem recordEdge_shape {g g' : SFMLGrid} {x y : Nat} {slot : Fin 4} {r : Int × List Edge}
    (h : recordEdge g x y slot r = some g') (x' y' : Nat) :
    (getCell g'.mGrid x' y').isSome = (getCell g.mGrid x' y').isSome := by
  unfold recordEdge at h
  split at h
  · simp at h
  · split at h
    · simp at h
    · rename_i m hm
      injection h with h
      subst h
      exact setCell_shape hm x' y'

theorem sideStep_shape {g g' : SFMLGrid} {x y : Nat} {slot : Fin 4} {guard : Bool}
    {nx ny : Nat} {pguard : Bool} {px py : Nat} {ext a b : Vector2f}
    (h : sideStep g x y slot guard nx ny pguard px py ext a b = some g') (x' y' : Nat) :
    (getCell g'.mGrid x' y').isSome = (getCell g.mGrid x' y').isSome := by
  unfold sideStep at h
  split at h
  · split at h
    · simp at h
    · split at h
      · injection h with h
        subst h
        rfl
      · split at h
        · split at h
          · simp at h
          · split at h
            · exact recordEdge_shape h x' y'
            · exact recordEdge_shape h x' y'
        · exact recordEdge_shape h x' y'
  · injection h with h
    subst h
    rfl

theorem cellStep_shape {W H x y : Nat} {g g' : SFMLGrid} (h : cellStep W H x y g = some g') :
    (getCell g.mGrid x y).isSome = true ∧
      ∀ x' y', (getCell g'.mGrid x' y').isSome = (getCell g.mGrid x' y').isSome := by
  unfold cellStep at h
  simp only [] at h
  split at h
  · simp at h
  · rename_i c hc
    refine ⟨by simp [hc], ?_⟩
    split at h
    · simp at h
    · rename_i m hm
      have hm' := setCell_shape hm
      split at h
      · rcases Option.bind_eq_some.1 h with ⟨g1, e1, h⟩
        rcases Option.bind_eq_some.1 h with ⟨g2, e2, h⟩
        rcases Option.bind_eq_some.1 h with ⟨g3, e3, e4⟩
        intro x' y'
        rw [sideStep_shape e4, sideStep_shape e3, sideStep_shape e2, sideStep_shape e1]
        exact hm' x' y'
      · injection h with h
        subst h
        exact hm'

theorem foldlM_range_succ_some {σ : Type} (f : σ → Nat → Option σ) (n : Nat) (s s' : σ)
    (h : (List.range (n + 1)).foldlM f s = some s') :
    ∃ s1, (List.range n).foldlM f s = some s1 ∧ f s1 n = some s' := by
  rw [List.range_succ, List.foldlM_append] at h
  rcases Option.bind_eq_some.1 h with ⟨s1, e1, e2⟩
  refine ⟨s1, e1, ?_⟩
  simpa using e2

theorem columnLoop_shape {W H x : Nat} (n : Nat) {g g' : SFMLGrid}
    (h : (List.range n).foldlM (fun g y => cellStep W H x y g) g = some g') :
    (∀ y, y < n → (getCell g.mGrid x y).isSome = true) ∧
      ∀ x' y', (getCell g'.mGrid x' y').isSome = (getCell g.mGrid x' y').isSome := by
  induction n generalizing g' with
  | zero =>
    simp at h
    subst h
    exact ⟨fun y hy => absurd hy (by omega), fun _ _ => rfl⟩
  | succ n ih =>
    rcases foldlM_range_succ_some _ n g g' h with ⟨g1, e1, e2⟩
    rcases ih e1 with ⟨i1, i2⟩
    rcases cellStep_shape e2 with ⟨c1, c2⟩
    refine ⟨?_, fun x' y' => by rw [c2, i2]⟩
    intro y hy
    by_cases hyn : y = n
    · subst hyn
      rw [← i2]
      exact c1
    · exact i1 y (by omega)

theorem rowsLoop_shape {W H : Nat} (n : Nat) {g g' : SFMLGrid}
    (h : (List.range n).foldlM (fun g x => columnLoop W H x g) g = some g') :
    (∀ x, x < n → ∀ y, y < H → (getCell g.mGrid x y).isSome = true) ∧
      ∀ x' y', (getCell g'.mGrid x' y').isSome = (getCell g.mGrid x' y').isSome := by
  induction n generalizing g' with
  | zero =>
    simp at h
    subst h
    exact ⟨fun x hx => absurd hx (by omega), fun _ _ => rfl⟩
  | succ n ih =>
    rcases foldlM_range_succ_some _ n g g' h with ⟨g1, e1, e2⟩
    rcases ih e1 with ⟨i1, i2⟩
    rcases columnLoop_shape H e2 with ⟨c1, c2⟩
    refine ⟨?_, fun x' y' => by rw [c2, i2]⟩
    intro x hx y hy
    by_cases hxn : x = n
    · subst hxn
      rw [← i2]
      exact c1 y hy
    · exact i1 x (by omega) y hy

/-- A rebuild that completes addressed stored cells only. -/
theorem stored_of_recalculateEdges {W H : Nat} {g g' : SFMLGrid}
    (h : recalculateEdges W H g = some g') : Stored W H g.mGrid :=
  (rowsLoop_shape W h).1

/-- A completed rebuild is the total rebuild of the view of the grid. -/
theorem rep_of_recalculateEdges {W H : Nat} {g g' : SFMLGrid}
    (h : recalculateEdges W H g = some g') : Rep W H g' (recalcV W H (viewOf g)) := by
  rcases recalculateEdges_rep (rep_viewOf (stored_of_recalculateEdges h)) with ⟨g'', e, r⟩
  rw [h] at e
  injection e with e
  subst e
  exact r

/-! ## Construction -/

theorem cellStepV_edges_of_unset {W H x y : Nat} {v : View} (h : (v.cells x y).isSet = false) :
    (cellStepV W H x y v).edges = v.edges := by
  rw [cellStepV_unset h, clearIdsV_edges]

theorem recalcV_edges_of_all_unset (W H : Nat) (v : View)
    (h : ∀ x y, x < W → y < H → (v.cells x y).isSet = false) :
    (recalcV W H v).edges = outerEdges := by
  refine recalcV_induct W H
    (fun _ _ u => u.edges = outerEdges ∧ ∀ x y, x < W → y < H → (u.cells x y).isSet = false) v
    ⟨rfl, h⟩ ?_ ?_ |>.1
  · intro x y u hx hy hu
    refine ⟨?_, ?_⟩
    · rw [cellStepV_edges_of_unset (hu.2 x y hx hy), hu.1]
    · intro x' y' hx' hy'
      rw [cellStepV_isSet]
      exact hu.2 x' y' hx' hy'
  · intro x u _ hu
    exact hu

theorem getCell_reset {g : SFMLGrid} {x y : Nat} {c : Cell}
    (h : getCell (reset g).mGrid x y = some c) : c = { isSet := false, edgeIds := noEdgeIds } := by
  unfold getCell reset at h
  simp only [List.getElem?_map] at h
  cases hm : g.mGrid[x]? with
  | none => simp [hm] at h
  | some row =>
    simp only [hm, Option.map_some'] at h
    rw [List.getElem?_map] at h
    cases hr : row[y]? with
    | none => simp [hr] at h
    | some c' =>
      simp only [hr, Option.map_some'] at h
      injection h with h
      exact h.symm

theorem getCell_replicate {N x y : Nat} (c : Cell) (hx : x < N) (hy : y < N) :
    getCell (List.replicate N (List.replicate N c)) x y = some c := by
  unfold getCell
  simp [List.getElem?_replicate, hx, hy]

theorem stored_reset {W H : Nat} {g : SFMLGrid} (h : Stored W H g.mGrid) :
    Stored W H (reset g).mGrid := by
  intro x hx y hy
  have := h x hx y hy
  unfold getCell at this ⊢
  unfold reset
  simp only [List.getElem?_map]
  cases hm : g.mGrid[x]? with
  | none => simp [hm] at this
  | some row =>
    simp only [hm] at this
    simp only [Option.map_some', List.getElem?_map]
    cases hr : row[y]? with
    | none => simp [hr] at this
    | some c' => simp

/-! ## Which sides of a cell record an edge -/

theorem extendEdge_fst_of_valid {es : List Edge} {id : Int} (h : ValidId es id) (hne : id ≠ -1)
    (ext : Vector2f) : (extendEdge es id ext).1 = id := by
  rcases h with h | ⟨h1, h2⟩
  · exact absurd h hne
  · rcases extendEdge_of_valid (by omega) h2 ext with ⟨e, _, he⟩
    rw [he]

theorem sideStepV_id_ne_iff {S : Nat → Nat → Prop} {w : View} (h : GoodOn S w) (x y : Nat)
    (slot : Fin 4) (guard : Bool) (nx ny : Nat) (pguard : Bool) (px py : Nat)
    (ext a b : Vector2f) (hp : pguard = true → S px py) :
    ((sideStepV w x y slot guard nx ny pguard px py ext a b).cells x y).edgeIds slot ≠ -1 ↔
      (guard = true ∧ (w.cells nx ny).isSet = false) ∨ (w.cells x y).edgeIds slot ≠ -1 := by
  rcases sideStepV_cases w x y slot guard nx ny pguard px py ext a b with
    ⟨hn, e⟩ | ⟨hg, hq, e⟩ | ⟨hg, _, e⟩
  · rw [e]
    exact ⟨fun h' => Or.inr h', fun h' => h'.resolve_left hn⟩
  · rw [e, recordEdgeV_ids, Function.update_same,
      extendEdge_fst_of_valid (h.2 px py (hp hq.1) slot) hq.2]
    exact ⟨fun _ => Or.inl hg, fun _ => hq.2⟩
  · rw [e, recordEdgeV_ids, Function.update_same, addNewEdge_fst]
    exact ⟨fun _ => Or.inl hg, fun _ => by omega⟩

theorem cellStepV_recorded {W H x y : Nat} {v : View} (h : GoodOn (Visited H x y) v)
    (hy : y < H) : SidesRecorded W H (cellStepV W H x y v) x y := by
  have hset : ∀ x' y', ((cellStepV W H x y v).cells x' y').isSet = (v.cells x' y').isSet :=
    cellStepV_isSet W H v x y
  unfold SidesRecorded
  simp only [hset]
  by_cases hs : (v.cells x y).isSet = true
  · have g0 := h.clear hy
    have g1 : GoodOn (Visited H x (y + 1)) (westStepV W H x y (clearIdsV x y v)) :=
      westStepV_good g0 hy
    have g2 := @northStepV_good W H x y _ g1 hy
    have g3 := @eastStepV_good W H x y _ g2 hy
    have e : cellStepV W H x y v = southStepV W H x y (eastStepV W H x y
        (northStepV W H x y (westStepV W H x y (clearIdsV x y v)))) := by
      unfold cellStepV
      rw [if_pos hs]
    rw [e]
    have c0 : ∀ slot, ((clearIdsV x y v).cells x y).edgeIds slot = -1 := by
      intro slot
      rw [clearIdsV_self]
      rfl
    refine ⟨?_, ?_, ?_, ?_⟩
    · unfold southStepV eastStepV northStepV
      rw [sideStepV_slot_ne _ _ _ _ _ _ _ _ _ _ _ _ (by decide),
        sideStepV_slot_ne _ _ _ _ _ _ _ _ _ _ _ _ (by decide),
        sideStepV_slot_ne _ _ _ _ _ _ _ _ _ _ _ _ (by decide)]
      unfold westStepV
      rw [sideStepV_id_ne_iff g0 _ _ _ _ _ _ _ _ _ _ _ _ (visited_up hy), c0, clearIdsV_isSet]
      simp [hs]
    · unfold southStepV eastStepV
      rw [sideStepV_slot_ne _ _ _ _ _ _ _ _ _ _ _ _ (by decide),
        sideStepV_slot_ne _ _ _ _ _ _ _ _ _ _ _ _ (by decide)]
      unfold northStepV
      rw [sideStepV_id_ne_iff g1 _ _ _ _ _ _ _ _ _ _ _ _ (visited_left hy)]
      unfold westStepV
      rw [sideStepV_slot_ne _ _ _ _ _ _ _ _ _ _ _ _ (by decide), c0, sideStepV_isSet,
        clearIdsV_isSet]
      simp [hs]
    · unfold southStepV
      rw [sideStepV_slot_ne _ _ _ _ _ _ _ _ _ _ _ _ (by decide)]
      unfold eastStepV
      rw [sideStepV_id_ne_iff g2 _ _ _ _ _ _ _ _ _ _ _ _ (visited_up hy)]
      unfold northStepV westStepV
      rw [sideStepV_slot_ne _ _ _ _ _ _ _ _ _ _ _ _ (by decide),
        sideStepV_slot_ne _ _ _ _ _ _ _ _ _ _ _ _ (by decide), c0, sideStepV_isSet,
        sideStepV_isSet, clearIdsV_isSet]
      simp [hs]
    · unfold southStepV
      rw [sideStepV_id_ne_iff g3 _ _ _ _ _ _ _ _ _ _ _ _ (visited_left hy)]
      unfold eastStepV northStepV westStepV
      rw [sideStepV_slot_ne _ _ _ _ _ _ _ _ _ _ _ _ (by decide),
        sideStepV_slot_ne _ _ _ _ _ _ _ _ _ _ _ _ (by decide),
        sideStepV_slot_ne _ _ _ _ _ _ _ _ _ _ _ _ (by decide), c0, sideStepV_isSet,
        sideStepV_isSet, sideStepV_isSet, clearIdsV_isSet]
      simp [hs]
  · have hs' : (v.cells x y).isSet = false := by simpa using hs
    rw [cellStepV_unset hs', clearIdsV_self]
    simp [hs', noEdgeIds]

theorem SidesRecorded.congr {W H : Nat} {u u' : View} {x y : Nat}
    (h : SidesRecorded W H u x y) (hc : u'.cells x y = u.cells x y)
    (hs : ∀ x' y', (u'.cells x' y').isSet = (u.cells x' y').isSet) :
    SidesRecorded W H u' x y := by
  unfold SidesRecorded at h ⊢
  simp only [hs]
  rw [hc]
  exact h

theorem recalcV_recorded (W H : Nat) (v : View) {x y : Nat} (hx : x < W) (hy : y < H) :
    SidesRecorded W H (recalcV W H v) x y := by
  have key := recalcV_induct W H
    (fun x y u => GoodOn (Visited H x y) u ∧
      ∀ x' y', Visited H x y x' y' → SidesRecorded W H u x' y') v ?_ ?_ ?_
  · exact key.2 x y ⟨hy, Or.inl hx⟩
  · refine ⟨⟨rfl, ?_⟩, ?_⟩
    · intro x y hS
      unfold Visited at hS
      omega
    · intro x y hS
      unfold Visited at hS
      omega
  · intro x y u _ hy hu
    refine ⟨cellStepV_good hu.1 hy, ?_⟩
    intro x' y' hS
    rcases (visited_succ_iff hy).1 hS with hv | ⟨rfl, rfl⟩
    · have hne : ¬(x' = x ∧ y' = y) := by
        rintro ⟨rfl, rfl⟩
        exact visited_not_self hv
      exact (hu.2 x' y' hv).congr (cellStepV_cells_ne W H u hne) (cellStepV_isSet W H u x y)
    · exact cellStepV_recorded hu.1 hy
  · intro x u _ hu
    exact ⟨⟨hu.1.1, fun x' y' hS => hu.1.2 x' y' (visited_col_iff.1 hS)⟩,
      fun x' y' hS => hu.2 x' y' (visited_col_iff.1 hS)⟩

/-- The rebuild completes whenever every addressed cell is stored. -/
theorem recalculateEdges_isSome {W H : Nat} {g : SFMLGrid} (h : Stored W H g.mGrid) :
    (recalculateEdges W H g).isSome = true := by
  rcases recalculateEdges_rep (rep_viewOf h) with ⟨g', e, _⟩
  rw [e]
  rfl

theorem stored_replicate (N : Nat) (c : Cell) :
    Stored N N (List.replicate N (List.replicate N c)) := by
  intro x hx y hy
  rw [getCell_replicate c hx hy]
  rfl

/-! ## The rebuild depends on the `isSet` values only -/

theorem SameOn.recordBoth {S : Nat → Nat → Prop} {u1 u2 : View} (h : SameOn S u1 u2)
    {x y : Nat} (hxy : S x y) (slot : Fin 4) (r : Int × List Edge) :
    SameOn S (recordEdgeV u1 x y slot r) (recordEdgeV u2 x y slot r) := by
  refine ⟨rfl, ?_⟩
  intro x' y' hS
  by_cases hc : x' = x ∧ y' = y
  · rcases hc with ⟨rfl, rfl⟩
    simp only [recordEdgeV, putCell_self, h.2 x' y' hxy]
  · rw [recordEdgeV_cells_ne u1 slot r hc, recordEdgeV_cells_ne u2 slot r hc]
    exact h.2 x' y' hS

theorem sideStepV_sameOn {S : Nat → Nat → Prop} {u1 u2 : View} (h : SameOn S u1 u2)
    {x y : Nat} (hxy : S x y) (slot : Fin 4) (guard : Bool) (nx ny : Nat) (pguard : Bool)
    (px py : Nat) (ext a b : Vector2f)
    (hn : guard = true → (u1.cells nx ny).isSet = (u2.cells nx ny).isSet)
    (hp : pguard = true → S px py) :
    SameOn S (sideStepV u1 x y slot guard nx ny pguard px py ext a b)
      (sideStepV u2 x y slot guard nx ny pguard px py ext a b) := by
  unfold sideStepV
  cases guard with
  | false => simpa using h
  | true =>
    simp only [if_true]
    rw [hn rfl]
    split
    · exact h
    · cases pguard with
      | false =>
        simp only [Bool.false_eq_true, if_false]
        rw [h.1]
        exact h.recordBoth hxy slot _
      | true =>
        simp only [if_true]
        rw [h.2 px py (hp rfl), h.1]
        split
        · exact h.recordBoth hxy slot _
        · exact h.recordBoth hxy slot _

theorem SameSet.sideStepV {W H : Nat} {u1 u2 : View} (h : SameSet W H u1 u2)
    (x y : Nat) (slot : Fin 4) (guard : Bool) (nx ny : Nat) (pguard : Bool)
    (px py : Nat) (ext a b : Vector2f) :
    SameSet W H (ShadowCasting.sideStepV u1 x y slot guard nx ny pguard px py ext a b)
      (ShadowCasting.sideStepV u2 x y slot guard nx ny pguard px py ext a b) := by
  intro x' y' hx' hy'
  rw [sideStepV_isSet, sideStepV_isSet]
  exact h x' y' hx' hy'

theorem cellStepV_sameOn {W H x y : Nat} {u1 u2 : View} (h : SameOn (Visited H x y) u1 u2)
    (hs : SameSet W H u1 u2) (hx : x < W) (hy : y < H) :
    SameOn (Visited H x (y + 1)) (cellStepV W H x y u1) (cellStepV W H x y u2) := by
  have h0 : SameOn (Visited H x (y + 1)) (clearIdsV x y u1) (clearIdsV x y u2) := by
    refine ⟨h.1, ?_⟩
    intro x' y' hS
    rcases (visited_succ_iff hy).1 hS with hv | ⟨rfl, rfl⟩
    · have hne : ¬(x' = x ∧ y' = y) := by
        rintro ⟨rfl, rfl⟩
        exact visited_not_self hv
      rw [clearIdsV_cells_ne u1 hne, clearIdsV_cells_ne u2 hne]
      exact h.2 x' y' hv
    · rw [clearIdsV_self, clearIdsV_self]
      simp only [hs x' y' hx hy]
  have s0 : SameSet W H (clearIdsV x y u1) (clearIdsV x y u2) := by
    intro x' y' hx' hy'
    rw [clearIdsV_isSet, clearIdsV_isSet]
    exact hs x' y' hx' hy'
  unfold cellStepV
  rw [hs x y hx hy]
  split
  · unfold southStepV eastStepV northStepV westStepV
    have s1 := s0.sideStepV x y 0 (decide (x ≠ 0)) (x - 1) y (decide (y ≠ 0)) x (y - 1)
      (0, 1 / (H : ℚ)) (x * (1 / (W : ℚ)), y * (1 / (H : ℚ)))
      (x * (1 / (W : ℚ)), y * (1 / (H : ℚ)) + 1 / (H : ℚ))
    have s2 := s1.sideStepV x y 1 (decide (y ≠ 0)) x (y - 1) (decide (x ≠ 0)) (x - 1) y
      (1 / (W : ℚ), 0) (x * (1 / (W : ℚ)), y * (1 / (H : ℚ)))
      (x * (1 / (W : ℚ)) + 1 / (W : ℚ), y * (1 / (H : ℚ)))
    have s3 := s2.sideStepV x y 2 (decide (x + 1 < W)) (x + 1) y (decide (y ≠ 0)) x (y - 1)
      (0, 1 / (H : ℚ)) (x * (1 / (W : ℚ)) + 1 / (W : ℚ), y * (1 / (H : ℚ)))
      (x * (1 / (W : ℚ)) + 1 / (W : ℚ), y * (1 / (H : ℚ)) + 1 / (H : ℚ))
    have t1 := sideStepV_sameOn h0 (visited_self hy) 0 (decide (x ≠ 0)) (x - 1) y
      (decide (y ≠ 0)) x (y - 1)
      (0, 1 / (H : ℚ)) (x * (1 / (W : ℚ)), y * (1 / (H : ℚ)))
      (x * (1 / (W : ℚ)), y * (1 / (H : ℚ)) + 1 / (H : ℚ))
      (fun hg => s0 _ _ (by have := of_decide_eq_true hg; omega) hy) (visited_up hy)
    have t2 := sideStepV_sameOn t1 (visited_self hy) 1 (decide (y ≠ 0)) x (y - 1)
      (decide (x ≠ 0)) (x - 1) y
      (1 / (W : ℚ), 0) (x * (1 / (W : ℚ)), y * (1 / (H : ℚ)))
      (x * (1 / (W : ℚ)) + 1 / (W : ℚ), y * (1 / (H : ℚ)))
      (fun hg => s1 _ _ hx (by have := of_decide_eq_true hg; omega)) (visited_left hy)
    have t3 := sideStepV_sameOn t2 (visited_self hy) 2 (decide (x + 1 < W)) (x + 1) y
      (decide (y ≠ 0)) x (y - 1)
      (0, 1 / (H : ℚ)) (x * (1 / (W : ℚ)) + 1 / (W : ℚ), y * (1 / (H : ℚ)))
      (x * (1 / (W : ℚ)) + 1 / (W : ℚ), y * (1 / (H : ℚ)) + 1 / (H : ℚ))
      (fun hg => s2 _ _ (of_decide_eq_true hg) hy) (visited_up hy)
    exact sideStepV_sameOn t3 (visited_self hy) 3 (decide (y + 1 < H)) x (y + 1)
      (decide (x ≠ 0)) (x - 1) y
      (1 / (W : ℚ), 0) (x * (1 / (W : ℚ)), y * (1 / (H : ℚ)) + 1 / (H : ℚ))
      (x * (1 / (W : ℚ)) + 1 / (W : ℚ), y * (1 / (H : ℚ)) + 1 / (H : ℚ))
      (fun hg => s3 _ _ hx (of_decide_eq_true hg)) (visited_left hy)
  · exact h0

/-- Induction principle for two runs of the rebuild side by side. -/
theorem recalcV_induct2 (W H : Nat) (P : Nat → Nat → View → View → Prop) (v1 v2 : View)
    (h0 : P 0 0 { v1 with edges := outerEdges } { v2 with edges := outerEdges })
    (hstep : ∀ x y u1 u2, x < W → y < H → P x y u1 u2 →
      P x (y + 1) (cellStepV W H x y u1) (cellStepV W H x y u2))
    (hcol : ∀ x u1 u2, x < W → P x H u1 u2 → P (x + 1) 0 u1 u2) :
    P W 0 (recalcV W H v1) (recalcV W H v2) := by
  have hcolumn : ∀ x u1 u2, x < W → P x 0 u1 u2 → ∀ n, n ≤ H →
      P x n ((List.range n).foldl (fun v y => cellStepV W H x y v) u1)
        ((List.range n).foldl (fun v y => cellStepV W H x y v) u2) := by
    intro x u1 u2 hx hu n
    induction n with
    | zero => intro _; exact hu
    | succ n ih =>
      intro hn
      rw [List.range_succ, List.foldl_append, List.foldl_append]
      exact hstep x n _ _ hx (by omega) (ih (by omega))
  have hrows : ∀ n, n ≤ W →
      P n 0 ((List.range n).foldl (fun v x => columnLoopV W H x v) { v1 with edges := outerEdges })
        ((List.range n).foldl (fun v x => columnLoopV W H x v) { v2 with edges := outerEdges }) := by
    intro n
    induction n with
    | zero => intro _; exact h0
    | succ n ih =>
      intro hn
      rw [List.range_succ, List.foldl_append, List.foldl_append]
      exact hcol n _ _ (by omega) (hcolumn n _ _ (by omega) (ih (by omega)) H le_rfl)
  exact hrows W le_rfl

/-- Views with the same `isSet` values are rebuilt to the same edges and the same cells,
whatever ids and edges they held before. -/
theorem recalcV_congr {W H : Nat} {v1 v2 : View} (h : SameSet W H v1 v2) :
    (recalcV W H v1).edges = (recalcV W H v2).edges ∧
      ∀ x y, x < W → y < H → (recalcV W H v1).cells x y = (recalcV W H v2).cells x y := by
  have key := recalcV_induct2 W H
    (fun x y u1 u2 => SameOn (Visited H x y) u1 u2 ∧ SameSet W H u1 u2) v1 v2 ?_ ?_ ?_
  · exact ⟨key.1.1, fun x y hx hy => key.1.2 x y ⟨hy, Or.inl hx⟩⟩
  · refine ⟨⟨rfl, ?_⟩, h⟩
    intro x y hS
    unfold Visited at hS
    omega
  · intro x y u1 u2 hx hy hu
    refine ⟨cellStepV_sameOn hu.1 hu.2 hx hy, ?_⟩
    intro x' y' hx' hy'
    rw [cellStepV_isSet, cellStepV_isSet]
    exact hu.2 x' y' hx' hy'
  · intro x u1 u2 _ hu
    exact ⟨⟨hu.1.1, fun x' y' hS => hu.1.2 x' y' (visited_col_iff.1 hS)⟩, hu.2⟩

/-! ## Evaluating one side block -/

theorem sideStepV_skip {v : View} {x y : Nat} {slot : Fin 4} {guard : Bool} {nx ny : Nat}
    {pguard : Bool} {px py : Nat} {ext a b : Vector2f}
    (h : ¬(guard = true ∧ (v.cells nx ny).isSet = false)) :
    sideStepV v x y slot guard nx ny pguard px py ext a b = v := by
  rcases sideStepV_cases v x y slot guard nx ny pguard px py ext a b with
    ⟨_, e⟩ | ⟨hg, _, _⟩ | ⟨hg, _, _⟩
  · exact e
  · exact absurd hg h
  · exact absurd hg h

theorem sideStepV_addNew {v : View} {x y : Nat} {slot : Fin 4} {guard : Bool} {nx ny : Nat}
    {pguard : Bool} {px py : Nat} {ext a b : Vector2f}
    (hg : guard = true) (hn : (v.cells nx ny).isSet = false)
    (hp : pguard = true → (v.cells px py).edgeIds slot = -1) :
    sideStepV v x y slot guard nx ny pguard px py ext a b =
      recordEdgeV v x y slot (addNewEdge v.edges a b) := by
  rcases sideStepV_cases v x y slot guard nx ny pguard px py ext a b with
    ⟨h, _⟩ | ⟨_, hq, _⟩ | ⟨_, _, e⟩
  · exact absurd ⟨hg, hn⟩ h
  · exact absurd (hp hq.1) hq.2
  · exact e

theorem sideStepV_extend {v : View} {x y : Nat} {slot : Fin 4} {guard : Bool} {nx ny : Nat}
    {pguard : Bool} {px py : Nat} {ext a b : Vector2f}
    (hg : guard = true) (hn : (v.cells nx ny).isSet = false)
    (hp : pguard = true) (hid : (v.cells px py).edgeIds slot ≠ -1) :
    sideStepV v x y slot guard nx ny pguard px py ext a b =
      recordEdgeV v x y slot (extendEdge v.edges ((v.cells px py).edgeIds slot) ext) := by
  rcases sideStepV_cases v x y slot guard nx ny pguard px py ext a b with
    ⟨h, _⟩ | ⟨_, _, e⟩ | ⟨_, hq, _⟩
  · exact absurd ⟨hg, hn⟩ h
  · exact e
  · exact absurd ⟨hp, hid⟩ hq

theorem recordEdgeV_edges (v : View) (x y : Nat) (slot : Fin 4) (r : Int × List Edge) :
    (recordEdgeV v x y slot r).edges = r.2 := rfl

/-- A set cell strictly inside the grid whose four neighbours are unset and whose upper and
left neighbours hold no ids gets four new edges: west, north, east, south. -/
theorem cellStepV_isolated {W H x y : Nat} {v : View} (hs : (v.cells x y).isSet = true)
    (hx0 : x ≠ 0) (hy0 : y ≠ 0) (hx1 : x + 1 < W) (hy1 : y + 1 < H)
    (hw : (v.cells (x - 1) y).isSet = false) (hn : (v.cells x (y - 1)).isSet = false)
    (he : (v.cells (x + 1) y).isSet = false) (hso : (v.cells x (y + 1)).isSet = false)
    (hup : ∀ slot, (v.cells x (y - 1)).edgeIds slot = -1)
    (hleft : ∀ slot, (v.cells (x - 1) y).edgeIds slot = -1) :
    (cellStepV W H x y v).edges = v.edges ++
      [((x * (1 / (W : ℚ)), y * (1 / (H : ℚ))),
          (x * (1 / (W : ℚ)), y * (1 / (H : ℚ)) + 1 / (H : ℚ))),
        ((x * (1 / (W : ℚ)), y * (1 / (H : ℚ))),
          (x * (1 / (W : ℚ)) + 1 / (W : ℚ), y * (1 / (H : ℚ)))),
        ((x * (1 / (W : ℚ)) + 1 / (W : ℚ), y * (1 / (H : ℚ))),
          (x * (1 / (W : ℚ)) + 1 / (W : ℚ), y * (1 / (H : ℚ)) + 1 / (H : ℚ))),
        ((x * (1 / (W : ℚ)), y * (1 / (H : ℚ)) + 1 / (H : ℚ)),
          (x * (1 / (W : ℚ)) + 1 / (W : ℚ), y * (1 / (H : ℚ)) + 1 / (H : ℚ)))] ∧
    ((cellStepV W H x y v).cells x y).edgeIds 0 = (v.edges.length : Int) ∧
    ((cellStepV W H x y v).cells x y).edgeIds 1 = (v.edges.length : Int) + 1 ∧
    ((cellStepV W H x y v).cells x y).edgeIds 2 = (v.edges.length : Int) + 2 ∧
    ((cellStepV W H x y v).cells x y).edgeIds 3 = (v.edges.length : Int) + 3 := by
  have nup : ¬(x = x ∧ y - 1 = y) := by omega
  have nleft : ¬(x - 1 = x ∧ y = y) := by omega
  have nright : ¬(x + 1 = x ∧ y = y) := by omega
  have ndown : ¬(x = x ∧ y + 1 = y) := by omega
  have e : cellStepV W H x y v = southStepV W H x y (eastStepV W H x y
      (northStepV W H x y (westStepV W H x y (clearIdsV x y v)))) := by
    unfold cellStepV
    rw [if_pos hs]
  have e1 : westStepV W H x y (clearIdsV x y v) = recordEdgeV (clearIdsV x y v) x y 0
      (addNewEdge v.edges (x * (1 / (W : ℚ)), y * (1 / (H : ℚ)))
        (x * (1 / (W : ℚ)), y * (1 / (H : ℚ)) + 1 / (H : ℚ))) := by
    unfold westStepV
    rw [sideStepV_addNew (by simpa using hx0) (by rw [clearIdsV_isSet]; exact hw)
      (fun _ => by rw [clearIdsV_cells_ne v nup]; exact hup 0)]
    rfl
  have e2 : northStepV W H x y (westStepV W H x y (clearIdsV x y v)) =
      recordEdgeV (westStepV W H x y (clearIdsV x y v)) x y 1
      (addNewEdge (westStepV W H x y (clearIdsV x y v)).edges
        (x * (1 / (W : ℚ)), y * (1 / (H : ℚ)))
        (x * (1 / (W : ℚ)) + 1 / (W : ℚ), y * (1 / (H : ℚ)))) := by
    unfold northStepV
    rw [sideStepV_addNew (by simpa using hy0)
      (by rw [e1, recordEdgeV_isSet, clearIdsV_isSet]; exact hn)
      (fun _ => by
        rw [e1, recordEdgeV_cells_ne _ _ _ nleft, clearIdsV_cells_ne v nleft]; exact hleft 1)]
  have e3 : eastStepV W H x y (northStepV W H x y (westStepV W H x y (clearIdsV x y v))) =
      recordEdgeV (northStepV W H x y (westStepV W H x y (clearIdsV x y v))) x y 2
      (addNewEdge (northStepV W H x y (westStepV W H x y (clearIdsV x y v))).edges
        (x * (1 / (W : ℚ)) + 1 / (W : ℚ), y * (1 / (H : ℚ)))
        (x * (1 / (W : ℚ)) + 1 / (W : ℚ), y * (1 / (H : ℚ)) + 1 / (H : ℚ))) := by
    unfold eastStepV
    rw [sideStepV_addNew (by simpa using hx1)
      (by rw [e2, recordEdgeV_isSet, e1, recordEdgeV_isSet, clearIdsV_isSet]; exact he)
      (fun _ => by
        rw [e2, recordEdgeV_cells_ne _ _ _ nup, e1, recordEdgeV_cells_ne _ _ _ nup,
          clearIdsV_cells_ne v nup]
        exact hup 2)]
  have e4 : southStepV W H x y (eastStepV W H x y (northStepV W H x y
        (westStepV W H x y (clearIdsV x y v)))) =
      recordEdgeV (eastStepV W H x y (northStepV W H x y (westStepV W H x y (clearIdsV x y v))))
        x y 3
      (addNewEdge (eastStepV W H x y (northStepV W H x y
          (westStepV W H x y (clearIdsV x y v)))).edges
        (x * (1 / (W : ℚ)), y * (1 / (H : ℚ)) + 1 / (H : ℚ))
        (x * (1 / (W : ℚ)) + 1 / (W : ℚ), y * (1 / (H : ℚ)) + 1 / (H : ℚ))) := by
    unfold southStepV
    rw [sideStepV_addNew (by simpa using hy1)
      (by
        rw [e3, recordEdgeV_isSet, e2, recordEdgeV_isSet, e1, recordEdgeV_isSet,
          clearIdsV_isSet]
        exact hso)
      (fun _ => by
        rw [e3, recordEdgeV_cells_ne _ _ _ nleft, e2, recordEdgeV_cells_ne _ _ _ nleft, e1,
          recordEdgeV_cells_ne _ _ _ nleft, clearIdsV_cells_ne v nleft]
        exact hleft 3)]
  have l1 : (westStepV W H x y (clearIdsV x y v)).edges = v.edges ++
      [((x * (1 / (W : ℚ)), y * (1 / (H : ℚ))),
        (x * (1 / (W : ℚ)), y * (1 / (H : ℚ)) + 1 / (H : ℚ)))] := by
    rw [e1]; rfl
  have l2 : (northStepV W H x y (westStepV W H x y (clearIdsV x y v))).edges = v.edges ++
      [((x * (1 / (W : ℚ)), y * (1 / (H : ℚ))),
        (x * (1 / (W : ℚ)), y * (1 / (H : ℚ)) + 1 / (H : ℚ))),
       ((x * (1 / (W : ℚ)), y * (1 / (H : ℚ))),
          (x * (1 / (W : ℚ)) + 1 / (W : ℚ), y * (1 / (H : ℚ))))] := by
    rw [e2, recordEdgeV_edges, addNewEdge_snd, l1]
    simp
  have l3 : (eastStepV W H x y (northStepV W H x y (westStepV W H x y
        (clearIdsV x y v)))).edges = v.edges ++
      [((x * (1 / (W : ℚ)), y * (1 / (H : ℚ))),
        (x * (1 / (W : ℚ)), y * (1 / (H : ℚ)) + 1 / (H : ℚ))),
       ((x * (1 / (W : ℚ)), y * (1 / (H : ℚ))),
          (x * (1 / (W : ℚ)) + 1 / (W : ℚ), y * (1 / (H : ℚ)))),
       ((x * (1 / (W : ℚ)) + 1 / (W : ℚ), y * (1 / (H : ℚ))),
          (x * (1 / (W : ℚ)) + 1 / (W : ℚ), y * (1 / (H : ℚ)) + 1 / (H : ℚ)))] := by
    rw [e3, recordEdgeV_edges, addNewEdge_snd, l2]
    simp
  rw [e]
  refine ⟨?_, ?_, ?_, ?_, ?_⟩
  · rw [e4, recordEdgeV_edges, addNewEdge_snd, l3]
    simp
  · rw [e4, recordEdgeV_ids, Function.update_noteq (by decide), e3, recordEdgeV_ids,
      Function.update_noteq (by decide), e2, recordEdgeV_ids,
      Function.update_noteq (by decide), e1, recordEdgeV_ids, Function.update_same,
      addNewEdge_fst]
  · rw [e4, recordEdgeV_ids, Function.update_noteq (by decide), e3, recordEdgeV_ids,
      Function.update_noteq (by decide), e2, recordEdgeV_ids, Function.update_same,
      addNewEdge_fst, l1]
    simp
  · rw [e4, recordEdgeV_ids, Function.update_noteq (by decide), e3, recordEdgeV_ids,
      Function.update_same, addNewEdge_fst, l2]
    simp
  · rw [e4, recordEdgeV_ids, Function.update_same, addNewEdge_fst, l3]
    simp

/-! ## A single set cell -/

theorem recalcV_single {W H x0 y0 : Nat} {v : View} (hx0 : 1 ≤ x0) (hx1 : x0 + 2 ≤ W)
    (hy0 : 1 ≤ y0) (hy1 : y0 + 2 ≤ H)
    (hset : ∀ x y, x < W → y < H → ((v.cells x y).isSet = true ↔ x = x0 ∧ y = y0)) :
    (recalcV W H v).edges = outerEdges ++
      [((x0 * (1 / (W : ℚ)), y0 * (1 / (H : ℚ))),
          (x0 * (1 / (W : ℚ)), y0 * (1 / (H : ℚ)) + 1 / (H : ℚ))),
        ((x0 * (1 / (W : ℚ)), y0 * (1 / (H : ℚ))),
          (x0 * (1 / (W : ℚ)) + 1 / (W : ℚ), y0 * (1 / (H : ℚ)))),
        ((x0 * (1 / (W : ℚ)) + 1 / (W : ℚ), y0 * (1 / (H : ℚ))),
          (x0 * (1 / (W : ℚ)) + 1 / (W : ℚ), y0 * (1 / (H : ℚ)) + 1 / (H : ℚ))),
        ((x0 * (1 / (W : ℚ)), y0 * (1 / (H : ℚ)) + 1 / (H : ℚ)),
          (x0 * (1 / (W : ℚ)) + 1 / (W : ℚ), y0 * (1 / (H : ℚ)) + 1 / (H : ℚ)))] ∧
    ((recalcV W H v).cells x0 y0).edgeIds 0 = 4 ∧
    ((recalcV W H v).cells x0 y0).edgeIds 1 = 5 ∧
    ((recalcV W H v).cells x0 y0).edgeIds 2 = 6 ∧
    ((recalcV W H v).cells x0 y0).edgeIds 3 = 7 := by
  have key := recalcV_induct W H
    (fun x y u =>
      (∀ x' y', x' < W → y' < H → ((u.cells x' y').isSet = true ↔ x' = x0 ∧ y' = y0)) ∧
      (¬Visited H x y x0 y0 → u.edges = outerEdges ∧
        ∀ x' y', Visited H x y x' y' → ∀ slot, (u.cells x' y').edgeIds slot = -1) ∧
      (Visited H x y x0 y0 →
        u.edges = outerEdges ++
          [((x0 * (1 / (W : ℚ)), y0 * (1 / (H : ℚ))),
              (x0 * (1 / (W : ℚ)), y0 * (1 / (H : ℚ)) + 1 / (H : ℚ))),
            ((x0 * (1 / (W : ℚ)), y0 * (1 / (H : ℚ))),
              (x0 * (1 / (W : ℚ)) + 1 / (W : ℚ), y0 * (1 / (H : ℚ)))),
            ((x0 * (1 / (W : ℚ)) + 1 / (W : ℚ), y0 * (1 / (H : ℚ))),
              (x0 * (1 / (W : ℚ)) + 1 / (W : ℚ), y0 * (1 / (H : ℚ)) + 1 / (H : ℚ))),
            ((x0 * (1 / (W : ℚ)), y0 * (1 / (H : ℚ)) + 1 / (H : ℚ)),
              (x0 * (1 / (W : ℚ)) + 1 / (W : ℚ), y0 * (1 / (H : ℚ)) + 1 / (H : ℚ)))] ∧
        (u.cells x0 y0).edgeIds 0 = 4 ∧ (u.cells x0 y0).edgeIds 1 = 5 ∧
        (u.cells x0 y0).edgeIds 2 = 6 ∧ (u.cells x0 y0).edgeIds 3 = 7)) v ?_ ?_ ?_
  · exact key.2.2 ⟨by omega, Or.inl (by omega)⟩
  · refine ⟨hset, fun _ => ⟨rfl, ?_⟩, ?_⟩
    · intro x' y' hS
      unfold Visited at hS
      omega
    · intro hS
      unfold Visited at hS
      omega
  · intro x y u hx hy ⟨hs, hbefore, hafter⟩
    have hs' : ∀ x' y', x' < W → y' < H →
        (((cellStepV W H x y u).cells x' y').isSet = true ↔ x' = x0 ∧ y' = y0) := by
      intro x' y' hx' hy'
      rw [cellStepV_isSet]
      exact hs x' y' hx' hy'
    have unset : ∀ x' y', x' < W → y' < H → ¬(x' = x0 ∧ y' = y0) →
        (u.cells x' y').isSet = false := by
      intro x' y' hx' hy' hne
      have := hs x' y' hx' hy'
      cases hb : (u.cells x' y').isSet with
      | false => rfl
      | true => exact absurd (this.1 hb) hne
    refine ⟨hs', ?_⟩
    by_cases hc : x = x0 ∧ y = y0
    · rcases hc with ⟨rfl, rfl⟩
      rcases hbefore visited_not_self with ⟨hedges, hids⟩
      have iso := @cellStepV_isolated W H x y u ((hs x y hx hy).2 ⟨rfl, rfl⟩)
        (by omega) (by omega) (by omega) (by omega)
        (unset _ _ (by omega) hy (by omega)) (unset _ _ hx (by omega) (by omega))
        (unset _ _ (by omega) hy (by omega)) (unset _ _ hx (by omega) (by omega))
        (hids _ _ ⟨by omega, Or.inr ⟨rfl, by omega⟩⟩)
        (hids _ _ ⟨by omega, Or.inl (by omega)⟩)
      refine ⟨fun hnv => absurd (visited_self hy) hnv, fun _ => ?_⟩
      rw [hedges] at iso
      simpa [outerEdges] using iso
    · have hu : (u.cells x y).isSet = false := unset x y hx hy hc
      rw [cellStepV_unset hu]
      have hne : ¬(x0 = x ∧ y0 = y) := fun h => hc ⟨h.1.symm, h.2.symm⟩
      refine ⟨?_, ?_⟩
      · intro hnv
        have hnv' : ¬Visited H x y x0 y0 := fun h => hnv ((visited_succ_iff hy).2 (Or.inl h))
        rcases hbefore hnv' with ⟨hedges, hids⟩
        refine ⟨hedges, ?_⟩
        intro x' y' hS slot
        rcases (visited_succ_iff hy).1 hS with hv | ⟨rfl, rfl⟩
        · have hne' : ¬(x' = x ∧ y' = y) := by
            rintro ⟨rfl, rfl⟩
            exact visited_not_self hv
          rw [clearIdsV_cells_ne u hne']
          exact hids x' y' hv slot
        · rw [clearIdsV_self]
          rfl
      · intro hv
        have hv' : Visited H x y x0 y0 := by
          rcases (visited_succ_iff hy).1 hv with h | h
          · exact h
          · exact absurd h hne
        rw [clearIdsV_cells_ne u hne]
        exact hafter hv'
  · intro x u _ ⟨hs, hbefore, hafter⟩
    refine ⟨hs, ?_, ?_⟩
    · intro hnv
      rcases hbefore (fun h => hnv (visited_col_iff.2 h)) with ⟨hedges, hids⟩
      exact ⟨hedges, fun x' y' hS => hids x' y' (visited_col_iff.1 hS)⟩
    · intro hv
      exact hafter (visited_col_iff.1 hv)

/-! ## The loop body as a function of what it reads -/

theorem sideStepV_act (u : View) (x y : Nat) (slot : Fin 4) (guard : Bool) (nx ny : Nat)
    (pguard : Bool) (px py : Nat) (ext a b : Vector2f) :
    ((sideStepV u x y slot guard nx ny pguard px py ext a b).edges,
      ((sideStepV u x y slot guard nx ny pguard px py ext a b).cells x y).edgeIds) =
    sideAct (u.edges, (u.cells x y).edgeIds) slot (guard && !(u.cells nx ny).isSet)
      (if pguard then (u.cells px py).edgeIds slot else -1) ext a b := by
  rcases sideStepV_cases u x y slot guard nx ny pguard px py ext a b with
    ⟨h, e⟩ | ⟨hg, hq, e⟩ | ⟨hg, hq, e⟩
  · rw [e]
    have hf : (guard && !(u.cells nx ny).isSet) = false := by
      cases guard <;> cases hn : (u.cells nx ny).isSet <;> simp_all
    simp [sideAct, hf]
  · rw [e, recordEdgeV_ids, recordEdgeV_edges]
    simp [sideAct, hg.1, hg.2, hq.1, hq.2]
  · rw [e, recordEdgeV_ids, recordEdgeV_edges]
    have hprev : (if pguard = true then (u.cells px py).edgeIds slot else -1) = -1 := by
      by_cases hp : pguard = true
      · rw [if_pos hp]
        by_contra hne
        exact hq ⟨hp, hne⟩
      · rw [if_neg hp]
    simp [sideAct, hg.1, hg.2, hprev]

theorem westStepV_cells_ne (W H : Nat) (v : View) {x y x' y' : Nat} (h : ¬(x' = x ∧ y' = y)) :
    (westStepV W H x y v).cells x' y' = v.cells x' y' :=
  sideStepV_cells_ne _ _ _ _ _ _ _ _ _ _ _ h

theorem northStepV_cells_ne (W H : Nat) (v : View) {x y x' y' : Nat} (h : ¬(x' = x ∧ y' = y)) :
    (northStepV W H x y v).cells x' y' = v.cells x' y' :=
  sideStepV_cells_ne _ _ _ _ _ _ _ _ _ _ _ h

theorem eastStepV_cells_ne (W H : Nat) (v : View) {x y x' y' : Nat} (h : ¬(x' = x ∧ y' = y)) :
    (eastStepV W H x y v).cells x' y' = v.cells x' y' :=
  sideStepV_cells_ne _ _ _ _ _ _ _ _ _ _ _ h

theorem westStepV_isSet (W H : Nat) (v : View) (x y x' y' : Nat) :
    ((westStepV W H x y v).cells x' y').isSet = (v.cells x' y').isSet :=
  sideStepV_isSet _ _ _ _ _ _ _ _ _ _ _ _ _ _ _

theorem northStepV_isSet (W H : Nat) (v : View) (x y x' y' : Nat) :
    ((northStepV W H x y v).cells x' y').isSet = (v.cells x' y').isSet :=
  sideStepV_isSet _ _ _ _ _ _ _ _ _ _ _ _ _ _ _

theorem eastStepV_isSet (W H : Nat) (v : View) (x y x' y' : Nat) :
    ((eastStepV W H x y v).cells x' y').isSet = (v.cells x' y').isSet :=
  sideStepV_isSet _ _ _ _ _ _ _ _ _ _ _ _ _ _ _

theorem prev_up_eq {u v : View} {x y : Nat} (slot : Fin 4)
    (h : ∀ x' y', ¬(x' = x ∧ y' = y) → u.cells x' y' = v.cells x' y') :
    (if decide (y ≠ 0) = true then (u.cells x (y - 1)).edgeIds slot else -1) =
      if y ≠ 0 then (v.cells x (y - 1)).edgeIds slot else -1 := by
  by_cases hy : y = 0
  · simp [hy]
  · rw [h x (y - 1) (by omega)]
    simp [hy]

theorem prev_left_eq {u v : View} {x y : Nat} (slot : Fin 4)
    (h : ∀ x' y', ¬(x' = x ∧ y' = y) → u.cells x' y' = v.cells x' y') :
    (if decide (x ≠ 0) = true then (u.cells (x - 1) y).edgeIds slot else -1) =
      if x ≠ 0 then (v.cells (x - 1) y).edgeIds slot else -1 := by
  by_cases hx : x = 0
  · simp [hx]
  · rw [h (x - 1) y (by omega)]
    simp [hx]

/-- The loop body for a set cell computes `cellAct`. -/
theorem cellStepV_act {W H x y : Nat} {v : View} (hs : (v.cells x y).isSet = true) :
    (cellStepV W H x y v).edges = (cellAct W H x y v).1 ∧
      ((cellStepV W H x y v).cells x y).edgeIds = (cellAct W H x y v).2 := by
  have e : cellStepV W H x y v = southStepV W H x y (eastStepV W H x y
      (northStepV W H x y (westStepV W H x y (clearIdsV x y v)))) := by
    unfold cellStepV
    rw [if_pos hs]
  have c0 : ∀ x' y', ¬(x' = x ∧ y' = y) → (clearIdsV x y v).cells x' y' = v.cells x' y' :=
    fun x' y' h => clearIdsV_cells_ne v h
  have c1 : ∀ x' y', ¬(x' = x ∧ y' = y) →
      (westStepV W H x y (clearIdsV x y v)).cells x' y' = v.cells x' y' :=
    fun x' y' h => by rw [westStepV_cells_ne W H _ h, c0 x' y' h]
  have c2 : ∀ x' y', ¬(x' = x ∧ y' = y) →
      (northStepV W H x y (westStepV W H x y (clearIdsV x y v))).cells x' y' = v.cells x' y' :=
    fun x' y' h => by rw [northStepV_cells_ne W H _ h, c1 x' y' h]
  have c3 : ∀ x' y', ¬(x' = x ∧ y' = y) →
      (eastStepV W H x y (northStepV W H x y (westStepV W H x y (clearIdsV x y v)))).cells x' y' =
        v.cells x' y' :=
    fun x' y' h => by rw [eastStepV_cells_ne W H _ h, c2 x' y' h]
  have a1 := sideStepV_act (clearIdsV x y v) x y 0 (decide (x ≠ 0)) (x - 1) y
    (decide (y ≠ 0)) x (y - 1) (0, 1 / (H : ℚ)) (x * (1 / (W : ℚ)), y * (1 / (H : ℚ)))
    (x * (1 / (W : ℚ)), y * (1 / (H : ℚ)) + 1 / (H : ℚ))
  rw [prev_up_eq 0 c0, clearIdsV_isSet, clearIdsV_self, clearIdsV_edges] at a1
  have a2 := sideStepV_act (westStepV W H x y (clearIdsV x y v)) x y 1 (decide (y ≠ 0)) x (y - 1)
    (decide (x ≠ 0)) (x - 1) y (1 / (W : ℚ), 0) (x * (1 / (W : ℚ)), y * (1 / (H : ℚ)))
    (x * (1 / (W : ℚ)) + 1 / (W : ℚ), y * (1 / (H : ℚ)))
  rw [prev_left_eq 1 c1, westStepV_isSet, clearIdsV_isSet] at a2
  have a3 := sideStepV_act (northStepV W H x y (westStepV W H x y (clearIdsV x y v))) x y 2
    (decide (x + 1 < W)) (x + 1) y (decide (y ≠ 0)) x (y - 1) (0, 1 / (H : ℚ))
    (x * (1 / (W : ℚ)) + 1 / (W : ℚ), y * (1 / (H : ℚ)))
    (x * (1 / (W : ℚ)) + 1 / (W : ℚ), y * (1 / (H : ℚ)) + 1 / (H : ℚ))
  rw [prev_up_eq 2 c2, northStepV_isSet, westStepV_isSet, clearIdsV_isSet] at a3
  have a4 := sideStepV_act
    (eastStepV W H x y (northStepV W H x y (westStepV W H x y (clearIdsV x y v)))) x y 3
    (decide (y + 1 < H)) x (y + 1) (decide (x ≠ 0)) (x - 1) y (1 / (W : ℚ), 0)
    (x * (1 / (W : ℚ)), y * (1 / (H : ℚ)) + 1 / (H : ℚ))
    (x * (1 / (W : ℚ)) + 1 / (W : ℚ), y * (1 / (H : ℚ)) + 1 / (H : ℚ))
  rw [prev_left_eq 3 c3, eastStepV_isSet, northStepV_isSet, westStepV_isSet, clearIdsV_isSet] at a4
  have b1 : ((westStepV W H x y (clearIdsV x y v)).edges,
      ((westStepV W H x y (clearIdsV x y v)).cells x y).edgeIds) = _ := a1
  have b2 : ((northStepV W H x y (westStepV W H x y (clearIdsV x y v))).edges,
      ((northStepV W H x y (westStepV W H x y (clearIdsV x y v))).cells x y).edgeIds) = _ := a2
  have b3 : ((eastStepV W H x y (northStepV W H x y (westStepV W H x y
        (clearIdsV x y v)))).edges,
      ((eastStepV W H x y (northStepV W H x y (westStepV W H x y
        (clearIdsV x y v)))).cells x y).edgeIds) = _ := a3
  have b4 : ((southStepV W H x y (eastStepV W H x y (northStepV W H x y (westStepV W H x y
        (clearIdsV x y v))))).edges,
      ((southStepV W H x y (eastStepV W H x y (northStepV W H x y (westStepV W H x y
        (clearIdsV x y v))))).cells x y).edgeIds) = _ := a4
  rw [b3, b2, b1] at b4
  rw [e]
  have := b4
  unfold cellAct
  exact ⟨congrArg Prod.fst this, congrArg Prod.snd this⟩

/-! ## A horizontal run of set cells -/

theorem cellAct_run_first {W H x y : Nat} {v : View} (hx0 : x ≠ 0) (hy0 : y ≠ 0)
    (hy1 : y + 1 < H)
    (hw : (v.cells (x - 1) y).isSet = false) (hn : (v.cells x (y - 1)).isSet = false)
    (he : (v.cells (x + 1) y).isSet = true) (hso : (v.cells x (y + 1)).isSet = false)
    (hup : (v.cells x (y - 1)).edgeIds 0 = -1)
    (hl1 : (v.cells (x - 1) y).edgeIds 1 = -1) (hl3 : (v.cells (x - 1) y).edgeIds 3 = -1)
    (hedges : v.edges = outerEdges) :
    (cellAct W H x y v).1 = runEdges W H x y 1 false ∧
      (cellAct W H x y v).2 1 = 5 ∧ (cellAct W H x y v).2 3 = 6 := by
  have a1 : (x : ℚ) * (1 / (W : ℚ)) + 1 / (W : ℚ) = ((x : ℚ) + ((1 : Nat) : ℚ)) * (1 / (W : ℚ)) := by
    push_cast; ring
  have a2 : (y : ℚ) * (1 / (H : ℚ)) + 1 / (H : ℚ) = ((y : ℚ) + 1) * (1 / (H : ℚ)) := by ring
  unfold cellAct
  simp only [hx0, hy0, hy1, hw, hn, he, hso, hup, hl1, hl3, hedges, ne_eq, not_false_eq_true,
    decide_True, Bool.not_false, Bool.not_true, Bool.and_true, Bool.and_false, if_true, sideAct,
    not_true_eq_false, if_false, addNewEdge_fst, addNewEdge_snd, a1, a2]
  refine ⟨?_, ?_, ?_⟩
  · simp [runEdges, outerEdges]
  · simp [outerEdges, Function.update]
  · simp [outerEdges, Function.update]

theorem cellAct_run_middle {W H x0 y j : Nat} {v : View} (hj : 1 ≤ j) (hy0 : y ≠ 0)
    (hy1 : y + 1 < H)
    (hw : (v.cells (x0 + j - 1) y).isSet = true) (hn : (v.cells (x0 + j) (y - 1)).isSet = false)
    (he : (v.cells (x0 + j + 1) y).isSet = true) (hso : (v.cells (x0 + j) (y + 1)).isSet = false)
    (hl1 : (v.cells (x0 + j - 1) y).edgeIds 1 = 5) (hl3 : (v.cells (x0 + j - 1) y).edgeIds 3 = 6)
    (hedges : v.edges = runEdges W H x0 y j false) :
    (cellAct W H (x0 + j) y v).1 = runEdges W H x0 y (j + 1) false ∧
      (cellAct W H (x0 + j) y v).2 1 = 5 ∧ (cellAct W H (x0 + j) y v).2 3 = 6 := by
  have hx0 : x0 + j ≠ 0 := by omega
  unfold cellAct
  simp only [hx0, hy0, hy1, hw, hn, he, hso, hl1, hl3, hedges, ne_eq, not_false_eq_true,
    decide_True, Bool.not_false, Bool.not_true, Bool.and_true, Bool.and_false, if_true, sideAct,
    not_true_eq_false, if_false]
  refine ⟨?_, ?_, ?_⟩
  · simp [runEdges, outerEdges, extendEdge]
    ring
  · simp [runEdges, outerEdges, extendEdge, Function.update]
  · simp [runEdges, outerEdges, extendEdge, Function.update]

theorem cellAct_run_last {W H x0 y j : Nat} {v : View} (hj : 1 ≤ j) (hy0 : y ≠ 0)
    (hx1 : x0 + j + 1 < W) (hy1 : y + 1 < H)
    (hw : (v.cells (x0 + j - 1) y).isSet = true) (hn : (v.cells (x0 + j) (y - 1)).isSet = false)
    (he : (v.cells (x0 + j + 1) y).isSet = false) (hso : (v.cells (x0 + j) (y + 1)).isSet = false)
    (hup : (v.cells (x0 + j) (y - 1)).edgeIds 2 = -1)
    (hl1 : (v.cells (x0 + j - 1) y).edgeIds 1 = 5) (hl3 : (v.cells (x0 + j - 1) y).edgeIds 3 = 6)
    (hedges : v.edges = runEdges W H x0 y j false) :
    (cellAct W H (x0 + j) y v).1 = runEdges W H x0 y (j + 1) true ∧
      (cellAct W H (x0 + j) y v).2 1 = 5 ∧ (cellAct W H (x0 + j) y v).2 3 = 6 := by
  have hx0 : x0 + j ≠ 0 := by omega
  unfold cellAct
  simp only [hx0, hy0, hx1, hy1, hw, hn, he, hso, hup, hl1, hl3, hedges, ne_eq,
    not_false_eq_true, decide_True, Bool.not_false, Bool.not_true, Bool.and_true,
    Bool.and_false, if_true, sideAct, not_true_eq_false, if_false]
  refine ⟨?_, ?_, ?_⟩
  · simp [runEdges, outerEdges, extendEdge, addNewEdge]
    exact ⟨by ring, by ring⟩
  · simp [runEdges, outerEdges, extendEdge, addNewEdge, Function.update]
  · simp [runEdges, outerEdges, extendEdge, addNewEdge, Function.update]

theorem recalcV_run {W H x0 y0 N : Nat} {v : View} (hN : 2 ≤ N) (hx0 : 1 ≤ x0)
    (hx1 : x0 + N + 1 ≤ W) (hy0 : 1 ≤ y0) (hy1 : y0 + 2 ≤ H)
    (hset : ∀ x y, x < W → y < H →
      ((v.cells x y).isSet = true ↔ y = y0 ∧ x0 ≤ x ∧ x < x0 + N)) :
    (recalcV W H v).edges = runEdges W H x0 y0 N true ∧
      ∀ j, j < N → ((recalcV W H v).cells (x0 + j) y0).edgeIds 1 = 5 ∧
        ((recalcV W H v).cells (x0 + j) y0).edgeIds 3 = 6 := by
  have key := recalcV_induct W H
    (fun x y u =>
      (∀ x' y', x' < W → y' < H →
        ((u.cells x' y').isSet = true ↔ y' = y0 ∧ x0 ≤ x' ∧ x' < x0 + N)) ∧
      ∃ n, n ≤ N ∧ (∀ j, j < N → (Visited H x y (x0 + j) y0 ↔ j < n)) ∧
        (n = 0 → u.edges = outerEdges) ∧
        (1 ≤ n → u.edges = runEdges W H x0 y0 n (decide (n = N))) ∧
        ∀ x' y', Visited H x y x' y' →
          ((y' = y0 ∧ x0 ≤ x' ∧ x' < x0 + N) →
            (u.cells x' y').edgeIds 1 = 5 ∧ (u.cells x' y').edgeIds 3 = 6) ∧
          (¬(y' = y0 ∧ x0 ≤ x' ∧ x' < x0 + N) → ∀ slot, (u.cells x' y').edgeIds slot = -1))
    v ?_ ?_ ?_
  · rcases key with ⟨_, n, hn, hvis, _, hedges, hids⟩
    have hnN : n = N := by
      have := (hvis (N - 1) (by omega)).1 ⟨by omega, Or.inl (by omega)⟩
      omega
    refine ⟨?_, ?_⟩
    · rw [hedges (by omega), hnN]
      simp
    · intro j hj
      exact (hids (x0 + j) y0 ⟨by omega, Or.inl (by omega)⟩).1 ⟨rfl, by omega, by omega⟩
  · refine ⟨hset, 0, by omega, ?_, fun _ => rfl, fun h => absurd h (by omega), ?_⟩
    · intro j _
      unfold Visited
      omega
    · intro x' y' hS
      unfold Visited at hS
      omega
  · intro x y u hx hy ⟨hs, n, hn, hvis, he0, he1, hids⟩
    have hs' : ∀ x' y', x' < W → y' < H →
        (((cellStepV W H x y u).cells x' y').isSet = true ↔ y' = y0 ∧ x0 ≤ x' ∧ x' < x0 + N) := by
      intro x' y' hx' hy'
      rw [cellStepV_isSet]
      exact hs x' y' hx' hy'
    have unset : ∀ x' y', x' < W → y' < H → ¬(y' = y0 ∧ x0 ≤ x' ∧ x' < x0 + N) →
        (u.cells x' y').isSet = false := by
      intro x' y' hx' hy' hne
      cases hb : (u.cells x' y').isSet with
      | false => rfl
      | true => exact absurd ((hs x' y' hx' hy').1 hb) hne
    have old : ∀ x' y', Visited H x (y + 1) x' y' → ¬(x' = x ∧ y' = y) →
        Visited H x y x' y' ∧ (cellStepV W H x y u).cells x' y' = u.cells x' y' := by
      intro x' y' hS hne
      rcases (visited_succ_iff hy).1 hS with h | h
      · exact ⟨h, cellStepV_cells_ne W H u hne⟩
      · exact absurd h hne
    refine ⟨hs', ?_⟩
    by_cases hrun : y = y0 ∧ x0 ≤ x ∧ x < x0 + N
    · rcases hrun with ⟨rfl, hxa, hxb⟩
      obtain ⟨j0, rfl⟩ : ∃ j0, x = x0 + j0 := ⟨x - x0, by omega⟩
      have hj0 : j0 < N := by omega
      have hnj : n = j0 := by
        have h1 : ∀ j, j < N → (j < j0 ↔ j < n) := by
          intro j hj
          rw [← hvis j hj]
          unfold Visited
          constructor
          · intro h; exact ⟨hy, Or.inl (by omega)⟩
          · rintro ⟨_, h | ⟨h, h'⟩⟩
            · omega
            · omega
        by_contra hne
        rcases Nat.lt_or_gt_of_ne hne with h | h
        · have := (h1 n (by omega)).1 h
          omega
        · have := (h1 j0 hj0).2 h
          omega
      subst hnj
      have hset1 : (u.cells (x0 + n) y).isSet = true := (hs _ _ hx hy).2 ⟨rfl, by omega, by omega⟩
      rcases cellStepV_act (W := W) (H := H) hset1 with ⟨aE, aI⟩
      have hup : ∀ slot, (u.cells (x0 + n) (y - 1)).edgeIds slot = -1 :=
        (hids _ _ ⟨by omega, Or.inr ⟨rfl, by omega⟩⟩).2 (by omega)
      have hnorth : (u.cells (x0 + n) (y - 1)).isSet = false :=
        unset _ _ hx (by omega) (by omega)
      have hsouth : (u.cells (x0 + n) (y + 1)).isSet = false :=
        unset _ _ hx (by omega) (by omega)
      have result : (cellAct W H (x0 + n) y u).1 =
            runEdges W H x0 y (n + 1) (decide (n + 1 = N)) ∧
          (cellAct W H (x0 + n) y u).2 1 = 5 ∧ (cellAct W H (x0 + n) y u).2 3 = 6 := by
        by_cases hn0 : n = 0
        · subst hn0
          have hleft : ∀ slot, (u.cells (x0 + 0 - 1) y).edgeIds slot = -1 :=
            (hids _ _ ⟨hy, Or.inl (by omega)⟩).2 (by omega)
          have hd : decide (0 + 1 = N) = false := by
            simp only [decide_eq_false_iff_not]; omega
          rw [hd]
          exact cellAct_run_first (by omega) (by omega) (by omega)
            (unset _ _ (by omega) hy (by omega)) hnorth
            ((hs _ _ (by omega) hy).2 ⟨rfl, by omega, by omega⟩) hsouth
            (hup 0) (hleft 1) (hleft 3) (he0 rfl)
        · have hleft := (hids (x0 + n - 1) y ⟨hy, Or.inl (by omega)⟩).1 ⟨rfl, by omega, by omega⟩
          have hwest : (u.cells (x0 + n - 1) y).isSet = true :=
            (hs _ _ (by omega) hy).2 ⟨rfl, by omega, by omega⟩
          have hedges := he1 (by omega)
          have hd : decide (n = N) = false := by
            simp only [decide_eq_false_iff_not]; omega
          rw [hd] at hedges
          by_cases hlast : n + 1 = N
          · have hd' : decide (n + 1 = N) = true := by simpa using hlast
            rw [hd']
            exact cellAct_run_last (by omega) (by omega) (by omega) (by omega) hwest hnorth
              (unset _ _ (by omega) hy (by omega)) hsouth (hup 2) hleft.1 hleft.2 hedges
          · have hd' : decide (n + 1 = N) = false := by
              simp only [decide_eq_false_iff_not]; omega
            rw [hd']
            exact cellAct_run_middle (by omega) (by omega) (by omega) hwest hnorth
              ((hs _ _ (by omega) hy).2 ⟨rfl, by omega, by omega⟩) hsouth hleft.1 hleft.2 hedges
      refine ⟨n + 1, by omega, ?_, fun h => absurd h (by omega), fun _ => ?_, ?_⟩
      · intro j hj
        rw [visited_succ_iff hy, hvis j hj]
        constructor
        · rintro (h | ⟨h, _⟩)
          · omega
          · omega
        · intro h
          by_cases hjn : j = n
          · exact Or.inr ⟨by omega, rfl⟩
          · exact Or.inl (by omega)
      · rw [aE]
        exact result.1
      · intro x' y' hS
        by_cases hc : x' = x0 + n ∧ y' = y
        · rcases hc with ⟨rfl, rfl⟩
          refine ⟨fun _ => ?_, fun h => absurd ⟨rfl, by omega, by omega⟩ h⟩
          rw [aI]
          exact result.2
        · rcases old x' y' hS hc with ⟨hv, hcell⟩
          rw [hcell]
          exact hids x' y' hv
    · have hu : (u.cells x y).isSet = false := unset x y hx hy hrun
      refine ⟨n, hn, ?_, ?_, ?_, ?_⟩
      · intro j hj
        rw [visited_succ_iff hy, ← hvis j hj]
        constructor
        · rintro (h | ⟨h1, h2⟩)
          · exact h
          · exact absurd ⟨h2.symm, by omega, by omega⟩ hrun
        · exact Or.inl
      · intro h0
        rw [cellStepV_edges_of_unset hu]
        exact he0 h0
      · intro h1
        rw [cellStepV_edges_of_unset hu]
        exact he1 h1
      · intro x' y' hS
        by_cases hc : x' = x ∧ y' = y
        · rcases hc with ⟨rfl, rfl⟩
          refine ⟨fun h => absurd h hrun, fun _ slot => ?_⟩
          rw [cellStepV_unset hu, clearIdsV_self]
          rfl
        · rcases old x' y' hS hc with ⟨hv, hcell⟩
          rw [hcell]
          exact hids x' y' hv
  · intro x u _ ⟨hs, n, hn, hvis, he0, he1, hids⟩
    refine ⟨hs, n, hn, ?_, he0, he1, ?_⟩
    · intro j hj
      rw [visited_col_iff]
      exact hvis j hj
    · intro x' y' hS
      exact hids x' y' (visited_col_iff.1 hS)

/-! ## Ray casting keeps the first nearest intersection -/

/-- State of the ray-cast loop after the edges `l`: no edge hit so far, or the first
nearest hit. -/
theorem raycast_fold_inv (sqrt : ℚ → ℚ) (windowSize point ray : Vector2f) (l : List Edge)
    (hfin : ∀ e ∈ l, ∀ p, getIntersectionPoint point ray (edgeToScreen windowSize e).1
      (edgeToScreen windowSize e).2 = some p → hitDistance sqrt point p < doubleMax) :
    (l.foldl (raycastStep sqrt windowSize point ray) ((0, 0), doubleMax) = ((0, 0), doubleMax) ∧
      ∀ e ∈ l, getIntersectionPoint point ray (edgeToScreen windowSize e).1
        (edgeToScreen windowSize e).2 = none) ∨
    (∃ (i : Nat) (e : Edge), l[i]? = some e ∧
      getIntersectionPoint point ray (edgeToScreen windowSize e).1
        (edgeToScreen windowSize e).2 =
          some (l.foldl (raycastStep sqrt windowSize point ray) ((0, 0), doubleMax)).1 ∧
      (l.foldl (raycastStep sqrt windowSize point ray) ((0, 0), doubleMax)).2 =
        hitDistance sqrt point
          (l.foldl (raycastStep sqrt windowSize point ray) ((0, 0), doubleMax)).1 ∧
      (∀ e' ∈ l, ∀ p, getIntersectionPoint point ray (edgeToScreen windowSize e').1
          (edgeToScreen windowSize e').2 = some p →
        (l.foldl (raycastStep sqrt windowSize point ray) ((0, 0), doubleMax)).2 ≤
          hitDistance sqrt point p) ∧
      (∀ (j : Nat) (e' : Edge) (p : Vector2f), j < i → l[j]? = some e' →
        getIntersectionPoint point ray (edgeToScreen windowSize e').1
          (edgeToScreen windowSize e').2 = some p →
        (l.foldl (raycastStep sqrt windowSize point ray) ((0, 0), doubleMax)).2 <
          hitDistance sqrt point p)) := by
  induction l using List.reverseRecOn with
  | nil =>
    left
    exact ⟨rfl, fun e he => absurd he (List.not_mem_nil e)⟩
  | append_singleton l e ih =>
    have hfin' : ∀ e ∈ l, ∀ p, getIntersectionPoint point ray (edgeToScreen windowSize e).1
        (edgeToScreen windowSize e).2 = some p → hitDistance sqrt point p < doubleMax :=
      fun e' he' => hfin e' (List.mem_append_left _ he')
    have ih := ih hfin'
    rw [List.foldl_append, List.foldl_cons, List.foldl_nil]
    generalize l.foldl (raycastStep sqrt windowSize point ray) ((0, 0), doubleMax) = acc at ih ⊢
    have hidx : ∀ (j : Nat) (e' : Edge), l[j]? = some e' → (l ++ [e])[j]? = some e' := by
      intro j e' h
      have hj : j < l.length := (List.getElem?_eq_some.1 h).1
      rw [List.getElem?_append_left hj]
      exact h
    have hidx' : ∀ (j : Nat) (e' : Edge), j < l.length → (l ++ [e])[j]? = some e' →
        l[j]? = some e' := by
      intro j e' hj h
      rw [List.getElem?_append_left hj] at h
      exact h
    cases hhit : getIntersectionPoint point ray (edgeToScreen windowSize e).1
        (edgeToScreen windowSize e).2 with
    | none =>
      have hstep : raycastStep sqrt windowSize point ray acc e = acc := by
        unfold raycastStep
        rw [hhit]
      rw [hstep]
      rcases ih with ⟨h1, h2⟩ | ⟨i, e0, h1, h2, h3, h4, h5⟩
      · left
        refine ⟨h1, ?_⟩
        intro e' he'
        rcases List.mem_append.1 he' with h | h
        · exact h2 e' h
        · rw [List.mem_singleton.1 h]
          exact hhit
      · right
        refine ⟨i, e0, hidx i e0 h1, h2, h3, ?_, ?_⟩
        · intro e' he' p hp
          rcases List.mem_append.1 he' with h | h
          · exact h4 e' h p hp
          · rw [List.mem_singleton.1 h, hhit] at hp
            exact absurd hp (by simp)
        · intro j e' p hj hje hp
          have hi : i < l.length := (List.getElem?_eq_some.1 h1).1
          exact h5 j e' p hj (hidx' j e' (by omega) hje) hp
    | some p0 =>
      have hp0 : hitDistance sqrt point p0 < doubleMax :=
        hfin e (List.mem_append_right _ (List.mem_singleton.2 rfl)) p0 hhit
      have hlast : (l ++ [e])[l.length]? = some e := by
        simp
      by_cases hlt : hitDistance sqrt point p0 < acc.2
      · have hstep : raycastStep sqrt windowSize point ray acc e =
            (p0, hitDistance sqrt point p0) := by
          unfold raycastStep
          rw [hhit]
          simp only []
          rw [if_pos hlt]
        rw [hstep]
        right
        refine ⟨l.length, e, hlast, hhit, rfl, ?_, ?_⟩
        · intro e' he' p hp
          rcases List.mem_append.1 he' with h | h
          · rcases ih with ⟨_, h2⟩ | ⟨i, e0, h1, h2, h3, h4, h5⟩
            · rw [h2 e' h] at hp
              exact absurd hp (by simp)
            · exact le_of_lt (lt_of_lt_of_le hlt (h4 e' h p hp))
          · rw [List.mem_singleton.1 h, hhit] at hp
            injection hp with hp
            rw [hp]
        · intro j e' p hj hje hp
          have hje' := hidx' j e' hj hje
          have hmem : e' ∈ l := List.getElem?_mem hje'
          rcases ih with ⟨_, h2⟩ | ⟨i, e0, h1, h2, h3, h4, h5⟩
          · rw [h2 e' hmem] at hp
            exact absurd hp (by simp)
          · exact lt_of_lt_of_le hlt (h4 e' hmem p hp)
      · have hstep : raycastStep sqrt windowSize point ray acc e = acc := by
          unfold raycastStep
          rw [hhit]
          simp only []
          rw [if_neg hlt]
        rw [hstep]
        rcases ih with ⟨h1, _⟩ | ⟨i, e0, h1, h2, h3, h4, h5⟩
        · rw [h1] at hlt
          exact absurd hp0 hlt
        · right
          refine ⟨i, e0, hidx i e0 h1, h2, h3, ?_, ?_⟩
          · intro e' he' p hp
            rcases List.mem_append.1 he' with h | h
            · exact h4 e' h p hp
            · rw [List.mem_singleton.1 h, hhit] at hp
              injection hp with hp
              rw [← hp]
              exact not_lt.1 hlt
          · intro j e' p hj hje hp
            have hi : i < l.length := (List.getElem?_eq_some.1 h1).1
            exact h5 j e' p hj (hidx' j e' (by omega) hje) hp

/-! ## The polygon loop -/

/-- State of the polygon loop after `k` iterations over the sorted hits `s`. -/
theorem polygon_fold_inv (mouse : Vector2f) (s : List RayHit) (k : Nat) (hk : k ≤ s.length) :
    ((List.range k).foldl (polygonStep mouse s) (s.length - 1, [])).1 =
        (k + s.length - 1) % s.length ∧
      ((List.range k).foldl (polygonStep mouse s) (s.length - 1, [])).2.length = 3 * k ∧
      ∀ i, i < k →
        ((List.range k).foldl (polygonStep mouse s) (s.length - 1, [])).2[3 * i]? =
            some ⟨mouse, 150⟩ ∧
          ((List.range k).foldl (polygonStep mouse s) (s.length - 1, [])).2[3 * i + 1]? =
            some ⟨(s.getD i ⟨(0, 0), (0, 0), 0, 0⟩).hitPoint,
              hitAlpha (s.getD i ⟨(0, 0), (0, 0), 0, 0⟩).distance⟩ ∧
          ((List.range k).foldl (polygonStep mouse s) (s.length - 1, [])).2[3 * i + 2]? =
            some ⟨(s.getD ((i + s.length - 1) % s.length) ⟨(0, 0), (0, 0), 0, 0⟩).hitPoint,
              hitAlpha
                (s.getD ((i + s.length - 1) % s.length) ⟨(0, 0), (0, 0), 0, 0⟩).distance⟩ := by
  induction k with
  | zero =>
    refine ⟨?_, rfl, fun i hi => absurd hi (by omega)⟩
    show s.length - 1 = (0 + s.length - 1) % s.length
    rcases Nat.eq_zero_or_pos s.length with h | h
    · rw [h]
    · rw [Nat.zero_add, Nat.mod_eq_of_lt (by omega)]
  | succ k ih =>
    rcases ih (by omega) with ⟨h1, h2, h3⟩
    rw [List.range_succ, List.foldl_append, List.foldl_cons, List.foldl_nil]
    generalize (List.range k).foldl (polygonStep mouse s) (s.length - 1, []) = st at h1 h2 h3 ⊢
    have hmod : (k + 1 + s.length - 1) % s.length = k := by
      have : k + 1 + s.length - 1 = k + s.length := by omega
      rw [this, Nat.add_mod_right, Nat.mod_eq_of_lt (by omega)]
    refine ⟨?_, ?_, ?_⟩
    · show k = _
      exact hmod.symm
    · show (st.2 ++ _).length = 3 * (k + 1)
      rw [List.length_append, h2]
      rfl
    · intro i hi
      show (st.2 ++ _)[3 * i]? = _ ∧ (st.2 ++ _)[3 * i + 1]? = _ ∧ (st.2 ++ _)[3 * i + 2]? = _
      by_cases hik : i < k
      · rcases h3 i hik with ⟨a, b, c⟩
        rw [List.getElem?_append_left (by omega), List.getElem?_append_left (by omega),
          List.getElem?_append_left (by omega)]
        exact ⟨a, b, c⟩
      · have hik' : i = k := by omega
        subst hik'
        rw [List.getElem?_append_right (by omega), List.getElem?_append_right (by omega),
          List.getElem?_append_right (by omega), h2, h1]
        have e0 : 3 * i - 3 * i = 0 := by omega
        have e1 : 3 * i + 1 - 3 * i = 1 := by omega
        have e2 : 3 * i + 2 - 3 * i = 2 := by omega
        rw [e0, e1, e2]
        exact ⟨rfl, rfl, rfl⟩

/-! ## The declared storage and the addressed cells -/

theorem getCell_isSome_of_shaped {W H : Nat} {m : List (List Cell)} (h : Shaped W H m)
    (x y : Nat) : (getCell m x y).isSome = true ↔ x < H ∧ y < W := by
  unfold getCell
  constructor
  · intro hs
    cases hm : m[x]? with
    | none => rw [hm] at hs; simp at hs
    | some row =>
      rw [hm] at hs
      simp only [] at hs
      have hx : x < m.length := (List.getElem?_eq_some.1 hm).1
      have hrow : row ∈ m := List.getElem?_mem hm
      rcases Option.isSome_iff_exists.1 hs with ⟨c, hc⟩
      have hy : y < row.length := (List.getElem?_eq_some.1 hc).1
      rw [h.2 row hrow] at hy
      rw [h.1] at hx
      exact ⟨hx, hy⟩
  · rintro ⟨hx, hy⟩
    have hx' : x < m.length := by rw [h.1]; exact hx
    rw [List.getElem?_eq_getElem hx']
    simp only []
    have hrow : m[x] ∈ m := List.getElem_mem hx'
    have hy' : y < (m[x]).length := by rw [h.2 _ hrow]; exact hy
    rw [List.getElem?_eq_getElem hy']
    rfl

/-- On storage of the declared shape, `GridHeight` rows of `GridWidth` cells indexed
`mGrid[x][y]`, every addressed cell is stored exactly when the grid is square or has no
cell at all. -/
theorem stored_iff_of_shaped {W H : Nat} {m : List (List Cell)} (h : Shaped W H m) :
    Stored W H m ↔ W = H ∨ W = 0 ∨ H = 0 := by
  unfold Stored
  constructor
  · intro hs
    by_cases hW : W = 0
    · exact Or.inr (Or.inl hW)
    · by_cases hH : H = 0
      · exact Or.inr (Or.inr hH)
      · left
        have h1 := (getCell_isSome_of_shaped h (W - 1) 0).1 (hs (W - 1) (by omega) 0 (by omega))
        have h2 := (getCell_isSome_of_shaped h 0 (H - 1)).1 (hs 0 (by omega) (H - 1) (by omega))
        omega
  · intro hc x hx y hy
    rw [getCell_isSome_of_shaped h]
    omega

/-! ## Properties stated by the specification -/

/-- C1: in a grid whose only set cell is the interior cell `(x, y)` (`1 ≤ x ≤ W - 2`,
`1 ≤ y ≤ H - 2`), `recalculateEdges` yields exactly 8 edges: the four outer-rectangle
edges followed by the west, north, east and south side of the cell, each spanning one
full cell side between the corners `(x*cw, y*ch)`, `((x+1)*cw, y*ch)`,
`((x+1)*cw, (y+1)*ch)`, `(x*cw, (y+1)*ch)` with `cw = 1/W`, `ch = 1/H`; the cell records
the ids 4, 5, 6, 7 for west, north, east, south. -/
theorem recalculateEdges_single_cell (W H : Nat) (g : SFMLGrid) (x y : Nat)
    (hx0 : 1 ≤ x) (hx1 : x + 2 ≤ W) (hy0 : 1 ≤ y) (hy1 : y + 2 ≤ H)
    (honly : ∀ x', x' < W → ∀ y', y' < H →
      (getCell g.mGrid x' y').map Cell.isSet = some (decide (x' = x ∧ y' = y))) :
    ∃ g', recalculateEdges W H g = some g' ∧
      g'.mEdges =
        [((0, 0), (1, 0)), ((1, 0), (1, 1)), ((1, 1), (0, 1)), ((0, 1), (0, 0)),
          ((x * (1 / (W : ℚ)), y * (1 / (H : ℚ))),
            (x * (1 / (W : ℚ)), (y + 1) * (1 / (H : ℚ)))),
          ((x * (1 / (W : ℚ)), y * (1 / (H : ℚ))),
            ((x + 1) * (1 / (W : ℚ)), y * (1 / (H : ℚ)))),
          (((x + 1) * (1 / (W : ℚ)), y * (1 / (H : ℚ))),
            ((x + 1) * (1 / (W : ℚ)), (y + 1) * (1 / (H : ℚ)))),
          ((x * (1 / (W : ℚ)), (y + 1) * (1 / (H : ℚ))),
            ((x + 1) * (1 / (W : ℚ)), (y + 1) * (1 / (H : ℚ))))] ∧
      g'.mEdges.length = 8 ∧
      ∃ c, getCell g'.mGrid x y = some c ∧
        c.edgeIds 0 = 4 ∧ c.edgeIds 1 = 5 ∧ c.edgeIds 2 = 6 ∧ c.edgeIds 3 = 7 := by
  have hst : Stored W H g.mGrid := by
    intro x' hx' y' hy'
    have := honly x' hx' y' hy'
    cases hc : getCell g.mGrid x' y' with
    | none => rw [hc] at this; simp at this
    | some c => rfl
  have hrep := rep_viewOf hst
  rcases recalculateEdges_rep hrep with ⟨g', e, r⟩
  have hset : ∀ x' y', x' < W → y' < H →
      (((viewOf g).cells x' y').isSet = true ↔ x' = x ∧ y' = y) := by
    intro x' y' hx' hy'
    have := honly x' hx' y' hy'
    rw [hrep.get hx' hy'] at this
    simp only [Option.map_some', Option.some.injEq] at this
    rw [this]
    simp
  rcases recalcV_single hx0 hx1 hy0 hy1 hset with ⟨hE, h0, h1, h2, h3⟩
  have hedges : g'.mEdges =
      [((0, 0), (1, 0)), ((1, 0), (1, 1)), ((1, 1), (0, 1)), ((0, 1), (0, 0)),
        ((x * (1 / (W : ℚ)), y * (1 / (H : ℚ))),
          (x * (1 / (W : ℚ)), (y + 1) * (1 / (H : ℚ)))),
        ((x * (1 / (W : ℚ)), y * (1 / (H : ℚ))),
          ((x + 1) * (1 / (W : ℚ)), y * (1 / (H : ℚ)))),
        (((x + 1) * (1 / (W : ℚ)), y * (1 / (H : ℚ))),
          ((x + 1) * (1 / (W : ℚ)), (y + 1) * (1 / (H : ℚ)))),
        ((x * (1 / (W : ℚ)), (y + 1) * (1 / (H : ℚ))),
          ((x + 1) * (1 / (W : ℚ)), (y + 1) * (1 / (H : ℚ))))] := by
    rw [r.1, hE]
    have a1 : (x : ℚ) * (1 / (W : ℚ)) + 1 / (W : ℚ) = ((x : ℚ) + 1) * (1 / (W : ℚ)) := by ring
    have a2 : (y : ℚ) * (1 / (H : ℚ)) + 1 / (H : ℚ) = ((y : ℚ) + 1) * (1 / (H : ℚ)) := by ring
    rw [a1, a2]
    rfl
  refine ⟨g', e, hedges, ?_, _, r.get (by omega) (by omega), h0, h1, h2, h3⟩
  rw [hedges]
  rfl

/-- Witness for C1: the 3×3 grid whose only set cell is `(1, 1)`. -/
theorem recalculateEdges_single_cell_witness :
    ∃ g', recalculateEdges 3 3
        ⟨[[⟨false, noEdgeIds⟩, ⟨false, noEdgeIds⟩, ⟨false, noEdgeIds⟩],
          [⟨false, noEdgeIds⟩, ⟨true, noEdgeIds⟩, ⟨false, noEdgeIds⟩],
          [⟨false, noEdgeIds⟩, ⟨false, noEdgeIds⟩, ⟨false, noEdgeIds⟩]], []⟩ = some g' ∧
      g'.mEdges =
        [((0, 0), (1, 0)), ((1, 0), (1, 1)), ((1, 1), (0, 1)), ((0, 1), (0, 0)),
          ((((1 : Nat) : ℚ) * (1 / ((3 : Nat) : ℚ)), ((1 : Nat) : ℚ) * (1 / ((3 : Nat) : ℚ))),
            (((1 : Nat) : ℚ) * (1 / ((3 : Nat) : ℚ)),
              (((1 : Nat) : ℚ) + 1) * (1 / ((3 : Nat) : ℚ)))),
          ((((1 : Nat) : ℚ) * (1 / ((3 : Nat) : ℚ)), ((1 : Nat) : ℚ) * (1 / ((3 : Nat) : ℚ))),
            ((((1 : Nat) : ℚ) + 1) * (1 / ((3 : Nat) : ℚ)),
              ((1 : Nat) : ℚ) * (1 / ((3 : Nat) : ℚ)))),
          (((((1 : Nat) : ℚ) + 1) * (1 / ((3 : Nat) : ℚ)),
              ((1 : Nat) : ℚ) * (1 / ((3 : Nat) : ℚ))),
            ((((1 : Nat) : ℚ) + 1) * (1 / ((3 : Nat) : ℚ)),
              (((1 : Nat) : ℚ) + 1) * (1 / ((3 : Nat) : ℚ)))),
          ((((1 : Nat) : ℚ) * (1 / ((3 : Nat) : ℚ)),
              (((1 : Nat) : ℚ) + 1) * (1 / ((3 : Nat) : ℚ))),
            ((((1 : Nat) : ℚ) + 1) * (1 / ((3 : Nat) : ℚ)),
              (((1 : Nat) : ℚ) + 1) * (1 / ((3 : Nat) : ℚ))))] ∧
      g'.mEdges.length = 8 ∧
      ∃ c, getCell g'.mGrid 1 1 = some c ∧
        c.edgeIds 0 = 4 ∧ c.edgeIds 1 = 5 ∧ c.edgeIds 2 = 6 ∧ c.edgeIds 3 = 7 :=
  recalculateEdges_single_cell 3 3 _ 1 1 (by decide) (by decide) (by decide) (by decide)
    (by decide)

/-- C2: for `N > 1` and a horizontal run of set cells `(x0, y) … (x0+N-1, y)` strictly
inside the grid, all other cells unset, `recalculateEdges` yields 8 edges: the outer
rectangle, the west side of the first cell, one north edge and one south edge spanning
the whole run from `x0*cw` to `(x0+N)*cw`, and the east side of the last cell; all `N`
cells record id 5 for north and id 6 for south. -/
theorem recalculateEdges_row_run (W H : Nat) (g : SFMLGrid) (x0 y N : Nat)
    (hN : 2 ≤ N) (hx0 : 1 ≤ x0) (hx1 : x0 + N + 1 ≤ W) (hy0 : 1 ≤ y) (hy1 : y + 2 ≤ H)
    (honly : ∀ x', x' < W → ∀ y', y' < H →
      (getCell g.mGrid x' y').map Cell.isSet =
        some (decide (y' = y ∧ x0 ≤ x' ∧ x' < x0 + N))) :
    ∃ g', recalculateEdges W H g = some g' ∧
      g'.mEdges =
        [((0, 0), (1, 0)), ((1, 0), (1, 1)), ((1, 1), (0, 1)), ((0, 1), (0, 0)),
          ((x0 * (1 / (W : ℚ)), y * (1 / (H : ℚ))),
            (x0 * (1 / (W : ℚ)), (y + 1) * (1 / (H : ℚ)))),
          ((x0 * (1 / (W : ℚ)), y * (1 / (H : ℚ))),
            ((x0 + N) * (1 / (W : ℚ)), y * (1 / (H : ℚ)))),
          ((x0 * (1 / (W : ℚ)), (y + 1) * (1 / (H : ℚ))),
            ((x0 + N) * (1 / (W : ℚ)), (y + 1) * (1 / (H : ℚ)))),
          (((x0 + N) * (1 / (W : ℚ)), y * (1 / (H : ℚ))),
            ((x0 + N) * (1 / (W : ℚ)), (y + 1) * (1 / (H : ℚ))))] ∧
      g'.mEdges.length = 8 ∧
      ∀ j, j < N → ∃ c, getCell g'.mGrid (x0 + j) y = some c ∧
        c.edgeIds 1 = 5 ∧ c.edgeIds 3 = 6 := by
  have hst : Stored W H g.mGrid := by
    intro x' hx' y' hy'
    have := honly x' hx' y' hy'
    cases hc : getCell g.mGrid x' y' with
    | none => rw [hc] at this; simp at this
    | some c => rfl
  have hrep := rep_viewOf hst
  rcases recalculateEdges_rep hrep with ⟨g', e, r⟩
  have hset : ∀ x' y', x' < W → y' < H →
      (((viewOf g).cells x' y').isSet = true ↔ y' = y ∧ x0 ≤ x' ∧ x' < x0 + N) := by
    intro x' y' hx' hy'
    have := honly x' hx' y' hy'
    rw [hrep.get hx' hy'] at this
    simp only [Option.map_some', Option.some.injEq] at this
    rw [this]
    simp
  rcases recalcV_run hN hx0 hx1 hy0 hy1 hset with ⟨hE, hids⟩
  have hedges : g'.mEdges =
      [((0, 0), (1, 0)), ((1, 0), (1, 1)), ((1, 1), (0, 1)), ((0, 1), (0, 0)),
        ((x0 * (1 / (W : ℚ)), y * (1 / (H : ℚ))),
          (x0 * (1 / (W : ℚ)), (y + 1) * (1 / (H : ℚ)))),
        ((x0 * (1 / (W : ℚ)), y * (1 / (H : ℚ))),
          ((x0 + N) * (1 / (W : ℚ)), y * (1 / (H : ℚ)))),
        ((x0 * (1 / (W : ℚ)), (y + 1) * (1 / (H : ℚ))),
          ((x0 + N) * (1 / (W : ℚ)), (y + 1) * (1 / (H : ℚ)))),
        (((x0 + N) * (1 / (W : ℚ)), y * (1 / (H : ℚ))),
          ((x0 + N) * (1 / (W : ℚ)), (y + 1) * (1 / (H : ℚ))))] := by
    rw [r.1, hE]
    rfl
  refine ⟨g', e, hedges, ?_, ?_⟩
  · rw [hedges]
    rfl
  · intro j hj
    exact ⟨_, r.get (by omega) (by omega), hids j hj⟩

/-- Witness for C2: the 5×5 grid with the run `(1,1), (2,1), (3,1)` set. -/
theorem recalculateEdges_row_run_witness :
    ∃ g', recalculateEdges 5 5
        ⟨[List.replicate 5 ⟨false, noEdgeIds⟩,
          [⟨false, noEdgeIds⟩, ⟨true, noEdgeIds⟩, ⟨false, noEdgeIds⟩, ⟨false, noEdgeIds⟩,
            ⟨false, noEdgeIds⟩],
          [⟨false, noEdgeIds⟩, ⟨true, noEdgeIds⟩, ⟨false, noEdgeIds⟩, ⟨false, noEdgeIds⟩,
            ⟨false, noEdgeIds⟩],
          [⟨false, noEdgeIds⟩, ⟨true, noEdgeIds⟩, ⟨false, noEdgeIds⟩, ⟨false, noEdgeIds⟩,
            ⟨false, noEdgeIds⟩],
          List.replicate 5 ⟨false, noEdgeIds⟩], []⟩ = some g' ∧
      g'.mEdges =
        [((0, 0), (1, 0)), ((1, 0), (1, 1)), ((1, 1), (0, 1)), ((0, 1), (0, 0)),
          ((((1 : Nat) : ℚ) * (1 / ((5 : Nat) : ℚ)), ((1 : Nat) : ℚ) * (1 / ((5 : Nat) : ℚ))),
            (((1 : Nat) : ℚ) * (1 / ((5 : Nat) : ℚ)),
              (((1 : Nat) : ℚ) + 1) * (1 / ((5 : Nat) : ℚ)))),
          ((((1 : Nat) : ℚ) * (1 / ((5 : Nat) : ℚ)), ((1 : Nat) : ℚ) * (1 / ((5 : Nat) : ℚ))),
            ((((1 : Nat) : ℚ) + ((3 : Nat) : ℚ)) * (1 / ((5 : Nat) : ℚ)),
              ((1 : Nat) : ℚ) * (1 / ((5 : Nat) : ℚ)))),
          ((((1 : Nat) : ℚ) * (1 / ((5 : Nat) : ℚ)),
              (((1 : Nat) : ℚ) + 1) * (1 / ((5 : Nat) : ℚ))),
            ((((1 : Nat) : ℚ) + ((3 : Nat) : ℚ)) * (1 / ((5 : Nat) : ℚ)),
              (((1 : Nat) : ℚ) + 1) * (1 / ((5 : Nat) : ℚ)))),
          (((((1 : Nat) : ℚ) + ((3 : Nat) : ℚ)) * (1 / ((5 : Nat) : ℚ)),
              ((1 : Nat) : ℚ) * (1 / ((5 : Nat) : ℚ))),
            ((((1 : Nat) : ℚ) + ((3 : Nat) : ℚ)) * (1 / ((5 : Nat) : ℚ)),
              (((1 : Nat) : ℚ) + 1) * (1 / ((5 : Nat) : ℚ))))] ∧
      g'.mEdges.length = 8 ∧
      ∀ j, j < 3 → ∃ c, getCell g'.mGrid (1 + j) 1 = some c ∧
        c.edgeIds 1 = 5 ∧ c.edgeIds 3 = 6 :=
  recalculateEdges_row_run 5 5 _ 1 1 3 (by decide) (by decide) (by decide) (by decide)
    (by decide) (by decide)

/-- C3 (as amended): after `recalculateEdges`, a cell records an edge id (not `-1`) in a
slot exactly when it is set, the side is not on the grid border (`x ≠ 0` for west,
`y ≠ 0` for north, `x + 1 < W` for east, `y + 1 < H` for south) and the neighbour on that
side is unset; a set cell on a border records no edge for its border side. -/
theorem recalculateEdges_sides_recorded (W H : Nat) (g g' : SFMLGrid)
    (h : recalculateEdges W H g = some g') (x y : Nat) (hx : x < W) (hy : y < H) :
    ∃ c, getCell g'.mGrid x y = some c ∧
      (c.edgeIds 0 ≠ -1 ↔ c.isSet = true ∧ x ≠ 0 ∧
        ∃ n, getCell g'.mGrid (x - 1) y = some n ∧ n.isSet = false) ∧
      (c.edgeIds 1 ≠ -1 ↔ c.isSet = true ∧ y ≠ 0 ∧
        ∃ n, getCell g'.mGrid x (y - 1) = some n ∧ n.isSet = false) ∧
      (c.edgeIds 2 ≠ -1 ↔ c.isSet = true ∧ x + 1 < W ∧
        ∃ n, getCell g'.mGrid (x + 1) y = some n ∧ n.isSet = false) ∧
      (c.edgeIds 3 ≠ -1 ↔ c.isSet = true ∧ y + 1 < H ∧
        ∃ n, getCell g'.mGrid x (y + 1) = some n ∧ n.isSet = false) := by
  have r := rep_of_recalculateEdges h
  refine ⟨_, r.get hx hy, ?_⟩
  rcases recalcV_recorded W H (viewOf g) hx hy with ⟨h0, h1, h2, h3⟩
  refine ⟨?_, ?_, ?_, ?_⟩
  · rw [h0]
    constructor
    · rintro ⟨a, b, c⟩
      exact ⟨a, b, _, r.get (by omega) hy, c⟩
    · rintro ⟨a, b, n, hn, c⟩
      rw [r.get (by omega) hy] at hn
      injection hn with hn
      subst hn
      exact ⟨a, b, c⟩
  · rw [h1]
    constructor
    · rintro ⟨a, b, c⟩
      exact ⟨a, b, _, r.get hx (by omega), c⟩
    · rintro ⟨a, b, n, hn, c⟩
      rw [r.get hx (by omega)] at hn
      injection hn with hn
      subst hn
      exact ⟨a, b, c⟩
  · rw [h2]
    constructor
    · rintro ⟨a, b, c⟩
      exact ⟨a, b, _, r.get b hy, c⟩
    · rintro ⟨a, b, n, hn, c⟩
      rw [r.get b hy] at hn
      injection hn with hn
      subst hn
      exact ⟨a, b, c⟩
  · rw [h3]
    constructor
    · rintro ⟨a, b, c⟩
      exact ⟨a, b, _, r.get hx b, c⟩
    · rintro ⟨a, b, n, hn, c⟩
      rw [r.get hx b] at hn
      injection hn with hn
      subst hn
      exact ⟨a, b, c⟩

/-- Witness for C3: the cell `(1, 1)` of the 2×2 grid in which it is the only set cell. -/
theorem recalculateEdges_sides_recorded_witness :
    ∃ g', recalculateEdges 2 2
        ⟨[[⟨false, noEdgeIds⟩, ⟨false, noEdgeIds⟩], [⟨false, noEdgeIds⟩, ⟨true, noEdgeIds⟩]], []⟩ =
          some g' ∧
      ∃ c, getCell g'.mGrid 1 1 = some c ∧
        (c.edgeIds 0 ≠ -1 ↔ c.isSet = true ∧ 1 ≠ 0 ∧
          ∃ n, getCell g'.mGrid (1 - 1) 1 = some n ∧ n.isSet = false) ∧
        (c.edgeIds 1 ≠ -1 ↔ c.isSet = true ∧ 1 ≠ 0 ∧
          ∃ n, getCell g'.mGrid 1 (1 - 1) = some n ∧ n.isSet = false) ∧
        (c.edgeIds 2 ≠ -1 ↔ c.isSet = true ∧ 1 + 1 < 2 ∧
          ∃ n, getCell g'.mGrid (1 + 1) 1 = some n ∧ n.isSet = false) ∧
        (c.edgeIds 3 ≠ -1 ↔ c.isSet = true ∧ 1 + 1 < 2 ∧
          ∃ n, getCell g'.mGrid 1 (1 + 1) = some n ∧ n.isSet = false) := by
  have hst : Stored 2 2
      [[⟨false, noEdgeIds⟩, ⟨false, noEdgeIds⟩], [⟨false, noEdgeIds⟩, ⟨true, noEdgeIds⟩]] := by
    unfold Stored
    decide
  rcases Option.isSome_iff_exists.1 (@recalculateEdges_isSome 2 2 ⟨_, []⟩ hst) with ⟨g', hg'⟩
  exact ⟨g', hg', recalculateEdges_sides_recorded 2 2 _ g' hg' 1 1 (by decide) (by decide)⟩

/-- Counterexample to C3 as stated: in the 2×2 grid whose only set cell is `(0, 0)`, that
cell lies in the leftmost column and in the top row, yet after `recalculateEdges` its west
and north slots hold `-1` (its east and south slots hold ids 4 and 5). -/
theorem border_cell_records_no_border_edge :
    (recalculateEdges 2 2
      ⟨[[⟨true, noEdgeIds⟩, ⟨false, noEdgeIds⟩], [⟨false, noEdgeIds⟩, ⟨false, noEdgeIds⟩]],
        []⟩).bind
      (fun g' => (getCell g'.mGrid 0 0).map fun c =>
        (c.isSet, c.edgeIds 0, c.edgeIds 1, c.edgeIds 2, c.edgeIds 3)) =
      some (true, -1, -1, 4, 5) := by
  decide

theorem viewOf_reset_isSet (g : SFMLGrid) (x y : Nat) :
    ((viewOf (reset g)).cells x y).isSet = false := by
  unfold viewOf
  simp only []
  cases hc : getCell (reset g).mGrid x y with
  | none => rfl
  | some c => rw [getCell_reset hc]; rfl

/-- C4: after every completed `recalculateEdges`, whatever the cells, the edge list has at
least four entries and starts with the outer rectangle top `(0,0)-(1,0)`, right
`(1,0)-(1,1)`, bottom `(1,1)-(0,1)`, left `(0,1)-(0,0)`; the rebuild completes whenever
every addressed cell is stored; a freshly constructed grid has exactly these four edges
and no set cell, and construction completes for every square grid. -/
theorem recalculateEdges_outer_rectangle :
    (∀ (W H : Nat) (g g' : SFMLGrid), recalculateEdges W H g = some g' →
      4 ≤ g'.mEdges.length ∧
      g'.mEdges.take 4 =
        [((0, 0), (1, 0)), ((1, 0), (1, 1)), ((1, 1), (0, 1)), ((0, 1), (0, 0))]) ∧
    (∀ (W H : Nat) (g : SFMLGrid), Stored W H g.mGrid →
      (recalculateEdges W H g).isSome = true) ∧
    (∀ (W H : Nat) (c0 : Cell) (g : SFMLGrid), construct W H c0 = some g →
      g.mEdges = [((0, 0), (1, 0)), ((1, 0), (1, 1)), ((1, 1), (0, 1)), ((0, 1), (0, 0))] ∧
      ∀ x y c, getCell g.mGrid x y = some c → c.isSet = false) ∧
    (∀ (N : Nat) (c0 : Cell), (construct N N c0).isSome = true) := by
  refine ⟨?_, ?_, ?_, ?_⟩
  · intro W H g g' h
    have hr := rep_of_recalculateEdges h
    have hg := recalcV_good W H (viewOf g)
    rw [hr.1]
    exact ⟨length_of_take_four hg.1, hg.1⟩
  · intro W H g hs
    rcases recalculateEdges_rep (rep_viewOf hs) with ⟨g', e, _⟩
    rw [e]
    rfl
  · intro W H c0 g h
    have hr := rep_of_recalculateEdges h
    refine ⟨?_, ?_⟩
    · rw [hr.1]
      exact recalcV_edges_of_all_unset W H _ (fun x y _ _ => viewOf_reset_isSet _ x y)
    · intro x y c hc
      rw [← hr.2.2 x y c hc, recalcV_isSet]
      exact viewOf_reset_isSet _ x y
  · intro N c0
    have hs : Stored N N (List.replicate N (List.replicate N c0)) := by
      intro x hx y hy
      rw [getCell_replicate c0 hx hy]
      rfl
    rcases recalculateEdges_rep (rep_viewOf (@stored_reset N N ⟨_, []⟩ hs)) with ⟨g', e, _⟩
    unfold construct
    rw [e]
    rfl

/-- Witness for C4 on the 2×2 grid whose cells are all set. -/
theorem recalculateEdges_outer_rectangle_witness :
    ∃ g', recalculateEdges 2 2 ⟨List.replicate 2 (List.replicate 2 ⟨true, noEdgeIds⟩), []⟩ =
        some g' ∧
      4 ≤ g'.mEdges.length ∧
      g'.mEdges.take 4 =
        [((0, 0), (1, 0)), ((1, 0), (1, 1)), ((1, 1), (0, 1)), ((0, 1), (0, 0))] := by
  have hs : Stored 2 2 (List.replicate 2 (List.replicate 2 (⟨true, noEdgeIds⟩ : Cell))) := by
    intro x hx y hy
    rw [getCell_replicate _ hx hy]
    rfl
  have hsome := recalculateEdges_outer_rectangle.2.1 2 2
    ⟨List.replicate 2 (List.replicate 2 ⟨true, noEdgeIds⟩), []⟩ hs
  rcases Option.isSome_iff_exists.1 hsome with ⟨g', hg'⟩
  exact ⟨g', hg', recalculateEdges_outer_rectangle.1 2 2 _ g' hg'⟩

theorem toggle_rep {W H : Nat} {g : SFMLGrid} {v : View} (h : Rep W H g v)
    {x y : Nat} (hx : x < W) (hy : y < H) :
    ∃ g', toggle W H x y g = some g' ∧
      Rep W H g' (recalcV W H
        { cells := putCell v.cells x y { v.cells x y with isSet := !(v.cells x y).isSet },
          edges := v.edges }) := by
  rcases rep_put h hx hy { v.cells x y with isSet := !(v.cells x y).isSet } v.edges with
    ⟨m, hm, hrep⟩
  rcases recalculateEdges_rep hrep with ⟨g', e, r⟩
  refine ⟨g', ?_, r⟩
  unfold toggle
  simp only [h.get hx hy, hm, h.1]
  exact e

/-- The rebuilt edges of two grids with the same `isSet` values are the same. -/
theorem recalculateEdges_edges_congr {W H : Nat} {ga gb ga' gb' : SFMLGrid}
    (ha : recalculateEdges W H ga = some ga') (hb : recalculateEdges W H gb = some gb')
    (hs : ∀ x y, x < W → y < H →
      (getCell ga.mGrid x y).map Cell.isSet = (getCell gb.mGrid x y).map Cell.isSet) :
    ga'.mEdges = gb'.mEdges := by
  have ra := rep_of_recalculateEdges ha
  have rb := rep_of_recalculateEdges hb
  have sa := rep_viewOf (stored_of_recalculateEdges ha)
  have sb := rep_viewOf (stored_of_recalculateEdges hb)
  rw [ra.1, rb.1]
  refine (recalcV_congr ?_).1
  intro x y hx hy
  have := hs x y hx hy
  rw [sa.get hx hy, sb.get hx hy] at this
  simpa using this

/-- C5: for a grid state `g` produced by `recalculateEdges` and an in-range cell `(x, y)`,
flipping the cell and rebuilding twice in a row completes and gives back the edge list of
`g` (same length, same endpoints, same order) and the `isSet` value of every cell; more
generally two grids with the same `isSet` values are rebuilt to the same edge list,
whatever ids and edges they held before. -/
theorem toggle_twice_restores_edges :
    (∀ (W H : Nat) (g0 g : SFMLGrid) (x y : Nat), recalculateEdges W H g0 = some g →
      x < W → y < H →
      ∃ g1 g2, toggle W H x y g = some g1 ∧ toggle W H x y g1 = some g2 ∧
        g2.mEdges = g.mEdges ∧
        ∀ x' y', x' < W → y' < H → ∃ c c2, getCell g.mGrid x' y' = some c ∧
          getCell g2.mGrid x' y' = some c2 ∧ c2.isSet = c.isSet) ∧
    (∀ (W H : Nat) (ga gb ga' gb' : SFMLGrid), recalculateEdges W H ga = some ga' →
      recalculateEdges W H gb = some gb' →
      (∀ x y, x < W → y < H →
        (getCell ga.mGrid x y).map Cell.isSet = (getCell gb.mGrid x y).map Cell.isSet) →
      ga'.mEdges = gb'.mEdges) := by
  refine ⟨?_, fun W H ga gb ga' gb' ha hb hs => recalculateEdges_edges_congr ha hb hs⟩
  intro W H g0 g x y hg hx hy
  have r := rep_of_recalculateEdges hg
  rcases toggle_rep r hx hy with ⟨g1, e1, r1⟩
  rcases toggle_rep r1 hx hy with ⟨g2, e2, r2⟩
  refine ⟨g1, g2, e1, e2, ?_, ?_⟩
  · rw [r2.1, r.1]
    refine (recalcV_congr ?_).1
    intro x' y' hx' hy'
    by_cases hc : x' = x ∧ y' = y
    · rcases hc with ⟨rfl, rfl⟩
      simp only [putCell_self, recalcV_isSet, Bool.not_not]
    · simp only [putCell_ne _ _ hc, recalcV_isSet]
  · intro x' y' hx' hy'
    refine ⟨_, _, r.get hx' hy', r2.get hx' hy', ?_⟩
    by_cases hc : x' = x ∧ y' = y
    · rcases hc with ⟨rfl, rfl⟩
      simp only [putCell_self, recalcV_isSet, Bool.not_not]
    · simp only [putCell_ne _ _ hc, recalcV_isSet]

/-- Witness for C5: the 2×2 grid without set cells, rebuilt, then the cell `(0, 1)`
toggled twice. -/
theorem toggle_twice_restores_edges_witness :
    ∃ g1 g2,
      toggle 2 2 0 1
        ⟨[[⟨false, noEdgeIds⟩, ⟨false, noEdgeIds⟩], [⟨false, noEdgeIds⟩, ⟨false, noEdgeIds⟩]],
          outerEdges⟩ = some g1 ∧
      toggle 2 2 0 1 g1 = some g2 ∧
      g2.mEdges = outerEdges ∧
      ∀ x' y', x' < 2 → y' < 2 → ∃ c c2,
        getCell [[⟨false, noEdgeIds⟩, ⟨false, noEdgeIds⟩],
          [⟨false, noEdgeIds⟩, ⟨false, noEdgeIds⟩]] x' y' = some c ∧
        getCell g2.mGrid x' y' = some c2 ∧ c2.isSet = c.isSet :=
  toggle_twice_restores_edges.1 2 2
    ⟨[[⟨false, fun _ => 9⟩, ⟨false, fun _ => 9⟩], [⟨false, fun _ => 9⟩, ⟨false, fun _ => 9⟩]],
      []⟩
    ⟨[[⟨false, noEdgeIds⟩, ⟨false, noEdgeIds⟩], [⟨false, noEdgeIds⟩, ⟨false, noEdgeIds⟩]],
      outerEdges⟩ 0 1 rfl (by decide) (by decide)

/-- From `(400, 400)` in direction `0` on an 800×800 viewport the right outer edge is hit at
`(800, 400)`, at distance `400`; `sqrt` is given on the one value it is applied to. -/
theorem findClosestEdgeRaycast_example :
    findClosestEdgeRaycast (fun _ => 1) (fun _ => 0)
      (fun q => if q = 160000 then 400 else 0) [((1, 0), (1, 1))] (800, 800) (400, 400) 0 =
      ((800, 400), 400) := by
  unfold findClosestEdgeRaycast raycastStep getIntersectionPoint edgeToScreen rayVector lerp
    hitDistance doubleMax
  norm_num

/-- C10 (as amended): with `s` the sorted hits and `n` their number, the polygon builder
emits for each `i < n` the triangle whose vertices are, in this order, the viewpoint,
`s[i].hitPoint` and `s[(i - 1) mod n].hitPoint` (the predecessor of `s[i]` in the circular
order, the last hit for `i = 0`), at the positions `3i`, `3i + 1`, `3i + 2` of the
vertex array. -/
theorem buildPolygon_triangles (sort : List RayHit → List RayHit) (mouse : Vector2f)
    (hits : List RayHit) (i : Nat) (hi : i < (sort hits).length) :
    ∃ cur prev, (sort hits)[i]? = some cur ∧
      (sort hits)[(i + (sort hits).length - 1) % (sort hits).length]? = some prev ∧
      ((buildPolygon sort mouse hits)[3 * i]?).map Vertex.position = some mouse ∧
      ((buildPolygon sort mouse hits)[3 * i + 1]?).map Vertex.position = some cur.hitPoint ∧
      ((buildPolygon sort mouse hits)[3 * i + 2]?).map Vertex.position =
        some prev.hitPoint := by
  have hn : 0 < (sort hits).length := by omega
  have hp : (i + (sort hits).length - 1) % (sort hits).length < (sort hits).length :=
    Nat.mod_lt _ hn
  rcases polygon_fold_inv mouse (sort hits) (sort hits).length le_rfl with ⟨_, _, h3⟩
  rcases h3 i hi with ⟨a, b, c⟩
  refine ⟨(sort hits)[i], (sort hits)[(i + (sort hits).length - 1) % (sort hits).length],
    List.getElem?_eq_getElem hi, List.getElem?_eq_getElem hp, ?_, ?_, ?_⟩
  · unfold buildPolygon
    rw [a]
    rfl
  · unfold buildPolygon
    rw [b, List.getD_eq_getElem _ _ hi]
    rfl
  · unfold buildPolygon
    rw [c, List.getD_eq_getElem _ _ hp]
    rfl

/-- Witness for C10: the first triangle of three hits given in unsorted order. -/
theorem buildPolygon_triangles_witness :
    ∃ cur prev,
      (sortByAngle [⟨(5, 5), (0, 1), 1, 1⟩, ⟨(5, 5), (1, 0), 0, 1⟩,
        ⟨(5, 5), (-1, 0), 2, 1⟩])[0]? = some cur ∧
      (sortByAngle [⟨(5, 5), (0, 1), 1, 1⟩, ⟨(5, 5), (1, 0), 0, 1⟩,
        ⟨(5, 5), (-1, 0), 2, 1⟩])[(0 +
          (sortByAngle [⟨(5, 5), (0, 1), 1, 1⟩, ⟨(5, 5), (1, 0), 0, 1⟩,
            ⟨(5, 5), (-1, 0), 2, 1⟩]).length - 1) %
          (sortByAngle [⟨(5, 5), (0, 1), 1, 1⟩, ⟨(5, 5), (1, 0), 0, 1⟩,
            ⟨(5, 5), (-1, 0), 2, 1⟩]).length]? = some prev ∧
      ((buildPolygon sortByAngle (5, 5) [⟨(5, 5), (0, 1), 1, 1⟩, ⟨(5, 5), (1, 0), 0, 1⟩,
        ⟨(5, 5), (-1, 0), 2, 1⟩])[3 * 0]?).map Vertex.position = some (5, 5) ∧
      ((buildPolygon sortByAngle (5, 5) [⟨(5, 5), (0, 1), 1, 1⟩, ⟨(5, 5), (1, 0), 0, 1⟩,
        ⟨(5, 5), (-1, 0), 2, 1⟩])[3 * 0 + 1]?).map Vertex.position = some cur.hitPoint ∧
      ((buildPolygon sortByAngle (5, 5) [⟨(5, 5), (0, 1), 1, 1⟩, ⟨(5, 5), (1, 0), 0, 1⟩,
        ⟨(5, 5), (-1, 0), 2, 1⟩])[3 * 0 + 2]?).map Vertex.position = some prev.hitPoint :=
  buildPolygon_triangles sortByAngle (5, 5)
    [⟨(5, 5), (0, 1), 1, 1⟩, ⟨(5, 5), (1, 0), 0, 1⟩, ⟨(5, 5), (-1, 0), 2, 1⟩] 0 (by decide)

/-- Counterexample to C10 as stated: for three hits with angles 0, 1, 2 and hit points
`(1,0)`, `(0,1)`, `(-1,0)`, the third vertex of triangle 0 is `s[2].hitPoint = (-1,0)`, not
`s[(0+1) mod 3].hitPoint = (0,1)`. -/
theorem buildPolygon_third_vertex_is_predecessor :
    ((buildPolygon sortByAngle (5, 5) [⟨(5, 5), (0, 1), 1, 1⟩, ⟨(5, 5), (1, 0), 0, 1⟩,
        ⟨(5, 5), (-1, 0), 2, 1⟩])[3 * 0 + 2]?).map Vertex.position = some (-1, 0) ∧
      ((sortByAngle [⟨(5, 5), (0, 1), 1, 1⟩, ⟨(5, 5), (1, 0), 0, 1⟩,
        ⟨(5, 5), (-1, 0), 2, 1⟩])[(0 + 1) % 3]?).map RayHit.hitPoint = some (0, 1) ∧
      ((buildPolygon sortByAngle (5, 5) [⟨(5, 5), (0, 1), 1, 1⟩, ⟨(5, 5), (1, 0), 0, 1⟩,
        ⟨(5, 5), (-1, 0), 2, 1⟩])[3 * 0 + 2]?).map Vertex.position ≠
      ((sortByAngle [⟨(5, 5), (0, 1), 1, 1⟩, ⟨(5, 5), (1, 0), 0, 1⟩,
        ⟨(5, 5), (-1, 0), 2, 1⟩])[(0 + 1) % 3]?).map RayHit.hitPoint := by
  have h1 : ((buildPolygon sortByAngle (5, 5) [⟨(5, 5), (0, 1), 1, 1⟩, ⟨(5, 5), (1, 0), 0, 1⟩,
        ⟨(5, 5), (-1, 0), 2, 1⟩])[3 * 0 + 2]?).map Vertex.position = some (-1, 0) := rfl
  have h2 : ((sortByAngle [⟨(5, 5), (0, 1), 1, 1⟩, ⟨(5, 5), (1, 0), 0, 1⟩,
        ⟨(5, 5), (-1, 0), 2, 1⟩])[(0 + 1) % 3]?).map RayHit.hitPoint = some (0, 1) := rfl
  refine ⟨h1, h2, ?_⟩
  rw [h1, h2]
  norm_num

/-! ## Light drop off -/

theorem light_bounds (d : ℚ) : 0 < 1 / (1 + d * d) ∧ 1 / (1 + d * d) ≤ 1 := by
  have h : (1 : ℚ) ≤ 1 + d * d := by nlinarith [mul_self_nonneg d]
  constructor
  · positivity
  · rw [div_le_one (by linarith)]
    exact h

theorem lerp_light_bounds (d : ℚ) :
    40 < lerp 40 150 (1 / (1 + d * d)) ∧ lerp 40 150 (1 / (1 + d * d)) ≤ 150 := by
  rcases light_bounds d with ⟨h0, h1⟩
  unfold lerp
  constructor <;> nlinarith

theorem floor_light_bounds (d : ℚ) :
    40 ≤ ⌊lerp 40 150 (1 / (1 + d * d))⌋ ∧ ⌊lerp 40 150 (1 / (1 + d * d))⌋ ≤ 150 := by
  rcases lerp_light_bounds d with ⟨h0, h1⟩
  constructor
  · apply Int.le_floor.2
    push_cast
    linarith
  · have : ⌊lerp 40 150 (1 / (1 + d * d))⌋ ≤ ⌊(150 : ℚ)⌋ := Int.floor_mono h1
    have h150 : ⌊(150 : ℚ)⌋ = 150 := by simp
    omega

theorem hitAlpha_eq_floor (d : ℚ) :
    (hitAlpha d : Int) = ⌊lerp 40 150 (1 / (1 + d * d))⌋ := by
  rcases floor_light_bounds d with ⟨h0, h1⟩
  unfold hitAlpha
  omega

theorem hitAlpha_antitone {d1 d2 : ℚ} (h0 : 0 ≤ d1) (h : d1 ≤ d2) :
    hitAlpha d2 ≤ hitAlpha d1 := by
  have hle : lerp 40 150 (1 / (1 + d2 * d2)) ≤ lerp 40 150 (1 / (1 + d1 * d1)) := by
    unfold lerp
    have hsq : d1 * d1 ≤ d2 * d2 := by nlinarith
    have h1 : (0 : ℚ) < 1 + d1 * d1 := by nlinarith [mul_self_nonneg d1]
    have hdiv : 1 / (1 + d2 * d2) ≤ 1 / (1 + d1 * d1) :=
      one_div_le_one_div_of_le h1 (by linarith)
    nlinarith
  have := Int.floor_mono hle
  have e1 := hitAlpha_eq_floor d1
  have e2 := hitAlpha_eq_floor d2
  omega

/-- C11: for a hit at distance `d ≥ 0` the alpha is `40 + 110 / (1 + d²)` (the value of
`lerp(40, 150, 1/(1+d²))`) truncated to an integer; it lies in `[40, 150]`, is `150` at
`d = 0` and does not increase with `d`.  In the polygon the vertex of `s[i]` carries the
alpha of the distance of `s[i]`, the vertex of its predecessor the alpha of the
predecessor's distance, and the viewpoint vertex always carries alpha `150`. -/
theorem hitAlpha_spec :
    (∀ d : ℚ, 0 ≤ d →
      (hitAlpha d : Int) = ⌊(40 : ℚ) + 110 / (1 + d ^ 2)⌋ ∧
      lerp 40 150 (1 / (1 + d ^ 2)) = 40 + 110 / (1 + d ^ 2) ∧
      40 ≤ hitAlpha d ∧ hitAlpha d ≤ 150) ∧
    hitAlpha 0 = 150 ∧
    (∀ d1 d2 : ℚ, 0 ≤ d1 → d1 ≤ d2 → hitAlpha d2 ≤ hitAlpha d1) ∧
    (∀ (sort : List RayHit → List RayHit) (mouse : Vector2f) (hits : List RayHit) (i : Nat),
      i < (sort hits).length →
      ∃ cur prev, (sort hits)[i]? = some cur ∧
        (sort hits)[(i + (sort hits).length - 1) % (sort hits).length]? = some prev ∧
        (buildPolygon sort mouse hits)[3 * i]? = some ⟨mouse, 150⟩ ∧
        (buildPolygon sort mouse hits)[3 * i + 1]? =
          some ⟨cur.hitPoint, hitAlpha cur.distance⟩ ∧
        (buildPolygon sort mouse hits)[3 * i + 2]? =
          some ⟨prev.hitPoint, hitAlpha prev.distance⟩) := by
  refine ⟨?_, ?_, ?_, ?_⟩
  · intro d _
    have hl : lerp 40 150 (1 / (1 + d ^ 2)) = 40 + 110 / (1 + d ^ 2) := by
      unfold lerp
      ring
    have hb := floor_light_bounds d
    have he := hitAlpha_eq_floor d
    have hsq : d * d = d ^ 2 := by ring
    rw [hsq] at hb he
    refine ⟨?_, hl, ?_, ?_⟩
    · rw [he, hl]
    · omega
    · omega
  · have he := hitAlpha_eq_floor 0
    have h : lerp 40 150 (1 / (1 + (0 : ℚ) * 0)) = ((150 : ℤ) : ℚ) := by
      unfold lerp
      norm_num
    rw [h, Int.floor_intCast] at he
    omega
  · intro d1 d2 h0 h
    exact hitAlpha_antitone h0 h
  · intro sort mouse hits i hi
    have hn : 0 < (sort hits).length := by omega
    have hp : (i + (sort hits).length - 1) % (sort hits).length < (sort hits).length :=
      Nat.mod_lt _ hn
    rcases polygon_fold_inv mouse (sort hits) (sort hits).length le_rfl with ⟨_, _, h3⟩
    rcases h3 i hi with ⟨a, b, c⟩
    refine ⟨(sort hits)[i], (sort hits)[(i + (sort hits).length - 1) % (sort hits).length],
      List.getElem?_eq_getElem hi, List.getElem?_eq_getElem hp, ?_, ?_, ?_⟩
    · unfold buildPolygon
      exact a
    · unfold buildPolygon
      rw [b, List.getD_eq_getElem _ _ hi]
    · unfold buildPolygon
      rw [c, List.getD_eq_getElem _ _ hp]

/-- Witness for C11: the alpha at distance 1 is `40 + 110/2 = 95`, and it is at most the
alpha at distance 0. -/
theorem hitAlpha_spec_witness :
    ((hitAlpha 1 : Int) = ⌊(40 : ℚ) + 110 / (1 + 1 ^ 2)⌋ ∧
      lerp 40 150 (1 / (1 + (1 : ℚ) ^ 2)) = 40 + 110 / (1 + 1 ^ 2) ∧
      40 ≤ hitAlpha 1 ∧ hitAlpha 1 ≤ 150) ∧
    hitAlpha 1 ≤ hitAlpha 0 :=
  ⟨hitAlpha_spec.1 1 (by norm_num), hitAlpha_spec.2.2.1 0 1 (by norm_num) (by norm_num)⟩

/-- C14: `extendEdge` returns the sentinel `-1` and leaves the edge list unchanged when the
id is not below the number of edges (an `int` below zero passed as `size_t` is such an
id); otherwise it returns the id and replaces `pointB` of that edge by `pointB + v`,
keeping its `pointA`, every other edge and the number of edges. -/
theorem extendEdge_spec (mEdges : List Edge) (v : Vector2f) :
    (∀ id : Nat, mEdges.length ≤ id → extendEdge mEdges id v = (-1, mEdges)) ∧
    (∀ id : Int, id < 0 → extendEdge mEdges id v = (-1, mEdges)) ∧
    (∀ id : Nat, id < mEdges.length →
      ∃ e, mEdges[id]? = some e ∧
        (extendEdge mEdges id v).1 = id ∧
        (extendEdge mEdges id v).2.length = mEdges.length ∧
        (extendEdge mEdges id v).2[id]? = some (e.1, e.2 + v) ∧
        ∀ j : Nat, j ≠ id → (extendEdge mEdges id v).2[j]? = mEdges[j]?) := by
  refine ⟨?_, ?_, ?_⟩
  · intro id h
    unfold extendEdge
    rw [if_pos (Or.inr (by exact_mod_cast h))]
  · intro id h
    unfold extendEdge
    rw [if_pos (Or.inl h)]
  · intro id h
    rcases extendEdge_of_valid (Int.natCast_nonneg id) (by exact_mod_cast h) v with ⟨e, he, hx⟩
    rw [Int.toNat_natCast] at he hx
    refine ⟨e, he, ?_, ?_, ?_, ?_⟩
    · rw [hx]
    · rw [hx]
      simp
    · rw [hx]
      exact List.getElem?_set_self h
    · intro j hj
      rw [hx]
      exact List.getElem?_set_ne (Ne.symm hj)

/-- Witness for C14: extending edge 1 of a two-edge list by `(1, 0)`, and the failing id 2. -/
theorem extendEdge_spec_witness :
    extendEdge [((0, 0), (1, 0)), ((2, 2), (3, 2))] ((2 : Nat) : Int) (1, 0) =
        (-1, [((0, 0), (1, 0)), ((2, 2), (3, 2))]) ∧
    ∃ e, [(((0 : ℚ), (0 : ℚ)), ((1 : ℚ), (0 : ℚ))), ((2, 2), (3, 2))][1]? = some e ∧
      (extendEdge [((0, 0), (1, 0)), ((2, 2), (3, 2))] ((1 : Nat) : Int) (1, 0)).1 =
        ((1 : Nat) : Int) ∧
      (extendEdge [((0, 0), (1, 0)), ((2, 2), (3, 2))] ((1 : Nat) : Int) (1, 0)).2.length =
        [(((0 : ℚ), (0 : ℚ)), ((1 : ℚ), (0 : ℚ))), ((2, 2), (3, 2))].length ∧
      (extendEdge [((0, 0), (1, 0)), ((2, 2), (3, 2))] ((1 : Nat) : Int) (1, 0)).2[1]? =
        some (e.1, e.2 + (1, 0)) ∧
      ∀ j : Nat, j ≠ 1 →
        (extendEdge [((0, 0), (1, 0)), ((2, 2), (3, 2))] ((1 : Nat) : Int) (1, 0)).2[j]? =
          [(((0 : ℚ), (0 : ℚ)), ((1 : ℚ), (0 : ℚ))), ((2, 2), (3, 2))][j]? :=
  ⟨(extendEdge_spec [((0, 0), (1, 0)), ((2, 2), (3, 2))] (1, 0)).1 2 (by decide),
    (extendEdge_spec [((0, 0), (1, 0)), ((2, 2), (3, 2))] (1, 0)).2.2 1 (by decide)⟩

/-- C17: a hit `P` reported by `getIntersectionPoint` lies on both segments: with `t` and
`u` the parameters computed by the source, `0 ≤ t ≤ 1`, `0 ≤ u ≤ 1`,
`P = a1 + t (a2 - a1)` and also `P = b1 + u (b2 - b1)`. -/
theorem getIntersectionPoint_on_both (a1 a2 b1 b2 P : Vector2f)
    (h : getIntersectionPoint a1 a2 b1 b2 = some P) :
    ∃ t u : ℚ,
      t = ((a1.1 - b1.1) * (b1.2 - b2.2) - (a1.2 - b1.2) * (b1.1 - b2.1)) /
        ((a1.1 - a2.1) * (b1.2 - b2.2) - (a1.2 - a2.2) * (b1.1 - b2.1)) ∧
      u = -((a1.1 - a2.1) * (a1.2 - b1.2) - (a1.2 - a2.2) * (a1.1 - b1.1)) /
        ((a1.1 - a2.1) * (b1.2 - b2.2) - (a1.2 - a2.2) * (b1.1 - b2.1)) ∧
      0 ≤ t ∧ t ≤ 1 ∧ 0 ≤ u ∧ u ≤ 1 ∧
      P = (a1.1 + t * (a2.1 - a1.1), a1.2 + t * (a2.2 - a1.2)) ∧
      P = (b1.1 + u * (b2.1 - b1.1), b1.2 + u * (b2.2 - b1.2)) := by
  unfold getIntersectionPoint lerp at h
  simp only [] at h
  split at h
  · exact absurd h (by simp)
  · rename_i hd
    split at h
    · rename_i hc
      injection h with h
      have hne : (a1.1 - a2.1) * (b1.2 - b2.2) - (a1.2 - a2.2) * (b1.1 - b2.1) ≠ 0 := by
        intro h0
        rw [h0] at hd
        norm_num at hd
      refine ⟨_, _, rfl, rfl, hc.2.1, hc.2.2, hc.1.1, hc.1.2, h.symm, ?_⟩
      rw [← h]
      refine Prod.ext ?_ ?_
      · show a1.1 + _ / _ * (a2.1 - a1.1) = b1.1 + _ / _ * (b2.1 - b1.1)
        field_simp
        ring
      · show a1.2 + _ / _ * (a2.2 - a1.2) = b1.2 + _ / _ * (b2.2 - b1.2)
        field_simp
        ring
    · exact absurd h (by simp)

/-- Witness for C17: the diagonals of the unit square meet at `(1/2, 1/2)`. -/
theorem getIntersectionPoint_on_both_witness :
    ∃ t u : ℚ,
      t = (((0 : ℚ) - 0) * (1 - 0) - ((0 : ℚ) - 1) * (0 - 1)) /
        (((0 : ℚ) - 1) * (1 - 0) - ((0 : ℚ) - 1) * (0 - 1)) ∧
      u = -(((0 : ℚ) - 1) * (0 - 1) - ((0 : ℚ) - 1) * (0 - 0)) /
        (((0 : ℚ) - 1) * (1 - 0) - ((0 : ℚ) - 1) * (0 - 1)) ∧
      0 ≤ t ∧ t ≤ 1 ∧ 0 ≤ u ∧ u ≤ 1 ∧
      ((1 / 2 : ℚ), (1 / 2 : ℚ)) = (0 + t * (1 - 0), 0 + t * (1 - 0)) ∧
      ((1 / 2 : ℚ), (1 / 2 : ℚ)) = (0 + u * (1 - 0), 1 + u * (0 - 1)) :=
  getIntersectionPoint_on_both (0, 0) (1, 1) (0, 1) (1, 0) (1 / 2, 1 / 2)
    (by unfold getIntersectionPoint lerp; norm_num)

/-- C15 fails on the code: for the non-square dimensions `(width, height) = (2, 1)` the
storage of the declared shape has one row of two cells, the access `mGrid[1][0]` made by
`recalculateEdges` for the in-range cell `(1, 0)` is outside it, and construction does not
complete; likewise for `(1, 2)` with the access `mGrid[0][1]`.  In general storage of the
declared shape holds every addressed cell only for square (or empty) grids. -/
theorem nonsquare_grid_access_out_of_bounds :
    (Shaped 2 1 (List.replicate 1 (List.replicate 2 ⟨false, noEdgeIds⟩)) ∧
      getCell (List.replicate 1 (List.replicate 2 ⟨false, noEdgeIds⟩)) 1 0 = none ∧
      (construct 2 1 ⟨false, noEdgeIds⟩).isNone = true) ∧
    (Shaped 1 2 (List.replicate 2 (List.replicate 1 ⟨false, noEdgeIds⟩)) ∧
      getCell (List.replicate 2 (List.replicate 1 ⟨false, noEdgeIds⟩)) 0 1 = none ∧
      (construct 1 2 ⟨false, noEdgeIds⟩).isNone = true) ∧
    (∀ (W H : Nat) (m : List (List Cell)), Shaped W H m → 0 < W → 0 < H → W ≠ H →
      ¬Stored W H m) := by
  refine ⟨⟨?_, rfl, rfl⟩, ⟨?_, rfl, rfl⟩, ?_⟩
  · unfold Shaped
    simp
  · unfold Shaped
    simp
  · intro W H m hs hW hH hne hst
    rcases (stored_iff_of_shaped hs).1 hst with h | h | h <;> omega

/-! ## Endpoint nudge -/

/-- C18 (as amended): for every edge `(a, b)` the first point the visibility cast aims at is
`a' = a + 0.0001 * b`, with `a` and `b` the original endpoints; the nudge adds a fraction of
the position of `b`, not of `b - a`, so `a'` is no farther from `b` than `a` was exactly
when `0.00005 * |b|² ≤ (b - a) · b`. -/
theorem nudgeEdge_first_point (e : Edge) :
    (nudgeEdge e).1 = (e.1.1 + 1 / 10000 * e.2.1, e.1.2 + 1 / 10000 * e.2.2) ∧
    (((nudgeEdge e).1.1 - e.2.1) ^ 2 + ((nudgeEdge e).1.2 - e.2.2) ^ 2 ≤
        (e.1.1 - e.2.1) ^ 2 + (e.1.2 - e.2.2) ^ 2 ↔
      1 / 20000 * (e.2.1 ^ 2 + e.2.2 ^ 2) ≤
        (e.2.1 - e.1.1) * e.2.1 + (e.2.2 - e.1.2) * e.2.2) := by
  refine ⟨rfl, ?_⟩
  show (e.1.1 + 1 / 10000 * e.2.1 - e.2.1) ^ 2 + (e.1.2 + 1 / 10000 * e.2.2 - e.2.2) ^ 2 ≤
      (e.1.1 - e.2.1) ^ 2 + (e.1.2 - e.2.2) ^ 2 ↔ _
  constructor
  · intro h
    nlinarith [h]
  · intro h
    nlinarith [h]

/-- Counterexample to C18 as stated: the edge `((1,1), (0,1))`, third edge of the outer
rectangle and so part of every edge list, is aimed at through `a' = (1, 1.0001)`, whose
squared distance to `b = (0,1)` is `1.00000001`, more than the squared distance `1`
between `a` and `b`: the nudged endpoint is farther from the opposite endpoint.  The
second point aimed at is `(0.0001, 1.00010001)`, not `b + 0.0001 * a = (0.0001, 1.0001)`. -/
theorem nudgeEdge_moves_away :
    outerEdges[2]? = some ((1, 1), (0, 1)) ∧
    (nudgeEdge ((1, 1), (0, 1))).1 = (1, 10001 / 10000) ∧
    ((1 : ℚ) - 0) ^ 2 + ((1 : ℚ) - 1) ^ 2 <
      ((nudgeEdge ((1, 1), (0, 1))).1.1 - 0) ^ 2 +
        ((nudgeEdge ((1, 1), (0, 1))).1.2 - 1) ^ 2 ∧
    (nudgeEdge ((1, 1), (0, 1))).2 = (1 / 10000, 100010001 / 100000000) ∧
    (nudgeEdge ((1, 1), (0, 1))).2 ≠ ((0 : ℚ) + 1 / 10000 * 1, (1 : ℚ) + 1 / 10000 * 1) := by
  have h : (nudgeEdge ((1, 1), (0, 1))).1 = (1, 10001 / 10000) := by
    unfold nudgeEdge
    norm_num
  have h2 : (nudgeEdge ((1, 1), (0, 1))).2 = (1 / 10000, 100010001 / 100000000) := by
    unfold nudgeEdge
    norm_num
  refine ⟨rfl, h, ?_, h2, ?_⟩
  · rw [h]
    norm_num
  · rw [h2]
    norm_num

/-! ## The ray casting loop -/

/-- Lemma `doRayCast` appends to the hits so far. -/
theorem castEdge_append (cos sin sqrt : ℚ → ℚ) (atan2 : ℚ → ℚ → ℚ) (mEdges : List Edge)
    (windowSize mouse : Vector2f) (acc : List RayHit) (e : Edge) :
    castEdge cos sin sqrt atan2 mEdges windowSize mouse acc e =
      acc ++ castEdge cos sin sqrt atan2 mEdges windowSize mouse [] e := by
  simp [castEdge, doRayCast]

/-- The edge loop, started on any accumulator, appends the six hits of each edge in turn. -/
theorem castEdge_foldl (cos sin sqrt : ℚ → ℚ) (atan2 : ℚ → ℚ → ℚ) (mEdges : List Edge)
    (windowSize mouse : Vector2f) (l : List Edge) (acc : List RayHit) :
    l.foldl (castEdge cos sin sqrt atan2 mEdges windowSize mouse) acc =
      acc ++ l.flatMap (castEdge cos sin sqrt atan2 mEdges windowSize mouse []) := by
  induction l generalizing acc with
  | nil => simp
  | cons e l ih =>
    rw [List.foldl_cons, ih, castEdge_append, List.flatMap_cons, List.append_assoc]

/-- In a concatenation of blocks of six, element `6 * k + j` is element `j` of block `k`. -/
theorem getElem?_flatMap_six {α β : Type} (f : α → List β) (hf : ∀ a, (f a).length = 6)
    (l : List α) (k j : Nat) (hj : j < 6) (a : α) (ha : l[k]? = some a) :
    (l.flatMap f)[6 * k + j]? = (f a)[j]? := by
  induction l generalizing k with
  | nil => simp at ha
  | cons b l ih =>
    rw [List.flatMap_cons]
    cases k with
    | zero =>
      simp at ha
      subst ha
      rw [List.getElem?_append_left (by rw [hf]; omega)]
      simp
    | succ k =>
      simp at ha
      rw [List.getElem?_append_right (by rw [hf]; omega), hf,
        show 6 * (k + 1) + j - 6 = 6 * k + j by omega]
      exact ih k ha

/-- Length of a concatenation of blocks of six. -/
theorem length_flatMap_six {α β : Type} (f : α → List β) (hf : ∀ a, (f a).length = 6)
    (l : List α) : (l.flatMap f).length = 6 * l.length := by
  induction l with
  | nil => rfl
  | cons b l ih =>
    rw [List.flatMap_cons, List.length_append, hf, ih, List.length_cons]
    omega

/-- The six hits of one edge. -/
theorem castEdge_nil (cos sin sqrt : ℚ → ℚ) (atan2 : ℚ → ℚ → ℚ) (mEdges : List Edge)
    (windowSize mouse : Vector2f) (e : Edge) (θa θb : ℚ)
    (ha : θa = atan2 ((gridCoordsToScreen windowSize (nudgeEdge e).1).2 - mouse.2)
      ((gridCoordsToScreen windowSize (nudgeEdge e).1).1 - mouse.1))
    (hb : θb = atan2 ((gridCoordsToScreen windowSize (nudgeEdge e).2).2 - mouse.2)
      ((gridCoordsToScreen windowSize (nudgeEdge e).2).1 - mouse.1)) :
    castEdge cos sin sqrt atan2 mEdges windowSize mouse [] e =
      [castHit cos sin sqrt mEdges windowSize mouse θa,
        castHit cos sin sqrt mEdges windowSize mouse (θa + 1 / 1000),
        castHit cos sin sqrt mEdges windowSize mouse (θa - 1 / 1000),
        castHit cos sin sqrt mEdges windowSize mouse θb,
        castHit cos sin sqrt mEdges windowSize mouse (θb + 1 / 1000),
        castHit cos sin sqrt mEdges windowSize mouse (θb - 1 / 1000)] := by
  subst ha hb
  simp [castEdge, doRayCast]

/-- C12: the visibility cast over an edge list of `E` edges yields `6 * E` hits; every hit
has the viewpoint as origin and carries the point and distance `findClosestEdgeRaycast`
returns at the hit's recorded angle; the hits `6k .. 6k+5` belong to edge `k`: with `θ` the
`atan2` angle from the viewpoint to the screen position of a nudged endpoint, the recorded
angles are `θ`, `θ + 0.001`, `θ - 0.001`, first for the nudged `a`, then for the nudged
`b`. -/
theorem castRays_spec (cos sin sqrt : ℚ → ℚ) (atan2 : ℚ → ℚ → ℚ) (mEdges : List Edge)
    (windowSize mouse : Vector2f) :
    (castRays cos sin sqrt atan2 mEdges windowSize mouse).length = 6 * mEdges.length ∧
    (∀ h ∈ castRays cos sin sqrt atan2 mEdges windowSize mouse,
      h.origin = mouse ∧
      (h.hitPoint, h.distance) =
        findClosestEdgeRaycast cos sin sqrt mEdges windowSize mouse h.angle) ∧
    (∀ (k : Nat) (e : Edge) (θa θb : ℚ), mEdges[k]? = some e →
      θa = atan2 ((gridCoordsToScreen windowSize (nudgeEdge e).1).2 - mouse.2)
        ((gridCoordsToScreen windowSize (nudgeEdge e).1).1 - mouse.1) →
      θb = atan2 ((gridCoordsToScreen windowSize (nudgeEdge e).2).2 - mouse.2)
        ((gridCoordsToScreen windowSize (nudgeEdge e).2).1 - mouse.1) →
      (((castRays cos sin sqrt atan2 mEdges windowSize mouse).drop (6 * k)).take 6).map
          RayHit.angle =
        [θa, θa + 1 / 1000, θa - 1 / 1000, θb, θb + 1 / 1000, θb - 1 / 1000]) := by
  have hlen : ∀ e, (castEdge cos sin sqrt atan2 mEdges windowSize mouse [] e).length = 6 := by
    intro e
    rw [castEdge_nil cos sin sqrt atan2 mEdges windowSize mouse e _ _ rfl rfl]
    rfl
  have hcast : castRays cos sin sqrt atan2 mEdges windowSize mouse =
      mEdges.flatMap (castEdge cos sin sqrt atan2 mEdges windowSize mouse []) := by
    unfold castRays
    rw [castEdge_foldl]
    rfl
  refine ⟨?_, ?_, ?_⟩
  · rw [hcast]
    exact length_flatMap_six _ hlen mEdges
  · intro h hh
    rw [hcast, List.mem_flatMap] at hh
    rcases hh with ⟨e, _, he⟩
    rw [castEdge_nil cos sin sqrt atan2 mEdges windowSize mouse e _ _ rfl rfl] at he
    simp only [List.mem_cons, List.mem_singleton, List.not_mem_nil, or_false] at he
    rcases he with h1 | h1 | h1 | h1 | h1 | h1 <;> subst h1 <;> exact ⟨rfl, rfl⟩
  · intro k e θa θb hk ha hb
    have hget : ∀ j, j < 6 →
        (castRays cos sin sqrt atan2 mEdges windowSize mouse)[6 * k + j]? =
          (castEdge cos sin sqrt atan2 mEdges windowSize mouse [] e)[j]? := by
      intro j hj
      rw [hcast]
      exact getElem?_flatMap_six _ hlen mEdges k j hj e hk
    rw [castEdge_nil cos sin sqrt atan2 mEdges windowSize mouse e θa θb ha hb] at hget
    apply List.ext_getElem?
    intro n
    rw [List.getElem?_map, List.getElem?_take]
    by_cases hn : n < 6
    · rw [if_pos hn, List.getElem?_drop, hget n hn]
      have : n = 0 ∨ n = 1 ∨ n = 2 ∨ n = 3 ∨ n = 4 ∨ n = 5 := by omega
      rcases this with h | h | h | h | h | h <;> subst h <;> rfl
    · rw [if_neg hn]
      rw [List.getElem?_eq_none (by simp; omega)]
      rfl

/-- Witness for C12: the outer rectangle seen from the centre of an 800 × 800 window, with
stand-ins for the library functions; the six hits of edge 0. -/
theorem castRays_spec_witness :
    (((castRays (fun _ => 1) (fun _ => 0) (fun q => q) (fun y x => y - x) outerEdges
        (800, 800) (400, 400)).drop (6 * 0)).take 6).map RayHit.angle =
      [(-2 / 25 : ℚ), -2 / 25 + 1 / 1000, -2 / 25 - 1 / 1000, -100000001 / 125000,
        -100000001 / 125000 + 1 / 1000, -100000001 / 125000 - 1 / 1000] :=
  (castRays_spec (fun _ => 1) (fun _ => 0) (fun q => q) (fun y x => y - x) outerEdges
    (800, 800) (400, 400)).2.2 0 ((0, 0), (1, 0)) (-2 / 25) (-100000001 / 125000) rfl
    (by norm_num [gridCoordsToScreen, nudgeEdge])
    (by norm_num [gridCoordsToScreen, nudgeEdge])

/-! ## The whole polygon -/

/-- The circular predecessor index: `n - 1` for `0`, `i - 1` otherwise. -/
theorem pred_mod_eq (n i : Nat) (hi : i < n) :
    (i = 0 ∧ (i + n - 1) % n = n - 1) ∨ (0 < i ∧ (i + n - 1) % n = i - 1) := by
  by_cases h0 : i = 0
  · left
    rw [h0, Nat.zero_add, Nat.mod_eq_of_lt (by omega)]
    exact ⟨rfl, rfl⟩
  · right
    rw [show i + n - 1 = i - 1 + n by omega, Nat.add_mod_right, Nat.mod_eq_of_lt (by omega)]
    exact ⟨by omega, rfl⟩

/-- The circular successor index: `0` for `n - 1`, `j + 1` otherwise. -/
theorem succ_mod_eq (n j : Nat) :
    (j + 1 = n ∧ (j + 1) % n = 0) ∨ (j + 1 ≠ n ∧ (j + 1 < n → (j + 1) % n = j + 1)) := by
  by_cases h0 : j + 1 = n
  · left
    rw [h0, Nat.mod_self]
    exact ⟨rfl, rfl⟩
  · right
    exact ⟨h0, fun h => Nat.mod_eq_of_lt h⟩

/-- When the sort permutes its input, the polygon of `n` hits has `3 * n` vertices; with `s`
the sorted hits, the vertices `3i, 3i+1, 3i+2` are the viewpoint, `s[i].hitPoint` and
`s[(i - 1) mod n].hitPoint`; and for every position `j` the circularly adjacent pair
`(s[j], s[(j + 1) mod n])` is the pair of hits of exactly one triangle. -/
theorem buildPolygon_of_perm (sort : List RayHit → List RayHit) (mouse : Vector2f)
    (hits : List RayHit) (hperm : (sort hits).Perm hits) :
    (buildPolygon sort mouse hits).length = 3 * hits.length ∧
    (hits = [] → buildPolygon sort mouse hits = []) ∧
    (∀ i, i < hits.length →
      ∃ cur prev, (sort hits)[i]? = some cur ∧
        (sort hits)[(i + hits.length - 1) % hits.length]? = some prev ∧
        (((buildPolygon sort mouse hits).drop (3 * i)).take 3).map Vertex.position =
          [mouse, cur.hitPoint, prev.hitPoint]) ∧
    (∀ j, j < hits.length →
      (j + 1) % hits.length < hits.length ∧
      ((j + 1) % hits.length + hits.length - 1) % hits.length = j ∧
      ∀ i, i < hits.length → (i + hits.length - 1) % hits.length = j →
        i = (j + 1) % hits.length) := by
  have hn : (sort hits).length = hits.length := hperm.length_eq
  rcases polygon_fold_inv mouse (sort hits) (sort hits).length le_rfl with ⟨_, h2, h3⟩
  have hlen : (buildPolygon sort mouse hits).length = 3 * hits.length := by
    unfold buildPolygon
    rw [h2, hn]
  refine ⟨hlen, ?_, ?_, ?_⟩
  · intro h
    apply List.eq_nil_of_length_eq_zero
    rw [hlen, h]
    rfl
  · intro i hi
    have hi' : i < (sort hits).length := by omega
    have hp : (i + hits.length - 1) % hits.length < (sort hits).length := by
      rw [hn]
      exact Nat.mod_lt _ (by omega)
    rcases h3 i hi' with ⟨a, b, c⟩
    refine ⟨(sort hits)[i], (sort hits)[(i + hits.length - 1) % hits.length],
      List.getElem?_eq_getElem hi', List.getElem?_eq_getElem hp, ?_⟩
    have ha : (buildPolygon sort mouse hits)[3 * i]? = some ⟨mouse, 150⟩ := a
    have hb : (buildPolygon sort mouse hits)[3 * i + 1]? =
        some ⟨((sort hits).getD i ⟨(0, 0), (0, 0), 0, 0⟩).hitPoint,
          hitAlpha ((sort hits).getD i ⟨(0, 0), (0, 0), 0, 0⟩).distance⟩ := b
    have hc : (buildPolygon sort mouse hits)[3 * i + 2]? =
        some ⟨((sort hits).getD ((i + (sort hits).length - 1) % (sort hits).length)
            ⟨(0, 0), (0, 0), 0, 0⟩).hitPoint,
          hitAlpha ((sort hits).getD ((i + (sort hits).length - 1) % (sort hits).length)
            ⟨(0, 0), (0, 0), 0, 0⟩).distance⟩ := c
    rw [hn] at hc
    rw [List.getD_eq_getElem _ _ hi'] at hb
    rw [List.getD_eq_getElem _ _ hp] at hc
    apply List.ext_getElem?
    intro k
    rw [List.getElem?_map, List.getElem?_take]
    by_cases hk : k < 3
    · rw [if_pos hk, List.getElem?_drop]
      have : k = 0 ∨ k = 1 ∨ k = 2 := by omega
      rcases this with h | h | h <;> subst h
      · rw [Nat.add_zero, ha]
        rfl
      · rw [hb]
        rfl
      · rw [hc]
        rfl
    · rw [if_neg hk, List.getElem?_eq_none (by simp; omega)]
      rfl
  · intro j hj
    have hlt : (j + 1) % hits.length < hits.length := Nat.mod_lt _ (by omega)
    have hs := succ_mod_eq hits.length j
    have hq := pred_mod_eq hits.length _ hlt
    refine ⟨hlt, ?_, ?_⟩
    · generalize (j + 1) % hits.length = v at hs hq hlt ⊢
      generalize (v + hits.length - 1) % hits.length = w at hq ⊢
      omega
    · intro i hi h
      have hq2 := pred_mod_eq hits.length i hi
      rw [h] at hq2
      generalize (j + 1) % hits.length = v at hs hq hlt ⊢
      omega

/-! ## Every `extendEdge` call of the rebuild receives a valid id -/

theorem extendEdgeChecked_of_valid {es : List Edge} {id : Int} (hv : ValidId es id)
    (hne : id ≠ -1) (ext : Vector2f) :
    extendEdgeChecked es id ext = some (extendEdge es id ext) := by
  unfold extendEdgeChecked
  rcases hv with h | h
  · exact absurd h hne
  · rw [if_pos h]

/-- The checked side block fails or does what `sideStep` does. -/
theorem sideStepChecked_none_or (g : SFMLGrid) (x y : Nat) (slot : Fin 4) (guard : Bool)
    (nx ny : Nat) (pguard : Bool) (px py : Nat) (ext a b : Vector2f) :
    sideStepChecked g x y slot guard nx ny pguard px py ext a b = none ∨
      sideStepChecked g x y slot guard nx ny pguard px py ext a b =
        sideStep g x y slot guard nx ny pguard px py ext a b := by
  unfold sideStepChecked sideStep
  cases guard with
  | false => exact Or.inr rfl
  | true =>
    simp only [if_true]
    cases getCell g.mGrid nx ny with
    | none => exact Or.inl rfl
    | some n =>
      simp only []
      by_cases hn : n.isSet = true
      · rw [if_pos hn, if_pos hn]
        exact Or.inr rfl
      · rw [if_neg hn, if_neg hn]
        cases pguard with
        | false => exact Or.inr rfl
        | true =>
          simp only [if_true]
          cases getCell g.mGrid px py with
          | none => exact Or.inl rfl
          | some p =>
            simp only []
            by_cases hp : p.edgeIds slot ≠ -1
            · rw [if_pos hp, if_pos hp]
              unfold extendEdgeChecked
              split
              · exact Or.inr rfl
              · exact Or.inl rfl
            · rw [if_neg hp, if_neg hp]
              exact Or.inr rfl

/-- On a represented grid whose visited cells hold valid ids the check of the side block
passes. -/
theorem sideStepChecked_eq {W H : Nat} {g : SFMLGrid} {v : View} (h : Rep W H g v)
    {S : Nat → Nat → Prop} (hgood : GoodOn S v) (x y : Nat) (slot : Fin 4) (guard : Bool)
    (nx ny : Nat) (pguard : Bool) (px py : Nat) (ext a b : Vector2f)
    (hn : guard = true → nx < W ∧ ny < H) (hp : pguard = true → px < W ∧ py < H)
    (hS : pguard = true → S px py) :
    sideStepChecked g x y slot guard nx ny pguard px py ext a b =
      sideStep g x y slot guard nx ny pguard px py ext a b := by
  unfold sideStepChecked sideStep
  cases guard with
  | false => rfl
  | true =>
    simp only [if_true]
    rw [h.get (hn rfl).1 (hn rfl).2]
    simp only []
    by_cases hs : (v.cells nx ny).isSet = true
    · rw [if_pos hs, if_pos hs]
    · rw [if_neg hs, if_neg hs]
      cases pguard with
      | false => rfl
      | true =>
        simp only [if_true]
        rw [h.get (hp rfl).1 (hp rfl).2]
        simp only []
        by_cases hq : (v.cells px py).edgeIds slot ≠ -1
        · rw [if_pos hq, if_pos hq, h.1,
            extendEdgeChecked_of_valid (hgood.2 px py (hS rfl) slot) hq]
          rfl
        · rw [if_neg hq, if_neg hq]

theorem bind_none_or {α β : Type} {a a' : Option α} {f f' : α → Option β}
    (ha : a = none ∨ a = a') (hf : ∀ g, f g = none ∨ f g = f' g) :
    a.bind f = none ∨ a.bind f = a'.bind f' := by
  rcases ha with h | h
  · left
    rw [h]
    rfl
  · rw [h]
    cases a' with
    | none => exact Or.inl rfl
    | some g => exact hf g

theorem foldlM_none_or {α β : Type} {f f' : β → α → Option β}
    (hf : ∀ b a, f b a = none ∨ f b a = f' b a) (l : List α) (b : β) :
    l.foldlM f b = none ∨ l.foldlM f b = l.foldlM f' b := by
  induction l generalizing b with
  | nil => exact Or.inr rfl
  | cons a l ih =>
    rw [List.foldlM_cons, List.foldlM_cons]
    exact bind_none_or (hf b a) ih

/-- The checked loop body fails or does what `cellStep` does. -/
theorem cellStepChecked_none_or (W H x y : Nat) (g : SFMLGrid) :
    cellStepChecked W H x y g = none ∨ cellStepChecked W H x y g = cellStep W H x y g := by
  unfold cellStepChecked cellStep
  cases getCell g.mGrid x y with
  | none => exact Or.inl rfl
  | some c =>
    simp only []
    cases setCell g.mGrid x y { c with edgeIds := noEdgeIds } with
    | none => exact Or.inl rfl
    | some m =>
      simp only []
      by_cases hs : c.isSet = true
      · rw [if_pos hs, if_pos hs]
        exact bind_none_or (sideStepChecked_none_or _ _ _ _ _ _ _ _ _ _ _ _ _) fun g1 =>
          bind_none_or (sideStepChecked_none_or _ _ _ _ _ _ _ _ _ _ _ _ _) fun g2 =>
          bind_none_or (sideStepChecked_none_or _ _ _ _ _ _ _ _ _ _ _ _ _) fun g3 =>
          sideStepChecked_none_or _ _ _ _ _ _ _ _ _ _ _ _ _
      · rw [if_neg hs, if_neg hs]
        exact Or.inr rfl

/-- The checked rebuild fails or returns what `recalculateEdges` returns. -/
theorem recalculateEdgesChecked_none_or (W H : Nat) (g : SFMLGrid) :
    recalculateEdgesChecked W H g = none ∨
      recalculateEdgesChecked W H g = recalculateEdges W H g := by
  unfold recalculateEdgesChecked recalculateEdges
  apply foldlM_none_or
  intro b x
  unfold columnLoopChecked columnLoop
  apply foldlM_none_or
  intro b y
  exact cellStepChecked_none_or W H x y b

/-- On a represented grid whose visited cells hold valid ids every check of the loop body
passes. -/
theorem cellStepChecked_eq {W H : Nat} {g : SFMLGrid} {v : View} (h : Rep W H g v)
    {x y : Nat} (hgood : GoodOn (Visited H x y) v) (hx : x < W) (hy : y < H) :
    cellStepChecked W H x y g = cellStep W H x y g := by
  rcases rep_put h hx hy { v.cells x y with edgeIds := noEdgeIds } v.edges with ⟨m, hm, hrep⟩
  have g0 : GoodOn (Visited H x (y + 1)) (clearIdsV x y v) := hgood.clear hy
  have g1 := @westStepV_good W H x y _ g0 hy
  have g2 := @northStepV_good W H x y _ g1 hy
  have g3 := @eastStepV_good W H x y _ g2 hy
  unfold cellStepChecked cellStep
  simp only [h.get hx hy, hm, h.1]
  by_cases hs : (v.cells x y).isSet = true
  · rw [if_pos hs, if_pos hs]
    rcases sideStep_rep hrep hx hy 0 (decide (x ≠ 0)) (x - 1) y (decide (y ≠ 0)) x (y - 1)
      (0, 1 / (H : ℚ)) (x * (1 / (W : ℚ)), y * (1 / (H : ℚ)))
      (x * (1 / (W : ℚ)), y * (1 / (H : ℚ)) + 1 / (H : ℚ))
      (by intro hg; simp at hg; omega) (by intro hg; simp at hg; omega) with ⟨s1, e1, r1⟩
    rcases sideStep_rep r1 hx hy 1 (decide (y ≠ 0)) x (y - 1) (decide (x ≠ 0)) (x - 1) y
      (1 / (W : ℚ), 0) (x * (1 / (W : ℚ)), y * (1 / (H : ℚ)))
      (x * (1 / (W : ℚ)) + 1 / (W : ℚ), y * (1 / (H : ℚ)))
      (by intro hg; simp at hg; omega) (by intro hg; simp at hg; omega) with ⟨s2, e2, r2⟩
    rcases sideStep_rep r2 hx hy 2 (decide (x + 1 < W)) (x + 1) y (decide (y ≠ 0)) x (y - 1)
      (0, 1 / (H : ℚ)) (x * (1 / (W : ℚ)) + 1 / (W : ℚ), y * (1 / (H : ℚ)))
      (x * (1 / (W : ℚ)) + 1 / (W : ℚ), y * (1 / (H : ℚ)) + 1 / (H : ℚ))
      (by intro hg; simp at hg; omega) (by intro hg; simp at hg; omega) with ⟨s3, e3, r3⟩
    have c1 := @sideStepChecked_eq W H _ (clearIdsV x y v) hrep _ g0 x y 0
      (decide (x ≠ 0)) (x - 1) y (decide (y ≠ 0)) x (y - 1)
      (0, 1 / (H : ℚ)) (x * (1 / (W : ℚ)), y * (1 / (H : ℚ)))
      (x * (1 / (W : ℚ)), y * (1 / (H : ℚ)) + 1 / (H : ℚ))
      (by intro hg; simp at hg; omega) (by intro hg; simp at hg; omega) (visited_up hy)
    have c2 := @sideStepChecked_eq W H _ (westStepV W H x y (clearIdsV x y v)) r1 _ g1 x y 1
      (decide (y ≠ 0)) x (y - 1) (decide (x ≠ 0)) (x - 1) y
      (1 / (W : ℚ), 0) (x * (1 / (W : ℚ)), y * (1 / (H : ℚ)))
      (x * (1 / (W : ℚ)) + 1 / (W : ℚ), y * (1 / (H : ℚ)))
      (by intro hg; simp at hg; omega) (by intro hg; simp at hg; omega) (visited_left hy)
    have c3 := @sideStepChecked_eq W H _
      (northStepV W H x y (westStepV W H x y (clearIdsV x y v))) r2 _ g2 x y 2
      (decide (x + 1 < W)) (x + 1) y (decide (y ≠ 0)) x (y - 1)
      (0, 1 / (H : ℚ)) (x * (1 / (W : ℚ)) + 1 / (W : ℚ), y * (1 / (H : ℚ)))
      (x * (1 / (W : ℚ)) + 1 / (W : ℚ), y * (1 / (H : ℚ)) + 1 / (H : ℚ))
      (by intro hg; simp at hg; omega) (by intro hg; simp at hg; omega) (visited_up hy)
    have c4 := @sideStepChecked_eq W H _
      (eastStepV W H x y (northStepV W H x y (westStepV W H x y (clearIdsV x y v)))) r3 _ g3
      x y 3 (decide (y + 1 < H)) x (y + 1) (decide (x ≠ 0)) (x - 1) y
      (1 / (W : ℚ), 0) (x * (1 / (W : ℚ)), y * (1 / (H : ℚ)) + 1 / (H : ℚ))
      (x * (1 / (W : ℚ)) + 1 / (W : ℚ), y * (1 / (H : ℚ)) + 1 / (H : ℚ))
      (by intro hg; simp at hg; omega) (by intro hg; simp at hg; omega) (visited_left hy)
    rw [e1] at c1
    rw [e2] at c2
    rw [e3] at c3
    simp only [c1, c2, c3, c4, e1, e2, e3, Option.some_bind]
  · rw [if_neg hs, if_neg hs]

theorem columnLoopChecked_eq {W H : Nat} {x : Nat} (hx : x < W) (n : Nat) (hn : n ≤ H)
    {g : SFMLGrid} {v : View} (h : Rep W H g v) (hgood : GoodOn (Visited H x 0) v) :
    ∃ g', (List.range n).foldlM (fun g y => cellStepChecked W H x y g) g = some g' ∧
      (List.range n).foldlM (fun g y => cellStep W H x y g) g = some g' ∧
      Rep W H g' ((List.range n).foldl (fun v y => cellStepV W H x y v) v) ∧
      GoodOn (Visited H x n) ((List.range n).foldl (fun v y => cellStepV W H x y v) v) := by
  induction n with
  | zero => exact ⟨g, rfl, rfl, h, hgood⟩
  | succ n ih =>
    rcases ih (by omega) with ⟨g1, c1, e1, r1, d1⟩
    rcases cellStep_rep r1 hx (show n < H by omega) with ⟨g2, e2, r2⟩
    have c2 := cellStepChecked_eq r1 d1 hx (show n < H by omega)
    rw [e2] at c2
    refine ⟨g2, ?_, ?_, ?_, ?_⟩
    · rw [List.range_succ, List.foldlM_append, c1]
      simp [c2]
    · rw [List.range_succ, List.foldlM_append, e1]
      simp [e2]
    · rw [List.range_succ, List.foldl_append]
      exact r2
    · rw [List.range_succ, List.foldl_append]
      exact cellStepV_good d1 (by omega)

theorem rowsLoopChecked_eq {W H : Nat} (n : Nat) (hn : n ≤ W) {g : SFMLGrid} {v : View}
    (h : Rep W H g v) (hgood : GoodOn (Visited H 0 0) v) :
    ∃ g', (List.range n).foldlM (fun g x => columnLoopChecked W H x g) g = some g' ∧
      (List.range n).foldlM (fun g x => columnLoop W H x g) g = some g' ∧
      Rep W H g' ((List.range n).foldl (fun v x => columnLoopV W H x v) v) ∧
      GoodOn (Visited H n 0) ((List.range n).foldl (fun v x => columnLoopV W H x v) v) := by
  induction n with
  | zero => exact ⟨g, rfl, rfl, h, hgood⟩
  | succ n ih =>
    rcases ih (by omega) with ⟨g1, c1, e1, r1, d1⟩
    rcases columnLoopChecked_eq (show n < W by omega) H le_rfl r1 d1 with ⟨g2, c2, e2, r2, d2⟩
    refine ⟨g2, ?_, ?_, ?_, ?_⟩
    · rw [List.range_succ, List.foldlM_append, c1]
      simp [columnLoopChecked, c2]
    · rw [List.range_succ, List.foldlM_append, e1]
      simp [columnLoop, e2]
    · rw [List.range_succ, List.foldl_append]
      exact r2
    · rw [List.range_succ, List.foldl_append]
      exact ⟨d2.1, fun x' y' hS => d2.2 x' y' (visited_col_iff.1 hS)⟩

/-- C19: whatever the grid holds before (set flags, stale ids, old edges), the rebuild
with a check before every `extendEdge` call returns exactly what `recalculateEdges`
returns, so every such call receives an id that is at least 4 and below the current
number of edges; a call with such an id returns that id, keeps the number of edges and
leaves the four outer-rectangle edges as they are; and after the rebuild every id
recorded in a cell is `-1` or at least 4 and below the number of edges. -/
theorem recalculateEdges_extend_ids_valid :
    (∀ (W H : Nat) (g : SFMLGrid),
      recalculateEdgesChecked W H g = recalculateEdges W H g) ∧
    (∀ (es : List Edge) (id : Int) (ext : Vector2f) (r : Int × List Edge),
      extendEdgeChecked es id ext = some r →
      (4 ≤ id ∧ id < (es.length : Int)) ∧ r = extendEdge es id ext ∧ r.1 = id ∧
        r.2.length = es.length ∧ r.2.take 4 = es.take 4) ∧
    (∀ (W H : Nat) (g g' : SFMLGrid), recalculateEdges W H g = some g' →
      ∀ x y c, x < W → y < H → getCell g'.mGrid x y = some c →
        ∀ slot, c.edgeIds slot = -1 ∨
          (4 ≤ c.edgeIds slot ∧ c.edgeIds slot < (g'.mEdges.length : Int))) := by
  refine ⟨?_, ?_, ?_⟩
  · intro W H g
    cases hr : recalculateEdges W H g with
    | none =>
      rcases recalculateEdgesChecked_none_or W H g with h | h
      · exact h
      · rw [h, hr]
    | some g' =>
      have hst : Stored W H g.mGrid := stored_of_recalculateEdges hr
      have hrep : Rep W H { g with mEdges := outerEdges }
          { viewOf g with edges := outerEdges } := ⟨rfl, hst, (rep_viewOf hst).2.2⟩
      have hgood : GoodOn (Visited H 0 0) { viewOf g with edges := outerEdges } := by
        refine ⟨rfl, ?_⟩
        intro x y hS
        unfold Visited at hS
        omega
      rcases rowsLoopChecked_eq W le_rfl hrep hgood with ⟨g2, c2, e2, _, _⟩
      have e3 : recalculateEdges W H g = some g2 := e2
      have c3 : recalculateEdgesChecked W H g = some g2 := c2
      rw [c3, ← hr, e3]
  · intro es id ext r h
    unfold extendEdgeChecked at h
    split at h
    · rename_i hv
      injection h with h
      rcases extendEdge_of_valid (by omega) hv.2 ext with ⟨e, _, he⟩
      refine ⟨hv, h.symm, ?_, ?_, ?_⟩
      · rw [← h, he]
      · rw [← h, he]
        simp
      · rw [← h, he]
        exact take_four_set (by omega) _
    · simp at h
  · intro W H g g' h x y c hx hy hc slot
    have hr := rep_of_recalculateEdges h
    have hg := recalcV_good W H (viewOf g)
    have hv := hg.2 x y ⟨hy, Or.inl hx⟩ slot
    rw [hr.2.2 x y c hc, ← hr.1] at hv
    exact hv

/-- Witness for C19: a 2 × 2 grid whose column 1 is set, every cell carrying the stale id
`7`, with a stale edge list; the rebuild extends the west edge of `(1, 0)` at `(1, 1)`,
completes, and the recorded ids are valid. -/
theorem recalculateEdges_extend_ids_valid_witness :
    ∃ g', recalculateEdges 2 2
        ⟨[[⟨false, fun _ => 7⟩, ⟨false, fun _ => 7⟩], [⟨true, fun _ => 7⟩, ⟨true, fun _ => 7⟩]],
          [((5, 5), (6, 6))]⟩ = some g' ∧
      ∀ x y c, x < 2 → y < 2 → getCell g'.mGrid x y = some c →
        ∀ slot, c.edgeIds slot = -1 ∨
          (4 ≤ c.edgeIds slot ∧ c.edgeIds slot < (g'.mEdges.length : Int)) := by
  have hs : Stored 2 2 [[(⟨false, fun _ => 7⟩ : Cell), ⟨false, fun _ => 7⟩],
      [⟨true, fun _ => 7⟩, ⟨true, fun _ => 7⟩]] := by
    unfold Stored
    decide
  have hrep : Rep 2 2
      (⟨[[⟨false, fun _ => 7⟩, ⟨false, fun _ => 7⟩], [⟨true, fun _ => 7⟩, ⟨true, fun _ => 7⟩]],
        [((5, 5), (6, 6))]⟩ : SFMLGrid) _ := rep_viewOf hs
  rcases recalculateEdges_rep hrep with ⟨g', hg', _⟩
  exact ⟨g', hg', recalculateEdges_extend_ids_valid.2.2 2 2 _ g' hg'⟩

/-! ## Maximal runs share one edge -/

/-- The invariant survives a step that changes no edge and no handled id and only adds
sides that are no boundary sides, holding `-1`. -/
theorem RunInv.nonside {W H : Nat} {c0 : Nat → Nat → Cell} {D D' : Fin 4 → Nat → Nat → Prop}
    {N : Nat} {u u' : View} (h : RunInv W H c0 D N u) (hedges : u'.edges = u.edges)
    (hflags : ∀ x y, (u'.cells x y).isSet = (u.cells x y).isSet)
    (hsub : ∀ s x y, D s x y → D' s x y)
    (hold : ∀ s l p, D s (runX s l p) (runY s l p) → idAt u' s l p = idAt u s l p)
    (hnew : ∀ s l p, D' s (runX s l p) (runY s l p) →
      D s (runX s l p) (runY s l p) ∨ (¬SideAt W H c0 s l p ∧ idAt u' s l p = -1)) :
    RunInv W H c0 D' N u' := by
  have inD : ∀ s l p, D' s (runX s l p) (runY s l p) → SideAt W H c0 s l p →
      D s (runX s l p) (runY s l p) :=
    fun s l p hd hs => (hnew s l p hd).resolve_right fun hh => hh.1 hs
  refine ⟨?_, ?_, ?_, ?_, ?_, ?_, ?_, ?_⟩
  · intro x y
    rw [hflags, h.flags]
  · rw [hedges, h.len]
  · intro s l p hd hs
    rcases hnew s l p hd with hd' | hd'
    · rw [hold s l p hd']
      exact h.noId s l p hd' hs
    · exact hd'.2
  · intro s l p hd hs
    rw [hold s l p (inD s l p hd hs), hedges]
    exact h.valid s l p (inD s l p hd hs) hs
  · intro s l p hd1 hd hs1 hs
    rw [hold s l _ (inD s l _ hd1 hs1), hold s l p (inD s l p hd hs)]
    exact h.same s l p (inD s l _ hd1 hs1) (inD s l p hd hs) hs1 hs
  · intro s l p s' l' p' hd hd' hs hs'
    rw [hold s l p (inD s l p hd hs), hold s' l' p' (inD s' l' p' hd' hs')]
    exact h.dist s l p s' l' p' (inD s l p hd hs) (inD s' l' p' hd' hs') hs hs'
  · intro s l p e hd hst
    rw [hold s l p (inD s l p hd hst.1), hedges]
    exact h.ptA s l p e (inD s l p hd hst.1) hst
  · intro s l p e hd hs hnext
    rw [hold s l p (inD s l p hd hs), hedges]
    exact h.ptB s l p e (inD s l p hd hs) hs fun hh => hnext ⟨hsub _ _ _ hh.1, hh.2⟩

/-- Cells of one slot are determined by line and position. -/
theorem run_coords_inj {s : Fin 4} {l p l' p' : Nat} (hx : runX s l' p' = runX s l p)
    (hy : runY s l' p' = runY s l p) : l' = l ∧ p' = p := by
  unfold runX at hx
  unfold runY at hy
  split at hx
  · rename_i h
    rw [if_pos h, if_pos h] at hy
    exact ⟨hx, hy⟩
  · rename_i h
    rw [if_neg h, if_neg h] at hy
    exact ⟨hy, hx⟩

/-- The ids after `recordEdgeV` at the cell at position `p` of line `l` for slot `k`. -/
theorem idAt_recordEdgeV (u : View) (k : Fin 4) (l p : Nat) (r : Int × List Edge)
    (s : Fin 4) (l' p' : Nat) :
    idAt (recordEdgeV u (runX k l p) (runY k l p) k r) s l' p' =
      if s = k ∧ l' = l ∧ p' = p then r.1 else idAt u s l' p' := by
  unfold idAt
  by_cases hc : runX s l' p' = runX k l p ∧ runY s l' p' = runY k l p
  · rw [hc.1, hc.2, recordEdgeV_ids]
    by_cases hs : s = k
    · subst hs
      rcases run_coords_inj hc.1 hc.2 with ⟨rfl, rfl⟩
      simp
    · rw [Function.update_noteq hs]
      simp [hs]
  · rw [recordEdgeV_cells_ne u k r hc]
    have : ¬(s = k ∧ l' = l ∧ p' = p) := by
      rintro ⟨rfl, rfl, rfl⟩
      exact hc ⟨rfl, rfl⟩
    rw [if_neg this]

theorem done_cases {D : Fin 4 → Nat → Nat → Prop} {k s : Fin 4} {l p l' p' : Nat}
    (h : D s (runX s l' p') (runY s l' p') ∨
      (s = k ∧ runX s l' p' = runX k l p ∧ runY s l' p' = runY k l p)) :
    D s (runX s l' p') (runY s l' p') ∨ (s = k ∧ l' = l ∧ p' = p) := by
  rcases h with h | ⟨rfl, hx, hy⟩
  · exact Or.inl h
  · exact Or.inr ⟨rfl, run_coords_inj hx hy⟩

/-- The invariant survives the creation of a new edge for the first side of a run. -/
theorem RunInv.addNewRun {W H : Nat} {c0 : Nat → Nat → Cell} {D : Fin 4 → Nat → Nat → Prop}
    {N : Nat} {u : View} (h : RunInv W H c0 D N u) (k : Fin 4) (l p : Nat)
    (hnew : ∀ t, p ≤ t → ¬D k (runX k l t) (runY k l t))
    (hstart : StartAt W H c0 k l p) :
    RunInv W H c0 (fun s x y => D s x y ∨ (s = k ∧ x = runX k l p ∧ y = runY k l p)) (N + 1)
      (recordEdgeV u (runX k l p) (runY k l p) k
        (addNewEdge u.edges (cornerA W H k (runX k l p) (runY k l p))
          (cornerB W H k (runX k l p) (runY k l p)))) := by
  have hidOld : ∀ s l' p', D s (runX s l' p') (runY s l' p') →
      idAt (recordEdgeV u (runX k l p) (runY k l p) k
        (addNewEdge u.edges (cornerA W H k (runX k l p) (runY k l p))
          (cornerB W H k (runX k l p) (runY k l p)))) s l' p' = idAt u s l' p' := by
    intro s l' p' hd
    rw [idAt_recordEdgeV, if_neg]
    rintro ⟨rfl, rfl, rfl⟩
    exact hnew p' le_rfl hd
  have hidNew : idAt (recordEdgeV u (runX k l p) (runY k l p) k
        (addNewEdge u.edges (cornerA W H k (runX k l p) (runY k l p))
          (cornerB W H k (runX k l p) (runY k l p)))) k l p = (u.edges.length : Int) := by
    rw [idAt_recordEdgeV, if_pos ⟨rfl, rfl, rfl⟩, addNewEdge_fst]
  have hlen := h.len
  refine ⟨?_, ?_, ?_, ?_, ?_, ?_, ?_, ?_⟩
  · intro x y
    rw [recordEdgeV_isSet, h.flags]
  · rw [recordEdgeV_edges, addNewEdge_snd, List.length_append, h.len]
    rfl
  · intro s l' p' hd hs
    rcases done_cases hd with d | ⟨rfl, rfl, rfl⟩
    · rw [hidOld s l' p' d]
      exact h.noId s l' p' d hs
    · exact absurd hstart.1 hs
  · intro s l' p' hd hs
    rw [recordEdgeV_edges, addNewEdge_snd, List.length_append, List.length_singleton]
    rcases done_cases hd with d | ⟨rfl, rfl, rfl⟩
    · rw [hidOld s l' p' d]
      have := h.valid s l' p' d hs
      omega
    · rw [hidNew]
      omega
  · intro s l' p' hd1 hd hs1 hs
    rcases done_cases hd1 with d1 | ⟨rfl, rfl, rfl⟩
    · rcases done_cases hd with d | ⟨rfl, rfl, rfl⟩
      · rw [hidOld s l' _ d1, hidOld s l' p' d]
        exact h.same s l' p' d1 d hs1 hs
      · exact absurd d1 (hnew (p' + 1) (by omega))
    · rcases hstart.2 with h0 | h0
      · omega
      · exact absurd hs h0
  · intro s l1 p1 s' l2 p2 hd hd' hs hs' hid
    rcases done_cases hd with d | ⟨rfl, rfl, rfl⟩
    · rcases done_cases hd' with d' | ⟨rfl, rfl, rfl⟩
      · rw [hidOld s l1 p1 d, hidOld s' l2 p2 d'] at hid
        exact h.dist s l1 p1 s' l2 p2 d d' hs hs' hid
      · rw [hidOld s l1 p1 d, hidNew] at hid
        have := h.valid s l1 p1 d hs
        omega
    · rcases done_cases hd' with d' | ⟨rfl, rfl, rfl⟩
      · rw [hidOld s' l2 p2 d', hidNew] at hid
        have := h.valid s' l2 p2 d' hs'
        omega
      · refine ⟨rfl, rfl, ?_⟩
        intro t ht
        have : t = p2 := by omega
        rw [this]
        exact hs
  · intro s l' p' e hd hst he
    rw [recordEdgeV_edges, addNewEdge_snd] at he
    rcases done_cases hd with d | ⟨rfl, rfl, rfl⟩
    · rw [hidOld s l' p' d] at he
      have := h.valid s l' p' d hst.1
      rw [List.getElem?_append_left (by omega)] at he
      exact h.ptA s l' p' e d hst he
    · rw [hidNew, Int.toNat_natCast, List.getElem?_append_right le_rfl] at he
      simp at he
      rw [← he]
  · intro s l' p' e hd hs hnext he
    rw [recordEdgeV_edges, addNewEdge_snd] at he
    rcases done_cases hd with d | ⟨rfl, rfl, rfl⟩
    · rw [hidOld s l' p' d] at he
      have := h.valid s l' p' d hs
      rw [List.getElem?_append_left (by omega)] at he
      exact h.ptB s l' p' e d hs (fun hh => hnext ⟨Or.inl hh.1, hh.2⟩) he
    · rw [hidNew, Int.toNat_natCast, List.getElem?_append_right le_rfl] at he
      simp at he
      rw [← he]

/-- The invariant survives the extension of the edge of a run by its next side. -/
theorem RunInv.extendRun {W H : Nat} {c0 : Nat → Nat → Cell} {D : Fin 4 → Nat → Nat → Prop}
    {N : Nat} {u : View} (h : RunInv W H c0 D N u) (k : Fin 4) (l q : Nat)
    (hnew : ∀ t, q + 1 ≤ t → ¬D k (runX k l t) (runY k l t))
    (hdown : ∀ t, t ≤ q → D k (runX k l t) (runY k l t))
    (hside : SideAt W H c0 k l (q + 1)) (hprev : SideAt W H c0 k l q) (ext : Vector2f)
    (hext : cornerB W H k (runX k l (q + 1)) (runY k l (q + 1)) =
      cornerB W H k (runX k l q) (runY k l q) + ext) :
    RunInv W H c0
      (fun s x y => D s x y ∨ (s = k ∧ x = runX k l (q + 1) ∧ y = runY k l (q + 1))) N
      (recordEdgeV u (runX k l (q + 1)) (runY k l (q + 1)) k
        (extendEdge u.edges (idAt u k l q) ext)) := by
  have hv := h.valid k l q (hdown q le_rfl) hprev
  rcases extendEdge_of_valid (by omega) hv.2 ext with ⟨e0, he0, hex⟩
  rw [hex]
  have hidOld : ∀ s l' p', D s (runX s l' p') (runY s l' p') →
      idAt (recordEdgeV u (runX k l (q + 1)) (runY k l (q + 1)) k
        (idAt u k l q, u.edges.set (idAt u k l q).toNat (e0.1, e0.2 + ext))) s l' p' =
        idAt u s l' p' := by
    intro s l' p' hd
    rw [idAt_recordEdgeV, if_neg]
    rintro ⟨rfl, rfl, rfl⟩
    exact hnew (q + 1) le_rfl hd
  have hidNew : idAt (recordEdgeV u (runX k l (q + 1)) (runY k l (q + 1)) k
        (idAt u k l q, u.edges.set (idAt u k l q).toNat (e0.1, e0.2 + ext))) k l (q + 1) =
        idAt u k l q := by
    rw [idAt_recordEdgeV, if_pos ⟨rfl, rfl, rfl⟩]
  have hB0 : e0.2 = cornerB W H k (runX k l q) (runY k l q) :=
    h.ptB k l q e0 (hdown q le_rfl) hprev (fun hh => hnew (q + 1) le_rfl hh.1) he0
  refine ⟨?_, ?_, ?_, ?_, ?_, ?_, ?_, ?_⟩
  · intro x y
    rw [recordEdgeV_isSet, h.flags]
  · rw [recordEdgeV_edges, List.length_set, h.len]
  · intro s l' p' hd hs
    rcases done_cases hd with d | ⟨rfl, rfl, rfl⟩
    · rw [hidOld s l' p' d]
      exact h.noId s l' p' d hs
    · exact absurd hside hs
  · intro s l' p' hd hs
    rw [recordEdgeV_edges, List.length_set]
    rcases done_cases hd with d | ⟨rfl, rfl, rfl⟩
    · rw [hidOld s l' p' d]
      exact h.valid s l' p' d hs
    · rw [hidNew]
      exact hv
  · intro s l' p' hd1 hd hs1 hs
    rcases done_cases hd1 with d1 | ⟨rfl, rfl, h1⟩
    · rcases done_cases hd with d | ⟨rfl, rfl, rfl⟩
      · rw [hidOld s l' _ d1, hidOld s l' p' d]
        exact h.same s l' p' d1 d hs1 hs
      · exact absurd d1 (hnew (q + 1 + 1) (by omega))
    · have hq : p' = q := by omega
      subst hq
      rw [hidNew, hidOld s l' p' (hdown p' le_rfl)]
  · intro s l1 p1 s' l2 p2 hd hd' hs hs' hid
    rcases done_cases hd with d | ⟨rfl, rfl, rfl⟩
    · rcases done_cases hd' with d' | ⟨rfl, rfl, rfl⟩
      · rw [hidOld s l1 p1 d, hidOld s' l2 p2 d'] at hid
        exact h.dist s l1 p1 s' l2 p2 d d' hs hs' hid
      · rw [hidOld s l1 p1 d, hidNew] at hid
        rcases h.dist s l1 p1 s' l2 q d (hdown q le_rfl) hs hprev hid with ⟨rfl, rfl, hb⟩
        refine ⟨rfl, rfl, ?_⟩
        intro t ht
        by_cases htq : t = q + 1
        · rw [htq]
          exact hside
        · exact hb t (by omega)
    · rcases done_cases hd' with d' | ⟨rfl, rfl, rfl⟩
      · rw [hidOld s' l2 p2 d', hidNew] at hid
        rcases h.dist s l1 q s' l2 p2 (hdown q le_rfl) d' hprev hs' hid with ⟨rfl, rfl, hb⟩
        refine ⟨rfl, rfl, ?_⟩
        intro t ht
        by_cases htq : t = q + 1
        · rw [htq]
          exact hside
        · exact hb t (by omega)
      · refine ⟨rfl, rfl, ?_⟩
        intro t ht
        have : t = q + 1 := by omega
        rw [this]
        exact hs
  · intro s l' p' e hd hst he
    rw [recordEdgeV_edges] at he
    rcases done_cases hd with d | ⟨rfl, rfl, rfl⟩
    · rw [hidOld s l' p' d] at he
      show e.1 = _
      rw [List.getElem?_set] at he
      split at he
      · rename_i heq
        split at he
        · injection he with he
          rw [← he]
          exact h.ptA s l' p' e0 d hst (by rw [← heq]; exact he0)
        · simp at he
      · exact h.ptA s l' p' e d hst he
    · rcases hst.2 with h0 | h0
      · omega
      · exact absurd hprev h0
  · intro s l' p' e hd hs hnext he
    rw [recordEdgeV_edges] at he
    rcases done_cases hd with d | ⟨rfl, rfl, rfl⟩
    · rw [hidOld s l' p' d] at he
      have hv' := h.valid s l' p' d hs
      by_cases hid : idAt u s l' p' = idAt u k l q
      · exfalso
        rcases h.dist s l' p' k l q d (hdown q le_rfl) hs hprev hid with ⟨rfl, rfl, hb⟩
        rcases Nat.lt_trichotomy p' q with hlt | heq | hgt
        · exact hnext ⟨Or.inl (hdown (p' + 1) (by omega)), hb (p' + 1) (by omega)⟩
        · subst heq
          exact hnext ⟨Or.inr ⟨rfl, rfl, rfl⟩, hside⟩
        · exact hnew p' (by omega) d
      · rw [List.getElem?_set_ne (by omega)] at he
        exact h.ptB s l' p' e d hs (fun hh => hnext ⟨Or.inl hh.1, hh.2⟩) he
    · rw [hidNew, List.getElem?_set_self (by omega)] at he
      injection he with he
      rw [← he, hext, ← hB0]

/-- One side block of the loop body keeps the invariant, the side it handles included;
a run is counted when the block adds a new edge. -/
theorem RunInv.afterSide {W H : Nat} {c0 : Nat → Nat → Cell} {D : Fin 4 → Nat → Nat → Prop}
    {N : Nat} {u : View} (h : RunInv W H c0 D N u) (k : Fin 4) (l p : Nat)
    (hnew : ∀ t, p ≤ t → ¬D k (runX k l t) (runY k l t))
    (hdown : ∀ t, t < p → D k (runX k l t) (runY k l t))
    (hclr : idAt u k l p = -1)
    (guard : Bool) (nx ny : Nat) (pguard : Bool) (px py : Nat) (ext a b : Vector2f)
    (hfire : SideAt W H c0 k l p ↔ (guard = true ∧ (u.cells nx ny).isSet = false))
    (hpg : pguard = true ↔ p ≠ 0)
    (hpx : px = runX k l (p - 1)) (hpy : py = runY k l (p - 1))
    (ha : a = cornerA W H k (runX k l p) (runY k l p))
    (hb : b = cornerB W H k (runX k l p) (runY k l p))
    (hext : p ≠ 0 → cornerB W H k (runX k l p) (runY k l p) =
      cornerB W H k (runX k l (p - 1)) (runY k l (p - 1)) + ext) :
    RunInv W H c0 (fun s x y => D s x y ∨ (s = k ∧ x = runX k l p ∧ y = runY k l p))
      (N + if StartAt W H c0 k l p then 1 else 0)
      (sideStepV u (runX k l p) (runY k l p) k guard nx ny pguard px py ext a b) := by
  have hprevId : (u.cells px py).edgeIds k = idAt u k l (p - 1) := by
    rw [hpx, hpy]
    rfl
  rcases sideStepV_cases u (runX k l p) (runY k l p) k guard nx ny pguard px py ext a b with
    ⟨hg, e⟩ | ⟨hg, hq, e⟩ | ⟨hg, hq, e⟩
  · have hns : ¬SideAt W H c0 k l p := fun hs => hg (hfire.1 hs)
    have hnst : ¬StartAt W H c0 k l p := fun hs => hns hs.1
    rw [e, if_neg hnst]
    refine h.nonside rfl (fun _ _ => rfl) (fun _ _ _ hd => Or.inl hd) (fun _ _ _ _ => rfl) ?_
    intro s l' p' hd
    rcases done_cases hd with d | ⟨rfl, rfl, rfl⟩
    · exact Or.inl d
    · exact Or.inr ⟨hns, hclr⟩
  · have hp0 : p ≠ 0 := hpg.1 hq.1
    obtain ⟨q, rfl⟩ : ∃ q, p = q + 1 := ⟨p - 1, by omega⟩
    rw [Nat.add_sub_cancel] at hprevId hext
    have hside : SideAt W H c0 k l (q + 1) := hfire.2 hg
    have hprev : SideAt W H c0 k l q := by
      by_contra hc
      exact hq.2 (by rw [hprevId]; exact h.noId k l q (hdown q (by omega)) hc)
    have hnst : ¬StartAt W H c0 k l (q + 1) := by
      rintro ⟨_, h0 | h0⟩
      · omega
      · exact h0 hprev
    rw [e, if_neg hnst, hprevId]
    exact h.extendRun k l q hnew (fun t ht => hdown t (by omega)) hside hprev ext (hext hp0)
  · have hside : SideAt W H c0 k l p := hfire.2 hg
    have hst : StartAt W H c0 k l p := by
      refine ⟨hside, ?_⟩
      by_cases hp0 : p = 0
      · exact Or.inl hp0
      · right
        intro hprev
        have hv := h.valid k l (p - 1) (hdown (p - 1) (by omega)) hprev
        apply hq
        refine ⟨hpg.2 hp0, ?_⟩
        rw [hprevId]
        omega
    rw [e, if_pos hst, ha, hb]
    exact h.addNewRun k l p hnew hst

theorem RunInv.congrDone {W H : Nat} {c0 : Nat → Nat → Cell} {D D' : Fin 4 → Nat → Nat → Prop}
    {N N' : Nat} {u : View} (h : RunInv W H c0 D N u) (hD : ∀ s x y, D s x y ↔ D' s x y)
    (hN : N = N') : RunInv W H c0 D' N' u := by
  have e : D = D' := by
    funext s x y
    exact propext (hD s x y)
  rw [← e, ← hN]
  exact h

theorem runX_zero (l p : Nat) : runX 0 l p = l := rfl

theorem runY_zero (l p : Nat) : runY 0 l p = p := rfl

theorem runX_one (l p : Nat) : runX 1 l p = p := rfl

theorem runY_one (l p : Nat) : runY 1 l p = l := rfl

theorem runX_two (l p : Nat) : runX 2 l p = l := rfl

theorem runY_two (l p : Nat) : runY 2 l p = p := rfl

theorem runX_three (l p : Nat) : runX 3 l p = p := rfl

theorem runY_three (l p : Nat) : runY 3 l p = l := rfl

theorem sideAt_west {W H : Nat} (c0 : Nat → Nat → Cell) {x y : Nat} (hx : x < W) (hy : y < H)
    (hs : (c0 x y).isSet = true) :
    SideAt W H c0 0 x y ↔ (decide (x ≠ 0) = true ∧ (c0 (x - 1) y).isSet = false) := by
  simp [SideAt, Side, runX_zero, runY_zero, runX_one, runY_one, runX_two, runY_two,
    runX_three, runY_three, hx, hy, hs]

theorem sideAt_north {W H : Nat} (c0 : Nat → Nat → Cell) {x y : Nat} (hx : x < W) (hy : y < H)
    (hs : (c0 x y).isSet = true) :
    SideAt W H c0 1 y x ↔ (decide (y ≠ 0) = true ∧ (c0 x (y - 1)).isSet = false) := by
  simp [SideAt, Side, runX_zero, runY_zero, runX_one, runY_one, runX_two, runY_two,
    runX_three, runY_three, hx, hy, hs]

theorem sideAt_east {W H : Nat} (c0 : Nat → Nat → Cell) {x y : Nat} (hx : x < W) (hy : y < H)
    (hs : (c0 x y).isSet = true) :
    SideAt W H c0 2 x y ↔ (decide (x + 1 < W) = true ∧ (c0 (x + 1) y).isSet = false) := by
  simp [SideAt, Side, runX_zero, runY_zero, runX_one, runY_one, runX_two, runY_two,
    runX_three, runY_three, hx, hy, hs]

theorem sideAt_south {W H : Nat} (c0 : Nat → Nat → Cell) {x y : Nat} (hx : x < W) (hy : y < H)
    (hs : (c0 x y).isSet = true) :
    SideAt W H c0 3 y x ↔ (decide (y + 1 < H) = true ∧ (c0 x (y + 1)).isSet = false) := by
  simp [SideAt, Side, runX_zero, runY_zero, runX_one, runY_one, runX_two, runY_two,
    runX_three, runY_three, hx, hy, hs]

/-- No side of an unset cell is a boundary side. -/
theorem not_sideAt_of_unset {W H : Nat} {c0 : Nat → Nat → Cell} {s : Fin 4} {l p : Nat}
    (h : (c0 (runX s l p) (runY s l p)).isSet = false) : ¬SideAt W H c0 s l p := by
  intro hs
  have := hs.2.2.1
  rw [h] at this
  exact absurd this (by decide)

theorem cellStarts_of_unset {W H : Nat} {c0 : Nat → Nat → Cell} {x y : Nat}
    (h : (c0 x y).isSet = false) : cellStarts W H c0 x y = 0 := by
  have h0 : ¬StartAt W H c0 0 x y := fun hs => not_sideAt_of_unset (by exact h) hs.1
  have h1 : ¬StartAt W H c0 1 y x := fun hs => not_sideAt_of_unset (by exact h) hs.1
  have h2 : ¬StartAt W H c0 2 x y := fun hs => not_sideAt_of_unset (by exact h) hs.1
  have h3 : ¬StartAt W H c0 3 y x := fun hs => not_sideAt_of_unset (by exact h) hs.1
  unfold cellStarts
  rw [if_neg h0, if_neg h1, if_neg h2, if_neg h3]

theorem cornerB_west (W H x y : Nat) (hy : y ≠ 0) :
    cornerB W H 0 x y = cornerB W H 0 x (y - 1) + (0, 1 / (H : ℚ)) := by
  obtain ⟨q, rfl⟩ : ∃ q, y = q + 1 := ⟨y - 1, by omega⟩
  simp only [cornerB, if_true, Nat.add_sub_cancel, Prod.mk_add_mk]
  push_cast
  refine Prod.ext ?_ ?_
  · show _ = _
    ring
  · show _ = _
    ring

theorem cornerB_north (W H x y : Nat) (hx : x ≠ 0) :
    cornerB W H 1 x y = cornerB W H 1 (x - 1) y + (1 / (W : ℚ), 0) := by
  obtain ⟨q, rfl⟩ : ∃ q, x = q + 1 := ⟨x - 1, by omega⟩
  simp [cornerB]
  ring

theorem cornerB_east (W H x y : Nat) (hy : y ≠ 0) :
    cornerB W H 2 x y = cornerB W H 2 x (y - 1) + (0, 1 / (H : ℚ)) := by
  obtain ⟨q, rfl⟩ : ∃ q, y = q + 1 := ⟨y - 1, by omega⟩
  simp [cornerB]
  ring

theorem cornerB_south (W H x y : Nat) (hx : x ≠ 0) :
    cornerB W H 3 x y = cornerB W H 3 (x - 1) y + (1 / (W : ℚ), 0) := by
  obtain ⟨q, rfl⟩ : ∃ q, x = q + 1 := ⟨x - 1, by omega⟩
  simp [cornerB]
  ring

/-- The loop body keeps the invariant for the visited cells and counts the runs that start
at the cell it handles. -/
theorem RunInv.afterCell {W H : Nat} {c0 : Nat → Nat → Cell} {N : Nat} {u : View} {x y : Nat}
    (h : RunInv W H c0 (fun _ x' y' => Visited H x y x' y') N u) (hx : x < W) (hy : y < H) :
    RunInv W H c0 (fun _ x' y' => Visited H x (y + 1) x' y') (N + cellStarts W H c0 x y)
      (cellStepV W H x y u) := by
  have hold : ∀ (s : Fin 4) (l p : Nat), Visited H x y (runX s l p) (runY s l p) →
      idAt (clearIdsV x y u) s l p = idAt u s l p := by
    intro s l p hd
    unfold idAt
    rw [clearIdsV_cells_ne u]
    rintro ⟨hcx, hcy⟩
    rw [hcx, hcy] at hd
    exact visited_not_self hd
  by_cases hs : (u.cells x y).isSet = true
  · have hs0 : (c0 x y).isSet = true := by
      rw [← h.flags]
      exact hs
    have e : cellStepV W H x y u = southStepV W H x y (eastStepV W H x y
        (northStepV W H x y (westStepV W H x y (clearIdsV x y u)))) := by
      unfold cellStepV
      rw [if_pos hs]
    have h0 : RunInv W H c0 (fun _ x' y' => Visited H x y x' y') N (clearIdsV x y u) :=
      h.nonside (clearIdsV_edges u x y) (fun x' y' => clearIdsV_isSet u x y x' y')
        (fun _ _ _ hd => hd) hold (fun _ _ _ hd => Or.inl hd)
    have i0 : ∀ s, ((clearIdsV x y u).cells x y).edgeIds s = -1 := by
      intro s
      rw [clearIdsV_self]
      rfl
    have h1 : RunInv W H c0
        (fun s x' y' => Visited H x y x' y' ∨ (s = 0 ∧ x' = x ∧ y' = y))
        (N + if StartAt W H c0 0 x y then 1 else 0)
        (westStepV W H x y (clearIdsV x y u)) := by
      refine h0.afterSide 0 x y ?_ ?_ (i0 0) (decide (x ≠ 0)) (x - 1) y (decide (y ≠ 0)) x (y - 1)
        (0, 1 / (H : ℚ)) (x * (1 / (W : ℚ)), y * (1 / (H : ℚ)))
        (x * (1 / (W : ℚ)), y * (1 / (H : ℚ)) + 1 / (H : ℚ)) ?_ (by simp) rfl rfl rfl rfl
        (cornerB_west W H x y)
      · intro t ht hd
        simp only [runX_zero, runY_zero, Visited] at hd
        omega
      · intro t ht
        exact ⟨show t < H by omega, Or.inr ⟨rfl, ht⟩⟩
      · rw [h0.flags]
        exact sideAt_west c0 hx hy hs0
    have i1 : ∀ s, s ≠ 0 → ((westStepV W H x y (clearIdsV x y u)).cells x y).edgeIds s = -1 := by
      intro s hs
      unfold westStepV
      rw [sideStepV_slot_ne _ _ _ _ _ _ _ _ _ _ _ _ hs, i0]
    have h2 : RunInv W H c0
        (fun s x' y' => (Visited H x y x' y' ∨ (s = 0 ∧ x' = x ∧ y' = y)) ∨
          (s = 1 ∧ x' = x ∧ y' = y))
        (N + (if StartAt W H c0 0 x y then 1 else 0) + if StartAt W H c0 1 y x then 1 else 0)
        (northStepV W H x y (westStepV W H x y (clearIdsV x y u))) := by
      refine h1.afterSide 1 y x ?_ ?_ (i1 1 (by decide)) (decide (y ≠ 0)) x (y - 1)
        (decide (x ≠ 0)) (x - 1) y
        (1 / (W : ℚ), 0) (x * (1 / (W : ℚ)), y * (1 / (H : ℚ)))
        (x * (1 / (W : ℚ)) + 1 / (W : ℚ), y * (1 / (H : ℚ))) ?_ (by simp) rfl rfl rfl rfl
        (cornerB_north W H x y)
      · intro t ht hd
        simp only [runX_one, runY_one, Visited] at hd
        rcases hd with hd | hd
        · omega
        · exact absurd hd.1 (by decide)
      · intro t ht
        simp only [runX_one, runY_one, Visited]
        left
        omega
      · rw [h1.flags]
        exact sideAt_north c0 hx hy hs0
    have i2 : ∀ s, s ≠ 0 → s ≠ 1 →
        ((northStepV W H x y (westStepV W H x y (clearIdsV x y u))).cells x y).edgeIds s =
          -1 := by
      intro s hs hs1
      unfold northStepV
      rw [sideStepV_slot_ne _ _ _ _ _ _ _ _ _ _ _ _ hs1, i1 s hs]
    have h3 : RunInv W H c0
        (fun s x' y' => ((Visited H x y x' y' ∨ (s = 0 ∧ x' = x ∧ y' = y)) ∨
          (s = 1 ∧ x' = x ∧ y' = y)) ∨ (s = 2 ∧ x' = x ∧ y' = y))
        (N + (if StartAt W H c0 0 x y then 1 else 0) + (if StartAt W H c0 1 y x then 1 else 0) +
          if StartAt W H c0 2 x y then 1 else 0)
        (eastStepV W H x y (northStepV W H x y (westStepV W H x y (clearIdsV x y u)))) := by
      refine h2.afterSide 2 x y ?_ ?_ (i2 2 (by decide) (by decide)) (decide (x + 1 < W)) (x + 1) y
        (decide (y ≠ 0)) x (y - 1)
        (0, 1 / (H : ℚ)) (x * (1 / (W : ℚ)) + 1 / (W : ℚ), y * (1 / (H : ℚ)))
        (x * (1 / (W : ℚ)) + 1 / (W : ℚ), y * (1 / (H : ℚ)) + 1 / (H : ℚ)) ?_ (by simp)
        rfl rfl rfl rfl (cornerB_east W H x y)
      · intro t ht hd
        simp only [runX_two, runY_two, Visited] at hd
        rcases hd with (hd | hd) | hd
        · omega
        · exact absurd hd.1 (by decide)
        · exact absurd hd.1 (by decide)
      · intro t ht
        exact Or.inl (Or.inl ⟨show t < H by omega, Or.inr ⟨rfl, ht⟩⟩)
      · rw [h2.flags]
        exact sideAt_east c0 hx hy hs0
    have i3 : ((eastStepV W H x y (northStepV W H x y
        (westStepV W H x y (clearIdsV x y u)))).cells x y).edgeIds 3 = -1 := by
      unfold eastStepV
      rw [sideStepV_slot_ne _ _ _ _ _ _ _ _ _ _ _ _ (by decide), i2 3 (by decide) (by decide)]
    have h4 : RunInv W H c0
        (fun s x' y' => (((Visited H x y x' y' ∨ (s = 0 ∧ x' = x ∧ y' = y)) ∨
          (s = 1 ∧ x' = x ∧ y' = y)) ∨ (s = 2 ∧ x' = x ∧ y' = y)) ∨ (s = 3 ∧ x' = x ∧ y' = y))
        (N + (if StartAt W H c0 0 x y then 1 else 0) + (if StartAt W H c0 1 y x then 1 else 0) +
          (if StartAt W H c0 2 x y then 1 else 0) + if StartAt W H c0 3 y x then 1 else 0)
        (southStepV W H x y (eastStepV W H x y (northStepV W H x y
          (westStepV W H x y (clearIdsV x y u))))) := by
      refine h3.afterSide 3 y x ?_ ?_ i3 (decide (y + 1 < H)) x (y + 1)
        (decide (x ≠ 0)) (x - 1) y
        (1 / (W : ℚ), 0) (x * (1 / (W : ℚ)), y * (1 / (H : ℚ)) + 1 / (H : ℚ))
        (x * (1 / (W : ℚ)) + 1 / (W : ℚ), y * (1 / (H : ℚ)) + 1 / (H : ℚ)) ?_ (by simp)
        rfl rfl rfl rfl (cornerB_south W H x y)
      · intro t ht hd
        simp only [runX_three, runY_three, Visited] at hd
        rcases hd with ((hd | hd) | hd) | hd
        · omega
        · exact absurd hd.1 (by decide)
        · exact absurd hd.1 (by decide)
        · exact absurd hd.1 (by decide)
      · intro t ht
        simp only [runX_three, runY_three, Visited]
        left
        left
        left
        omega
      · rw [h3.flags]
        exact sideAt_south c0 hx hy hs0
    rw [e]
    refine h4.congrDone ?_ ?_
    · intro s x' y'
      rw [visited_succ_iff hy]
      constructor
      · rintro ((((hd | hd) | hd) | hd) | hd)
        · exact Or.inl hd
        · exact Or.inr hd.2
        · exact Or.inr hd.2
        · exact Or.inr hd.2
        · exact Or.inr hd.2
      · rintro (hd | hd)
        · exact Or.inl (Or.inl (Or.inl (Or.inl hd)))
        · have : s = 0 ∨ s = 1 ∨ s = 2 ∨ s = 3 := by
            fin_cases s <;> simp
          rcases this with h | h | h | h
          · exact Or.inl (Or.inl (Or.inl (Or.inr ⟨h, hd⟩)))
          · exact Or.inl (Or.inl (Or.inr ⟨h, hd⟩))
          · exact Or.inl (Or.inr ⟨h, hd⟩)
          · exact Or.inr ⟨h, hd⟩
    · unfold cellStarts
      omega
  · have hs' : (u.cells x y).isSet = false := by
      cases hb : (u.cells x y).isSet with
      | true => exact absurd hb hs
      | false => rfl
    have hs0 : (c0 x y).isSet = false := by
      rw [← h.flags]
      exact hs'
    rw [cellStepV_unset hs', cellStarts_of_unset hs0]
    refine h.nonside (clearIdsV_edges u x y) (fun x' y' => clearIdsV_isSet u x y x' y')
      (fun _ _ _ hd => (visited_succ_iff hy).2 (Or.inl hd)) hold ?_
    intro s l p hd
    rcases (visited_succ_iff hy).1 hd with d | ⟨hcx, hcy⟩
    · exact Or.inl d
    · refine Or.inr ⟨not_sideAt_of_unset (by rw [hcx, hcy]; exact hs0), ?_⟩
      unfold idAt
      rw [hcx, hcy, clearIdsV_self]
      rfl

theorem startsInColumn_succ (W H : Nat) (c0 : Nat → Nat → Cell) (x n : Nat) :
    startsInColumn W H c0 x (n + 1) = startsInColumn W H c0 x n + cellStarts W H c0 x n := by
  unfold startsInColumn
  rw [List.range_succ, List.map_append, List.sum_append]
  simp

theorem startsInColumns_succ (W H : Nat) (c0 : Nat → Nat → Cell) (n : Nat) :
    startsInColumns W H c0 (n + 1) =
      startsInColumns W H c0 n + startsInColumn W H c0 n H := by
  unfold startsInColumns
  rw [List.range_succ, List.map_append, List.sum_append]
  simp

/-- The rebuild establishes the run invariant for every cell of the grid. -/
theorem recalcV_runInv (W H : Nat) (v : View) :
    RunInv W H v.cells (fun _ x' y' => Visited H W 0 x' y') (countRuns W H v.cells)
      (recalcV W H v) := by
  have key := recalcV_induct W H
    (fun x y u => RunInv W H v.cells (fun _ x' y' => Visited H x y x' y')
      (startsInColumns W H v.cells x + startsInColumn W H v.cells x y) u) v ?_ ?_ ?_
  · exact key.congrDone (fun _ _ _ => Iff.rfl) (by simp [countRuns, startsInColumn])
  · have hD : ∀ x' y', ¬Visited H 0 0 x' y' := by
      intro x' y' hd
      unfold Visited at hd
      omega
    refine ⟨fun _ _ => rfl, ?_, ?_, ?_, ?_, ?_, ?_, ?_⟩
    · simp [outerEdges, startsInColumns, startsInColumn]
    · intro s l p hd
      exact absurd hd (hD _ _)
    · intro s l p hd
      exact absurd hd (hD _ _)
    · intro s l p hd
      exact absurd hd (hD _ _)
    · intro s l p s' l' p' hd
      exact absurd hd (hD _ _)
    · intro s l p e hd
      exact absurd hd (hD _ _)
    · intro s l p e hd
      exact absurd hd (hD _ _)
  · intro x y u hx hy hu
    refine (hu.afterCell hx hy).congrDone (fun _ _ _ => Iff.rfl) ?_
    rw [startsInColumn_succ]
    omega
  · intro x u hx hu
    refine hu.congrDone (fun _ _ _ => visited_col_iff.symm) ?_
    rw [startsInColumns_succ]
    simp [startsInColumn]

/-- The cells of a maximal run hold the id of the run's first cell. -/
theorem RunInv.run_id {W H : Nat} {c0 : Nat → Nat → Cell} {D : Fin 4 → Nat → Nat → Prop}
    {N : Nat} {u : View} (h : RunInv W H c0 D N u)
    (hD : ∀ s l p, SideAt W H c0 s l p → D s (runX s l p) (runY s l p))
    {s : Fin 4} {l p0 p1 : Nat} (hr : MaxRun W H c0 s l p0 p1) (n : Nat) (hn : p0 + n ≤ p1) :
    idAt u s l (p0 + n) = idAt u s l p0 := by
  induction n with
  | zero => rfl
  | succ n ih =>
    have s1 := hr.2.1 (p0 + (n + 1)) (by omega) hn
    have s0 := hr.2.1 (p0 + n) (by omega) (by omega)
    rw [← ih (by omega)]
    exact h.same s l (p0 + n) (hD _ _ _ s1) (hD _ _ _ s0) s1 s0

/-- The edge of a maximal run: from the first corner of its first cell to the second corner
of its last cell. -/
theorem RunInv.run_edge {W H : Nat} {c0 : Nat → Nat → Cell} {D : Fin 4 → Nat → Nat → Prop}
    {N : Nat} {u : View} (h : RunInv W H c0 D N u)
    (hD : ∀ s l p, SideAt W H c0 s l p → D s (runX s l p) (runY s l p))
    {s : Fin 4} {l p0 p1 : Nat} (hr : MaxRun W H c0 s l p0 p1) :
    (4 ≤ idAt u s l p0 ∧ idAt u s l p0 < (u.edges.length : Int)) ∧
      u.edges[(idAt u s l p0).toNat]? =
        some (cornerA W H s (runX s l p0) (runY s l p0),
          cornerB W H s (runX s l p1) (runY s l p1)) := by
  have h01 := hr.1
  have s0 := hr.2.1 p0 le_rfl hr.1
  have s1 := hr.2.1 p1 hr.1 le_rfl
  have hv := h.valid s l p0 (hD _ _ _ s0) s0
  have hlt : (idAt u s l p0).toNat < u.edges.length := by omega
  have he : u.edges[(idAt u s l p0).toNat]? = some (u.edges[(idAt u s l p0).toNat]) :=
    List.getElem?_eq_getElem hlt
  have h1 : idAt u s l p1 = idAt u s l p0 := by
    have := h.run_id hD hr (p1 - p0) (by omega)
    rw [show p0 + (p1 - p0) = p1 by omega] at this
    exact this
  have hA := h.ptA s l p0 _ (hD _ _ _ s0) ⟨s0, hr.2.2.1⟩ he
  have hB := h.ptB s l p1 (u.edges[(idAt u s l p0).toNat]) (hD _ _ _ s1) s1
    (fun hh => hr.2.2.2 hh.2) (by rw [h1]; exact he)
  refine ⟨hv, ?_⟩
  rw [he, ← hA, ← hB]

/-- Sides of two maximal runs that hold the same id belong to the same run. -/
theorem RunInv.run_unique {W H : Nat} {c0 : Nat → Nat → Cell} {D : Fin 4 → Nat → Nat → Prop}
    {N : Nat} {u : View} (h : RunInv W H c0 D N u)
    (hD : ∀ s l p, SideAt W H c0 s l p → D s (runX s l p) (runY s l p))
    {s s' : Fin 4} {l p0 p1 l' p0' p1' t t' : Nat} (hr : MaxRun W H c0 s l p0 p1)
    (hr' : MaxRun W H c0 s' l' p0' p1') (ht : p0 ≤ t ∧ t ≤ p1) (ht' : p0' ≤ t' ∧ t' ≤ p1')
    (hid : idAt u s l t = idAt u s' l' t') : s = s' ∧ l = l' ∧ p0 = p0' ∧ p1 = p1' := by
  have h01 := hr.1
  have h01' := hr'.1
  have st := hr.2.1 t ht.1 ht.2
  have st' := hr'.2.1 t' ht'.1 ht'.2
  rcases h.dist s l t s' l' t' (hD _ _ _ st) (hD _ _ _ st') st st' hid with ⟨rfl, rfl, hb⟩
  refine ⟨rfl, rfl, ?_, ?_⟩
  · by_contra hne
    rcases Nat.lt_or_gt_of_ne hne with hlt | hgt
    · rcases hr'.2.2.1 with h0 | h0
      · omega
      · apply h0
        by_cases hc : p0' - 1 ≤ p1
        · exact hr.2.1 _ (by omega) hc
        · exact hb _ (by omega)
    · rcases hr.2.2.1 with h0 | h0
      · omega
      · apply h0
        by_cases hc : p0 - 1 ≤ p1'
        · exact hr'.2.1 _ (by omega) hc
        · exact hb _ (by omega)
  · by_contra hne
    rcases Nat.lt_or_gt_of_ne hne with hlt | hgt
    · apply hr.2.2.2
      by_cases hc : p0' ≤ p1 + 1
      · exact hr'.2.1 _ hc (by omega)
      · exact hb _ (by omega)
    · apply hr'.2.2.2
      by_cases hc : p0 ≤ p1' + 1
      · exact hr.2.1 _ hc (by omega)
      · exact hb _ (by omega)

theorem sideAt_pos_lt {W H : Nat} {c0 : Nat → Nat → Cell} {s : Fin 4} {l p : Nat}
    (h : SideAt W H c0 s l p) : p < W + H := by
  have hx := h.1
  have hy := h.2.1
  unfold runX at hx
  unfold runY at hy
  split at hx
  · rename_i hc
    rw [if_pos hc] at hy
    omega
  · omega

/-- Every run start begins a maximal run. -/
theorem maxRun_of_start {W H : Nat} {c0 : Nat → Nat → Cell} {s : Fin 4} {l p0 : Nat}
    (h : StartAt W H c0 s l p0) : ∃ p1, MaxRun W H c0 s l p0 p1 := by
  have key : ∀ k p, p0 ≤ p → (∀ t, p0 ≤ t → t ≤ p → SideAt W H c0 s l t) → W + H - p ≤ k →
      ∃ p1, MaxRun W H c0 s l p0 p1 := by
    intro k
    induction k with
    | zero =>
      intro p hp hall hk
      have := sideAt_pos_lt (hall p hp le_rfl)
      omega
    | succ k ih =>
      intro p hp hall hk
      by_cases hn : SideAt W H c0 s l (p + 1)
      · refine ih (p + 1) (by omega) ?_ (by omega)
        intro t ht0 ht1
        by_cases htp : t = p + 1
        · rw [htp]
          exact hn
        · exact hall t ht0 (by omega)
      · exact ⟨p, hp, hall, h.2, hn⟩
  refine key (W + H) p0 le_rfl ?_ (by omega)
  intro t ht0 ht1
  have : t = p0 := by omega
  rw [this]
  exact h.1

/-- A maximal run is determined by its first position. -/
theorem maxRun_end_unique {W H : Nat} {c0 : Nat → Nat → Cell} {s : Fin 4} {l p0 p1 p1' : Nat}
    (h : MaxRun W H c0 s l p0 p1) (h' : MaxRun W H c0 s l p0 p1') : p1 = p1' := by
  have h01 := h.1
  have h01' := h'.1
  by_contra hne
  rcases Nat.lt_or_gt_of_ne hne with hlt | hgt
  · exact h.2.2.2 (h'.2.1 _ (by omega) (by omega))
  · exact h'.2.2.2 (h.2.1 _ (by omega) (by omega))

/-- C16: after a completed `recalculateEdges` (exact arithmetic; the `isSet` flags are those
of the grid it ran on), every maximal run of boundary sides of one kind (west or east sides
down a column, north or south sides along a row) has one edge id, at least 4, recorded by
all its cells; that edge runs from the first corner of the run's first cell to the second
corner of its last cell; sides of two different maximal runs record different ids; and
the number of edges is 4 plus the number of maximal runs, each run being counted at its
first cell.  For west sides this reads: a maximal run of rows `y0 .. y1` of column
`x ≥ 1` in which `(x, y)` is set and `(x - 1, y)` is unset shares the edge from
`(x * cw, y0 * ch)` to `(x * cw, (y1 + 1) * ch)`. -/
theorem recalculateEdges_maximal_runs (W H : Nat) (g g' : SFMLGrid)
    (h : recalculateEdges W H g = some g') :
    (∀ x y c, x < W → y < H → getCell g'.mGrid x y = some c →
      c.isSet = ((viewOf g).cells x y).isSet) ∧
    (∀ s l p0 p1, MaxRun W H (viewOf g).cells s l p0 p1 →
      ∃ id : Int, 4 ≤ id ∧ id < (g'.mEdges.length : Int) ∧
        g'.mEdges[id.toNat]? =
          some (cornerA W H s (runX s l p0) (runY s l p0),
            cornerB W H s (runX s l p1) (runY s l p1)) ∧
        ∀ t, p0 ≤ t → t ≤ p1 →
          ∃ c, getCell g'.mGrid (runX s l t) (runY s l t) = some c ∧ c.edgeIds s = id) ∧
    (∀ s l p0 p1 s' l' p0' p1' t t' c c', MaxRun W H (viewOf g).cells s l p0 p1 →
      MaxRun W H (viewOf g).cells s' l' p0' p1' → p0 ≤ t → t ≤ p1 → p0' ≤ t' → t' ≤ p1' →
      getCell g'.mGrid (runX s l t) (runY s l t) = some c →
      getCell g'.mGrid (runX s' l' t') (runY s' l' t') = some c' →
      c.edgeIds s = c'.edgeIds s' → s = s' ∧ l = l' ∧ p0 = p0' ∧ p1 = p1') ∧
    g'.mEdges.length = 4 + countRuns W H (viewOf g).cells ∧
    (∀ s l p0, StartAt W H (viewOf g).cells s l p0 ↔
      ∃ p1, MaxRun W H (viewOf g).cells s l p0 p1) ∧
    (∀ s l p0 p1 p1', MaxRun W H (viewOf g).cells s l p0 p1 →
      MaxRun W H (viewOf g).cells s l p0 p1' → p1 = p1') ∧
    (∀ x y0 y1, 1 ≤ x → x < W → y0 ≤ y1 → y1 < H →
      (∀ y, y0 ≤ y → y ≤ y1 → ((viewOf g).cells x y).isSet = true ∧
        ((viewOf g).cells (x - 1) y).isSet = false) →
      (y0 = 0 ∨ ¬(((viewOf g).cells x (y0 - 1)).isSet = true ∧
        ((viewOf g).cells (x - 1) (y0 - 1)).isSet = false)) →
      (y1 + 1 = H ∨ ¬(((viewOf g).cells x (y1 + 1)).isSet = true ∧
        ((viewOf g).cells (x - 1) (y1 + 1)).isSet = false)) →
      ∃ id : Int, 4 ≤ id ∧
        g'.mEdges[id.toNat]? =
          some ((x * (1 / (W : ℚ)), y0 * (1 / (H : ℚ))),
            (x * (1 / (W : ℚ)), (y1 + 1) * (1 / (H : ℚ)))) ∧
        ∀ y, y0 ≤ y → y ≤ y1 → ∃ c, getCell g'.mGrid x y = some c ∧ c.edgeIds 0 = id) := by
  have hr := rep_of_recalculateEdges h
  have inv := recalcV_runInv W H (viewOf g)
  have hD : ∀ (s : Fin 4) (l p : Nat), SideAt W H (viewOf g).cells s l p →
      (fun (_ : Fin 4) x' y' => Visited H W 0 x' y') s (runX s l p) (runY s l p) :=
    fun s l p hs => ⟨hs.2.1, Or.inl hs.1⟩
  have hruns : ∀ s l p0 p1, MaxRun W H (viewOf g).cells s l p0 p1 →
      ∃ id : Int, 4 ≤ id ∧ id < (g'.mEdges.length : Int) ∧
        g'.mEdges[id.toNat]? =
          some (cornerA W H s (runX s l p0) (runY s l p0),
            cornerB W H s (runX s l p1) (runY s l p1)) ∧
        ∀ t, p0 ≤ t → t ≤ p1 →
          ∃ c, getCell g'.mGrid (runX s l t) (runY s l t) = some c ∧ c.edgeIds s = id := by
    intro s l p0 p1 hrun
    rcases inv.run_edge hD hrun with ⟨hv, he⟩
    refine ⟨idAt (recalcV W H (viewOf g)) s l p0, hv.1, ?_, ?_, ?_⟩
    · rw [hr.1]
      exact hv.2
    · rw [hr.1]
      exact he
    · intro t ht0 ht1
      have hs := hrun.2.1 t ht0 ht1
      refine ⟨_, hr.get hs.1 hs.2.1, ?_⟩
      have := inv.run_id hD hrun (t - p0) (by omega)
      rw [show p0 + (t - p0) = t by omega] at this
      exact this
  refine ⟨?_, hruns, ?_, ?_, ?_, ?_, ?_⟩
  · intro x y c hx hy hc
    rw [← hr.2.2 x y c hc, recalcV_isSet]
  · intro s l p0 p1 s' l' p0' p1' t t' c c' hrun hrun' h0 h1 h0' h1' hc hc' hid
    rw [← hr.2.2 _ _ c hc, ← hr.2.2 _ _ c' hc'] at hid
    exact inv.run_unique hD hrun hrun' ⟨h0, h1⟩ ⟨h0', h1'⟩ hid
  · rw [hr.1]
    exact inv.len
  · intro s l p0
    constructor
    · exact maxRun_of_start
    · rintro ⟨p1, hrun⟩
      exact ⟨hrun.2.1 p0 le_rfl hrun.1, hrun.2.2.1⟩
  · intro s l p0 p1 p1' hrun hrun'
    exact maxRun_end_unique hrun hrun'
  · intro x y0 y1 hx1 hxW hy01 hy1H hall hfirst hlast
    have hside : ∀ y, SideAt W H (viewOf g).cells 0 x y ↔
        y < H ∧ ((viewOf g).cells x y).isSet = true ∧
          ((viewOf g).cells (x - 1) y).isSet = false := by
      intro y
      have hx0 : x ≠ 0 := by omega
      simp [SideAt, Side, runX_zero, runY_zero, hxW, hx0]
    have hrun : MaxRun W H (viewOf g).cells 0 x y0 y1 := by
      refine ⟨hy01, ?_, ?_, ?_⟩
      · intro t ht0 ht1
        exact (hside t).2 ⟨by omega, hall t ht0 ht1⟩
      · rcases hfirst with h0 | h0
        · exact Or.inl h0
        · exact Or.inr fun hs => h0 ((hside _).1 hs).2
      · intro hs
        rcases hlast with h0 | h0
        · have := ((hside _).1 hs).1
          omega
        · exact h0 ((hside _).1 hs).2
    rcases hruns 0 x y0 y1 hrun with ⟨id, h4, _, he, hcells⟩
    refine ⟨id, h4, ?_, hcells⟩
    rw [he]
    simp only [cornerA, cornerB, runX_zero, runY_zero]
    simp
    ring

/-- Witness for C16: a 2 × 2 grid whose column 1 is set and whose column 0 is unset, with
stale ids and a stale edge list.  The west sides of `(1, 0)` and `(1, 1)` form the only
maximal run; both cells record the id of the edge from `(1/2, 0)` to `(1/2, 1)`, and there
are `4 + 1` edges. -/
theorem recalculateEdges_maximal_runs_witness :
    ∃ g', recalculateEdges 2 2
        ⟨[[⟨false, fun _ => 7⟩, ⟨false, fun _ => 7⟩], [⟨true, fun _ => 7⟩, ⟨true, fun _ => 7⟩]],
          [((5, 5), (6, 6))]⟩ = some g' ∧
      g'.mEdges.length = 4 + 1 ∧
      ∃ id : Int, 4 ≤ id ∧ g'.mEdges[id.toNat]? = some ((1 / 2, 0), (1 / 2, 1)) ∧
        ∀ y, 0 ≤ y → y ≤ 1 → ∃ c, getCell g'.mGrid 1 y = some c ∧ c.edgeIds 0 = id := by
  have hs : Stored 2 2 [[(⟨false, fun _ => 7⟩ : Cell), ⟨false, fun _ => 7⟩],
      [⟨true, fun _ => 7⟩, ⟨true, fun _ => 7⟩]] := by
    unfold Stored
    decide
  have hrep : Rep 2 2
      (⟨[[⟨false, fun _ => 7⟩, ⟨false, fun _ => 7⟩], [⟨true, fun _ => 7⟩, ⟨true, fun _ => 7⟩]],
        [((5, 5), (6, 6))]⟩ : SFMLGrid) _ := rep_viewOf hs
  rcases recalculateEdges_rep hrep with ⟨g', hg', _⟩
  have key := recalculateEdges_maximal_runs 2 2 _ g' hg'
  have hall : ∀ y, 0 ≤ y → y ≤ 1 →
      ((viewOf ⟨[[⟨false, fun _ => 7⟩, ⟨false, fun _ => 7⟩],
          [⟨true, fun _ => 7⟩, ⟨true, fun _ => 7⟩]], [((5, 5), (6, 6))]⟩).cells 1 y).isSet =
          true ∧
        ((viewOf ⟨[[⟨false, fun _ => 7⟩, ⟨false, fun _ => 7⟩],
          [⟨true, fun _ => 7⟩, ⟨true, fun _ => 7⟩]], [((5, 5), (6, 6))]⟩).cells (1 - 1) y).isSet =
          false := by
    intro y _ h1
    interval_cases y
    · exact ⟨rfl, rfl⟩
    · exact ⟨rfl, rfl⟩
  rcases key.2.2.2.2.2.2 1 0 1 (by decide) (by decide) (by decide) (by decide) hall
    (Or.inl rfl) (Or.inl rfl) with ⟨id, h4, he, hc⟩
  refine ⟨g', hg', ?_, id, h4, ?_, hc⟩
  · rw [key.2.2.2.1]
    decide
  · rw [he]
    norm_num

/-! ## Rounding error -/

/-- Rounding to the nearest integer moves a value by at most one half. -/
theorem roundEven_error (t : ℚ) : |(roundEven t : ℚ) - t| ≤ 1 / 2 := by
  have h1 : (⌊t⌋ : ℚ) ≤ t := Int.floor_le t
  have h2 : t < (⌊t⌋ : ℚ) + 1 := Int.lt_floor_add_one t
  unfold roundEven
  rw [abs_le]
  split_ifs with a b c
  · constructor <;> linarith
  · push_cast
    constructor <;> linarith
  · constructor <;> linarith
  · push_cast
    constructor <;> linarith

/-- Rounding to `p` significant bits changes a value by at most the fraction `2 ^ (-p)` of
its magnitude. -/
theorem roundNE_error (p : Nat) (q : ℚ) : |roundNE p q - q| ≤ |q| / 2 ^ p := by
  unfold roundNE
  split_ifs with h
  · have hs : (0 : ℚ) < (2 : ℚ) ^ (binaryExponent 2000 |q| - ((p : Int) - 1)) :=
      zpow_pos (by norm_num) _
    have he := roundEven_error (q / (2 : ℚ) ^ (binaryExponent 2000 |q| - ((p : Int) - 1)))
    have hsplit : (2 : ℚ) ^ (binaryExponent 2000 |q| - ((p : Int) - 1)) =
        2 * (2 : ℚ) ^ binaryExponent 2000 |q| / 2 ^ p := by
      rw [show binaryExponent 2000 |q| - ((p : Int) - 1) =
        1 + binaryExponent 2000 |q| - (p : Int) by ring]
      rw [zpow_sub₀ (by norm_num), zpow_add₀ (by norm_num), zpow_one, zpow_natCast]
    generalize (2 : ℚ) ^ (binaryExponent 2000 |q| - ((p : Int) - 1)) = s at hs he hsplit
    generalize (roundEven (q / s) : ℚ) = r at he
    have hq : q = q / s * s := by field_simp
    have hrw : r * s - q = (r - q / s) * s := by
      rw [sub_mul, ← hq]
    rw [hrw, abs_mul, abs_of_pos hs]
    have hp : (0 : ℚ) < 2 ^ p := pow_pos (by norm_num) _
    calc |r - q / s| * s ≤ 1 / 2 * s := mul_le_mul_of_nonneg_right he hs.le
      _ = (2 : ℚ) ^ binaryExponent 2000 |q| / 2 ^ p := by rw [hsplit]; ring
      _ ≤ |q| / 2 ^ p := div_le_div_of_nonneg_right h.1 hp.le
  · rw [sub_self, abs_zero]
    positivity

/-- A `float` differs from the value it rounds by at most the fraction `2 ^ (-24)`. -/
theorem f32_error (q : ℚ) : |f32 q - q| ≤ |q| / 2 ^ 24 := roundNE_error 24 q

theorem f32_le (q : ℚ) (hq : 0 ≤ q) : f32 q ≤ q * (1 + 1 / 16777216) := by
  have h := (abs_le.1 (f32_error q)).2
  rw [abs_of_nonneg hq] at h
  norm_num at h
  linarith

theorem le_f32 (q : ℚ) (hq : 0 ≤ q) : q * (1 - 1 / 16777216) ≤ f32 q := by
  have h := (abs_le.1 (f32_error q)).1
  rw [abs_of_nonneg hq] at h
  norm_num at h
  linarith

/-- The cell index computed in `float` for a pixel at least one pixel inside a viewport of at
most `2 ^ 21` pixels stays below the number of cells. -/
theorem cell_index_lt (W x : Nat) (v : ℚ) (hW : 0 < W) (hx : (x : ℚ) + 1 ≤ v)
    (hv : v ≤ 2 ^ 21) : f32 (f32 (x : ℚ) / f32 (v / f32 (W : ℚ))) < W := by
  have hWq : (0 : ℚ) < W := by exact_mod_cast hW
  have hxq : (0 : ℚ) ≤ x := Nat.cast_nonneg x
  have hvpos : (0 : ℚ) < v := by linarith
  have hW1 := f32_le (W : ℚ) hWq.le
  have hW2 := le_f32 (W : ℚ) hWq.le
  have hW' : 0 < f32 (W : ℚ) := by
    have : (0 : ℚ) < (W : ℚ) * (1 - 1 / 16777216) := mul_pos hWq (by norm_num)
    linarith
  have hB : 0 < v / f32 (W : ℚ) := div_pos hvpos hW'
  have hC2 := le_f32 (v / f32 (W : ℚ)) hB.le
  have hC : 0 < f32 (v / f32 (W : ℚ)) := by
    have : (0 : ℚ) < v / f32 (W : ℚ) * (1 - 1 / 16777216) := mul_pos hB (by norm_num)
    linarith
  have hX1 := f32_le (x : ℚ) hxq
  have hX0 : 0 ≤ f32 (x : ℚ) := by
    have := le_f32 (x : ℚ) hxq
    have : (0 : ℚ) ≤ (x : ℚ) * (1 - 1 / 16777216) := mul_nonneg hxq (by norm_num)
    linarith
  have hQ : 0 ≤ f32 (x : ℚ) / f32 (v / f32 (W : ℚ)) := div_nonneg hX0 hC.le
  have hR := f32_le _ hQ
  by_contra hcon
  rw [not_lt] at hcon
  generalize f32 (W : ℚ) = A at hW1 hW2 hW' hB hC2 hC hQ hR hcon
  generalize hBdef : v / A = B at hB hC2 hC hQ hR hcon
  generalize f32 B = C at hC2 hC hQ hR hcon
  generalize f32 (x : ℚ) = X at hX1 hX0 hQ hR hcon
  generalize hQdef : X / C = Q at hQ hR hcon
  generalize f32 Q = R at hR hcon
  have hQC : Q * C = X := by
    rw [← hQdef]
    field_simp
  have hBA : B * A = v := by
    rw [← hBdef]
    field_simp
  -- W * C ≤ X (1 + ε)
  have s1 : (W : ℚ) * C ≤ X * (1 + 1 / 16777216) := by
    calc (W : ℚ) * C ≤ Q * (1 + 1 / 16777216) * C :=
          mul_le_mul_of_nonneg_right (le_trans hcon hR) hC.le
      _ = X * (1 + 1 / 16777216) := by rw [← hQC]; ring
  -- W * B (1 - ε) ≤ x (1 + ε)^2
  have s2 : (W : ℚ) * (B * (1 - 1 / 16777216)) ≤ (x : ℚ) * (1 + 1 / 16777216) ^ 2 := by
    calc (W : ℚ) * (B * (1 - 1 / 16777216)) ≤ (W : ℚ) * C :=
          mul_le_mul_of_nonneg_left hC2 hWq.le
      _ ≤ X * (1 + 1 / 16777216) := s1
      _ ≤ (x : ℚ) * (1 + 1 / 16777216) * (1 + 1 / 16777216) :=
          mul_le_mul_of_nonneg_right hX1 (by norm_num)
      _ = (x : ℚ) * (1 + 1 / 16777216) ^ 2 := by ring
  -- multiply by A
  have s3 : (W : ℚ) * (v * (1 - 1 / 16777216)) ≤
      (x : ℚ) * (1 + 1 / 16777216) ^ 2 * ((W : ℚ) * (1 + 1 / 16777216)) := by
    calc (W : ℚ) * (v * (1 - 1 / 16777216)) = (W : ℚ) * (B * (1 - 1 / 16777216)) * A := by
          rw [← hBA]; ring
      _ ≤ (x : ℚ) * (1 + 1 / 16777216) ^ 2 * A := mul_le_mul_of_nonneg_right s2 hW'.le
      _ ≤ (x : ℚ) * (1 + 1 / 16777216) ^ 2 * ((W : ℚ) * (1 + 1 / 16777216)) :=
          mul_le_mul_of_nonneg_left hW1 (by positivity)
  have s4 : v * (1 - 1 / 16777216) ≤ (x : ℚ) * (1 + 1 / 16777216) ^ 3 := by
    have : (W : ℚ) * (v * (1 - 1 / 16777216)) ≤ (W : ℚ) * ((x : ℚ) * (1 + 1 / 16777216) ^ 3) := by
      calc (W : ℚ) * (v * (1 - 1 / 16777216)) ≤ _ := s3
        _ = (W : ℚ) * ((x : ℚ) * (1 + 1 / 16777216) ^ 3) := by ring
    exact le_of_mul_le_mul_left this hWq
  have s5 : (x : ℚ) * (1 + 1 / 16777216) ^ 3 ≤ (v - 1) * (1 + 1 / 16777216) ^ 3 :=
    mul_le_mul_of_nonneg_right (by linarith) (by positivity)
  have s6 := le_trans s4 s5
  norm_num at s6 hv
  linarith

/-- C13 (as amended): the screen-to-cell mapping applies no clamping; computed in `float` as
in the source, a screen point at least one pixel inside a viewport of at most `2 ^ 21`
pixels (`screenX + 1 ≤ viewportWidth ≤ 2097152`) gets a cell x index below the grid width,
and likewise for y and the height. -/
theorem screenToCell_inside (W H : Nat) (viewSize : Vector2f) (x y : Nat) (hW : 0 < W)
    (hH : 0 < H) :
    ((x : ℚ) + 1 ≤ viewSize.1 → viewSize.1 ≤ 2 ^ 21 → (screenToCell W H viewSize x y).1 < W) ∧
    ((y : ℚ) + 1 ≤ viewSize.2 → viewSize.2 ≤ 2 ^ 21 →
      (screenToCell W H viewSize x y).2 < H) := by
  have key : ∀ (N n : Nat) (v : ℚ), 0 < N → (n : ℚ) + 1 ≤ v → v ≤ 2 ^ 21 →
      Int.toNat ⌊f32 (f32 (n : ℚ) / f32 (v / f32 (N : ℚ)))⌋ < N := by
    intro N n v hN hn hv
    have hlt := cell_index_lt N n v hN hn hv
    have hfl : ⌊f32 (f32 (n : ℚ) / f32 (v / f32 (N : ℚ)))⌋ < (N : Int) := by
      rw [Int.floor_lt]
      exact_mod_cast hlt
    omega
  exact ⟨fun hx hv => key W x viewSize.1 hW hx hv, fun hy hv => key H y viewSize.2 hH hy hv⟩

/-- Witness for C13: the pixel `(799, 0)` of an 800×800 viewport on the 25×25 grid. -/
theorem screenToCell_inside_witness :
    (screenToCell 25 25 (800, 800) 799 0).1 < 25 ∧
      (screenToCell 25 25 (800, 800) 799 0).2 < 25 :=
  ⟨(screenToCell_inside 25 25 (800, 800) 799 0 (by decide) (by decide)).1
      (by norm_num) (by norm_num),
    (screenToCell_inside 25 25 (800, 800) 799 0 (by decide) (by decide)).2
      (by norm_num) (by norm_num)⟩

/-- Counterexample to C13 as stated: on the 25×25 grid with an 800×800 viewport the screen
point `(800, 400)` on the right border maps to the cell `(25, 12)`, outside the grid, and
reading that cell leaves the storage. -/
theorem screenToCell_right_border_outside :
    screenToCell 25 25 (800, 800) 800 400 = (25, 12) ∧
      ¬((screenToCell 25 25 (800, 800) 800 400).1 < 25) ∧
      getCellByScreenCoords 25 25
        ⟨List.replicate 25 (List.replicate 25 ⟨false, noEdgeIds⟩), outerEdges⟩ (800, 800)
        800 400 = none := by
  decide!

/-! ## The intersection kernel in `float` -/

/-- C8 (as amended): when `getIntersectionPoint` reports a hit of the ray segment from
`point` to `point + 10000 (cos direction, sin direction)` with at least one edge (an edge
parallel or nearly parallel to the ray is never reported, even when it overlaps the ray),
`findClosestEdgeRaycast` returns the reported point `p` of some edge, in viewport
coordinates, together with `sqrt` of the squared Euclidean distance from `point` to `p`;
no edge has a reported point at a smaller squared distance, and an edge whose reported
point is equally near comes no earlier in the list.  `sqrt` is strictly increasing on the
non-negative numbers, and the distances stay below the initial
`numeric_limits<double>::max()`. -/
theorem findClosestEdgeRaycast_nearest (cos sin sqrt : ℚ → ℚ) (mEdges : List Edge)
    (windowSize point : Vector2f) (direction : ℚ)
    (hsqrt : ∀ a b : ℚ, 0 ≤ a → a < b → sqrt a < sqrt b)
    (hfin : ∀ e ∈ mEdges, ∀ q,
      edgeHit windowSize point (rayVector cos sin point direction) e = some q →
        sqrt ((q.1 - point.1) ^ 2 + (q.2 - point.2) ^ 2) < doubleMax)
    (hhit : ∃ e ∈ mEdges,
      (edgeHit windowSize point (rayVector cos sin point direction) e).isSome = true) :
    ∃ (i : Nat) (e : Edge) (p : Vector2f), mEdges[i]? = some e ∧
      edgeHit windowSize point (rayVector cos sin point direction) e = some p ∧
      findClosestEdgeRaycast cos sin sqrt mEdges windowSize point direction =
        (p, sqrt ((p.1 - point.1) ^ 2 + (p.2 - point.2) ^ 2)) ∧
      ∀ (j : Nat) (e' : Edge) (q : Vector2f), mEdges[j]? = some e' →
        edgeHit windowSize point (rayVector cos sin point direction) e' = some q →
        (p.1 - point.1) ^ 2 + (p.2 - point.2) ^ 2 ≤
            (q.1 - point.1) ^ 2 + (q.2 - point.2) ^ 2 ∧
          ((q.1 - point.1) ^ 2 + (q.2 - point.2) ^ 2 =
            (p.1 - point.1) ^ 2 + (p.2 - point.2) ^ 2 → i ≤ j) := by
  have hd : ∀ q : Vector2f, hitDistance sqrt point q =
      sqrt ((q.1 - point.1) ^ 2 + (q.2 - point.2) ^ 2) := by
    intro q
    unfold hitDistance
    congr 1
    ring
  have hfin' : ∀ e ∈ mEdges, ∀ q, getIntersectionPoint point (rayVector cos sin point direction)
      (edgeToScreen windowSize e).1 (edgeToScreen windowSize e).2 = some q →
      hitDistance sqrt point q < doubleMax := by
    intro e he q hq
    rw [hd]
    exact hfin e he q hq
  have hnn : ∀ q : Vector2f, 0 ≤ (q.1 - point.1) ^ 2 + (q.2 - point.2) ^ 2 :=
    fun q => by positivity
  rcases raycast_fold_inv sqrt windowSize point (rayVector cos sin point direction) mEdges hfin'
    with ⟨_, hnone⟩ | ⟨i, e, h1, h2, h3, h4, h5⟩
  · rcases hhit with ⟨e, he, hsome⟩
    have := hnone e he
    unfold edgeHit at hsome
    rw [this] at hsome
    exact absurd hsome (by simp)
  · refine ⟨i, e, (findClosestEdgeRaycast cos sin sqrt mEdges windowSize point direction).1,
      h1, h2, ?_, ?_⟩
    · refine Prod.ext rfl ?_
      show (findClosestEdgeRaycast cos sin sqrt mEdges windowSize point direction).2 = _
      rw [← hd]
      exact h3
    · intro j e' q hj hq
      have hmem : e' ∈ mEdges := List.getElem?_mem hj
      have hle := h4 e' hmem q hq
      have h3' : (mEdges.foldl (raycastStep sqrt windowSize point
          (rayVector cos sin point direction)) ((0, 0), doubleMax)).2 =
          sqrt (((findClosestEdgeRaycast cos sin sqrt mEdges windowSize point direction).1.1 -
            point.1) ^ 2 +
            ((findClosestEdgeRaycast cos sin sqrt mEdges windowSize point direction).1.2 -
              point.2) ^ 2) := by
        rw [← hd]
        exact h3
      rw [h3', hd] at hle
      constructor
      · by_contra hlt
        rw [not_le] at hlt
        exact absurd (hsqrt _ _ (hnn q) hlt) (not_lt.2 hle)
      · intro heq
        by_contra hji
        rw [not_le] at hji
        have hlt := h5 j e' q hji hj hq
        rw [h3', hd, heq] at hlt
        exact lt_irrefl _ hlt

/-- Witness for C8: from `(400, 400)` in direction `0` on an 800×800 viewport, with the edge
at `x = 600` first, two edges at `x = 500` next and the top border last.  The ray reaches
the first edge at `(600, 400)` and both edges at `x = 500` at `(500, 400)`; the top border is
parallel to the ray.  The result is the point of the second edge, the earlier of the two
nearest.  Any strictly increasing function serves as `sqrt`; here the identity. -/
theorem findClosestEdgeRaycast_nearest_witness :
    findClosestEdgeRaycast (fun _ => 1) (fun _ => 0) (fun q => q)
        [((3 / 4, 0), (3 / 4, 1)), ((5 / 8, 0), (5 / 8, 1)), ((5 / 8, 1 / 4), (5 / 8, 3 / 4)),
          ((0, 0), (1, 0))] (800, 800) (400, 400) 0 = ((500, 400), 10000) ∧
    ∃ (i : Nat) (e : Edge) (p : Vector2f),
      [(((3 / 4 : ℚ), (0 : ℚ)), ((3 / 4 : ℚ), (1 : ℚ))), ((5 / 8, 0), (5 / 8, 1)),
        ((5 / 8, 1 / 4), (5 / 8, 3 / 4)), ((0, 0), (1, 0))][i]? = some e ∧
      edgeHit (800, 800) (400, 400) (rayVector (fun _ => 1) (fun _ => 0) (400, 400) 0) e =
        some p ∧
      findClosestEdgeRaycast (fun _ => 1) (fun _ => 0) (fun q => q)
        [((3 / 4, 0), (3 / 4, 1)), ((5 / 8, 0), (5 / 8, 1)), ((5 / 8, 1 / 4), (5 / 8, 3 / 4)),
          ((0, 0), (1, 0))] (800, 800) (400, 400) 0 =
        (p, (fun q : ℚ => q) ((p.1 - (400, 400).1) ^ 2 + (p.2 - ((400 : ℚ), (400 : ℚ)).2) ^ 2)) ∧
      ∀ (j : Nat) (e' : Edge) (q : Vector2f),
        [(((3 / 4 : ℚ), (0 : ℚ)), ((3 / 4 : ℚ), (1 : ℚ))), ((5 / 8, 0), (5 / 8, 1)),
          ((5 / 8, 1 / 4), (5 / 8, 3 / 4)), ((0, 0), (1, 0))][j]? = some e' →
        edgeHit (800, 800) (400, 400) (rayVector (fun _ => 1) (fun _ => 0) (400, 400) 0) e' =
          some q →
        (p.1 - ((400 : ℚ), (400 : ℚ)).1) ^ 2 + (p.2 - ((400 : ℚ), (400 : ℚ)).2) ^ 2 ≤
            (q.1 - ((400 : ℚ), (400 : ℚ)).1) ^ 2 + (q.2 - ((400 : ℚ), (400 : ℚ)).2) ^ 2 ∧
          ((q.1 - ((400 : ℚ), (400 : ℚ)).1) ^ 2 + (q.2 - ((400 : ℚ), (400 : ℚ)).2) ^ 2 =
            (p.1 - ((400 : ℚ), (400 : ℚ)).1) ^ 2 + (p.2 - ((400 : ℚ), (400 : ℚ)).2) ^ 2 →
            i ≤ j) := by
  have h0 : edgeHit (800, 800) (400, 400) (rayVector (fun _ => 1) (fun _ => 0) (400, 400) 0)
      ((3 / 4, 0), (3 / 4, 1)) = some (600, 400) := by decide!
  have h1 : edgeHit (800, 800) (400, 400) (rayVector (fun _ => 1) (fun _ => 0) (400, 400) 0)
      ((5 / 8, 0), (5 / 8, 1)) = some (500, 400) := by decide!
  have h2 : edgeHit (800, 800) (400, 400) (rayVector (fun _ => 1) (fun _ => 0) (400, 400) 0)
      ((5 / 8, 1 / 4), (5 / 8, 3 / 4)) = some (500, 400) := by decide!
  have h3 : edgeHit (800, 800) (400, 400) (rayVector (fun _ => 1) (fun _ => 0) (400, 400) 0)
      ((0, 0), (1, 0)) = none := by decide!
  refine ⟨by decide!, ?_⟩
  refine findClosestEdgeRaycast_nearest (fun _ => 1) (fun _ => 0) (fun q => q)
    [((3 / 4, 0), (3 / 4, 1)), ((5 / 8, 0), (5 / 8, 1)), ((5 / 8, 1 / 4), (5 / 8, 3 / 4)),
      ((0, 0), (1, 0))] (800, 800) (400, 400) 0 (fun a b _ h => h) ?_ ?_
  · intro e he q hq
    simp only [List.mem_cons, List.mem_singleton, List.not_mem_nil, or_false] at he
    rcases he with rfl | rfl | rfl | rfl
    · rw [h0] at hq
      injection hq with hq
      rw [← hq]
      unfold doubleMax
      norm_num
    · rw [h1] at hq
      injection hq with hq
      rw [← hq]
      unfold doubleMax
      norm_num
    · rw [h2] at hq
      injection hq with hq
      rw [← hq]
      unfold doubleMax
      norm_num
    · rw [h3] at hq
      exact absurd hq (by simp)
  · exact ⟨((3 / 4, 0), (3 / 4, 1)), List.mem_cons_self _ _, by rw [h0]; rfl⟩

/-- Counterexample to C8 as stated: with the four outer edges on an 800×800 viewport, the
ray from `(400, 0)` in direction `0` (where `cos` is `1` and `sin` is `0`) runs along the top
border.  The origin itself lies on the top edge `(0,0)-(800,0)` and on the ray, so an edge
intersects the ray at distance `0`; the source reports no intersection for the parallel top
edge and returns the corner `(800, 0)` of the right edge at distance `400`.  `sqrt` is given
on the one value it is applied to. -/
theorem findClosestEdgeRaycast_misses_overlapping_edge :
    outerEdges[0]? = some ((0, 0), (1, 0)) ∧
    edgeToScreen (800, 800) ((0, 0), (1, 0)) = ((0, 0), (800, 0)) ∧
    rayVector (fun _ => 1) (fun _ => 0) (400, 0) 0 = (10400, 0) ∧
    ((400 : ℚ), (0 : ℚ)) = (0 + 1 / 2 * (800 - 0), 0 + 1 / 2 * (0 - 0)) ∧
    ((400 : ℚ), (0 : ℚ)) = (400 + 0 * (10400 - 400), 0 + 0 * (0 - 0)) ∧
    edgeHit (800, 800) (400, 0) (rayVector (fun _ => 1) (fun _ => 0) (400, 0) 0)
      ((0, 0), (1, 0)) = none ∧
    findClosestEdgeRaycast (fun _ => 1) (fun _ => 0) (fun q => if q = 160000 then 400 else 0)
      outerEdges (800, 800) (400, 0) 0 = ((800, 0), 400) ∧
    ((400 : ℚ) - 400) ^ 2 + ((0 : ℚ) - 0) ^ 2 < ((800 : ℚ) - 400) ^ 2 + ((0 : ℚ) - 0) ^ 2 := by
  decide!

/-! ## The polygon of the sorted hits -/

/-- The sort of `main` leaves no hit before one of smaller angle. -/
theorem sortHits_pairwise (hits : List RayHit) :
    (sortHits hits).Pairwise (fun a b => ¬angleLess b a) :=
  @List.sorted_insertionSort RayHit (fun a b => ¬angleLess b a) _
    ⟨fun a b => by
      unfold angleLess
      rcases lt_or_le b.angle a.angle with h | h
      · exact Or.inr (not_lt.2 h.le)
      · exact Or.inl (not_lt.2 h)⟩
    ⟨fun a b c hab hbc => by
      unfold angleLess at hab hbc ⊢
      exact not_lt.2 (le_trans (not_lt.1 hab) (not_lt.1 hbc))⟩ hits

/-- Two arrangements of the same hits in which no hit comes before one of smaller angle show
the same sequence of angles. -/
theorem sorted_angles_unique {s s' : List RayHit} (hperm : s.Perm s')
    (hs : s.Pairwise (fun a b => ¬angleLess b a))
    (hs' : s'.Pairwise (fun a b => ¬angleLess b a)) :
    s.map RayHit.angle = s'.map RayHit.angle := by
  refine @List.eq_of_perm_of_sorted ℚ (fun a b => a ≤ b) _ _ _ (hperm.map _) ?_ ?_
  · exact List.pairwise_map.2 (hs.imp fun h => not_lt.1 h)
  · exact List.pairwise_map.2 (hs'.imp fun h => not_lt.1 h)

/-- C20: with `s = sortHits hits` the hits as `main` sorts them with its comparator, `s` is a
permutation of the input in ascending order of angle; the polygon of `n` hits has `3 * n`
vertices (none for `n = 0`); the vertices `3i, 3i+1, 3i+2` are the viewpoint, `s[i].hitPoint`
and `s[(i - 1) mod n].hitPoint`; and for every position `j` the circularly adjacent pair
`(s[j], s[(j + 1) mod n])` is the pair of hits of exactly one triangle, the one with index
`(j + 1) mod n`.  Whatever order a sort gives to hits of equal angle, its result shows the
same sequence of angles as `s` and the polygon is built from it in the same way. -/
theorem buildPolygon_sortHits (mouse : Vector2f) (hits : List RayHit) :
    (sortHits hits).Perm hits ∧
    (sortHits hits).Pairwise (fun a b => a.angle ≤ b.angle) ∧
    (buildPolygon sortHits mouse hits).length = 3 * hits.length ∧
    (hits = [] → buildPolygon sortHits mouse hits = []) ∧
    (∀ i, i < hits.length →
      ∃ cur prev, (sortHits hits)[i]? = some cur ∧
        (sortHits hits)[(i + hits.length - 1) % hits.length]? = some prev ∧
        (((buildPolygon sortHits mouse hits).drop (3 * i)).take 3).map Vertex.position =
          [mouse, cur.hitPoint, prev.hitPoint]) ∧
    (∀ j, j < hits.length →
      (j + 1) % hits.length < hits.length ∧
      ((j + 1) % hits.length + hits.length - 1) % hits.length = j ∧
      ∀ i, i < hits.length → (i + hits.length - 1) % hits.length = j →
        i = (j + 1) % hits.length) ∧
    (∀ sort : List RayHit → List RayHit, (sort hits).Perm hits →
      (sort hits).Pairwise (fun a b => ¬angleLess b a) →
      (sort hits).map RayHit.angle = (sortHits hits).map RayHit.angle ∧
      (buildPolygon sort mouse hits).length = 3 * hits.length ∧
      ∀ i, i < hits.length →
        ∃ cur prev, (sort hits)[i]? = some cur ∧
          (sort hits)[(i + hits.length - 1) % hits.length]? = some prev ∧
          (((buildPolygon sort mouse hits).drop (3 * i)).take 3).map Vertex.position =
            [mouse, cur.hitPoint, prev.hitPoint]) := by
  have hperm : (sortHits hits).Perm hits := List.perm_insertionSort _ _
  have hsorted := sortHits_pairwise hits
  have hp := buildPolygon_of_perm sortHits mouse hits hperm
  refine ⟨hperm, hsorted.imp fun h => not_lt.1 h, hp.1, hp.2.1, hp.2.2.1, hp.2.2.2, ?_⟩
  intro sort hsp hss
  have hq := buildPolygon_of_perm sort mouse hits hsp
  exact ⟨sorted_angles_unique (hsp.trans hperm.symm) hss hsorted, hq.1, hq.2.2.1⟩

/-- Witness for C20: four hits given in unsorted order, two of them at angle `0`; the sorted
hits and the first triangle, whose third vertex is the hit point of the last sorted hit. -/
theorem buildPolygon_sortHits_witness :
    sortHits [⟨(5, 5), (0, 1), 1, 1⟩, ⟨(5, 5), (1, 0), 0, 1⟩, ⟨(5, 5), (-1, 0), 2, 1⟩,
        ⟨(5, 5), (2, 0), 0, 2⟩] =
      [⟨(5, 5), (1, 0), 0, 1⟩, ⟨(5, 5), (2, 0), 0, 2⟩, ⟨(5, 5), (0, 1), 1, 1⟩,
        ⟨(5, 5), (-1, 0), 2, 1⟩] ∧
    (buildPolygon sortHits (5, 5) [⟨(5, 5), (0, 1), 1, 1⟩, ⟨(5, 5), (1, 0), 0, 1⟩,
        ⟨(5, 5), (-1, 0), 2, 1⟩, ⟨(5, 5), (2, 0), 0, 2⟩]).map Vertex.position =
      [(5, 5), (1, 0), (-1, 0), (5, 5), (2, 0), (1, 0), (5, 5), (0, 1), (2, 0),
        (5, 5), (-1, 0), (0, 1)] ∧
    ∃ cur prev,
      (sortHits [⟨(5, 5), (0, 1), 1, 1⟩, ⟨(5, 5), (1, 0), 0, 1⟩, ⟨(5, 5), (-1, 0), 2, 1⟩,
        ⟨(5, 5), (2, 0), 0, 2⟩])[0]? = some cur ∧
      (sortHits [⟨(5, 5), (0, 1), 1, 1⟩, ⟨(5, 5), (1, 0), 0, 1⟩, ⟨(5, 5), (-1, 0), 2, 1⟩,
        ⟨(5, 5), (2, 0), 0, 2⟩])[(0 +
          ([⟨(5, 5), (0, 1), 1, 1⟩, ⟨(5, 5), (1, 0), 0, 1⟩, ⟨(5, 5), (-1, 0), 2, 1⟩,
            ⟨(5, 5), (2, 0), 0, 2⟩] : List RayHit).length - 1) %
          ([⟨(5, 5), (0, 1), 1, 1⟩, ⟨(5, 5), (1, 0), 0, 1⟩, ⟨(5, 5), (-1, 0), 2, 1⟩,
            ⟨(5, 5), (2, 0), 0, 2⟩] : List RayHit).length]? = some prev ∧
      (((buildPolygon sortHits (5, 5) [⟨(5, 5), (0, 1), 1, 1⟩, ⟨(5, 5), (1, 0), 0, 1⟩,
        ⟨(5, 5), (-1, 0), 2, 1⟩, ⟨(5, 5), (2, 0), 0, 2⟩]).drop (3 * 0)).take 3).map
          Vertex.position = [(5, 5), cur.hitPoint, prev.hitPoint] :=
  ⟨rfl, by decide!,
    (buildPolygon_sortHits (5, 5) [⟨(5, 5), (0, 1), 1, 1⟩, ⟨(5, 5), (1, 0), 0, 1⟩,
      ⟨(5, 5), (-1, 0), 2, 1⟩, ⟨(5, 5), (2, 0), 0, 2⟩]).2.2.2.2.1 0 (by decide)⟩

end ShadowCasting
